import Mathlib

/-!
# Back-testing core: `BackTest.Run` and `BackTest.Portfolio`

A shallow embedding of `src/backtest/backtest.go`.

* `float64` quantities of the simulation loop are values of an arbitrary carrier `F` with
  uninterpreted `+`, `-`, `*`, `/` and a decidable `≤`.  Every statement proved over `F`
  therefore holds for any reading of the arithmetic; exact rationals `ℚ` are used where a
  result is evaluated or where an algebraic law is needed, and the carrier `Finite64`,
  whose operations round as binary64 does, where the rounding decides.
* `Duration.Minutes` rounds as the Go method does; `BackTest.PortfolioMarshal` carries the
  profit margin and the CAGR as `float64` values that may be `+Inf`, `-Inf` or NaN, up to
  the `json.Marshal` that refuses them.
* `time.Time` values are integers (nanoseconds since the epoch).
* The slice of `*Order` is a list of order values; mutation through the pointers in the
  inner loop is explicit state passing, in slice order.
* A Go run-time panic (index out of range) is `none`, or a `PortfolioFailure`.
-/

namespace BackTesting

/-! ## Data model -/

/-- Modelled from the spec: the `OrderType` enumeration (spec §3, OrderSide), whose
declaration is not part of `backtest.go`. -/
inductive OrderType where
  | ASK
  | BID
  deriving DecidableEq, Repr

/-- Modelled from the spec: the order status (spec §3, OrderStatus). -/
inductive OrderStatus where
  | OPEN
  | CANCELED
  | MATCHED
  deriving DecidableEq, Repr

/-- Modelled from the spec: a price bar (spec §3, PriceBar), read in `backtest.go` through
the accessors `OpenPrice()`, `HighPrice()`, `LowPrice()` and `Timestamp()`. -/
structure Price (F : Type) where
  OpenPrice : F
  HighPrice : F
  LowPrice : F
  Timestamp : Int

/-- Modelled from the spec: the value returned by `Strategy.OpenNewOrder` (spec §4.3,
OrderIntent); `backtest.go` reads its `OrderType` and hands it to `NewOrder`. -/
structure OpeningOrder (F : Type) where
  OrderType : OrderType
  CancelOrderPrice : F
  TakeProfitPrice : F

/-- Modelled from the spec: an order (spec §3, Order). `backtest.go` reads `OrderType`,
`Amount`, `OpenPrice`, `CancelOrderPrice` and `TakeProfitPrice`; the status and the two
timestamps follow the spec. -/
structure Order (F : Type) where
  OrderType : OrderType
  Amount : F
  OpenPrice : F
  CancelOrderPrice : F
  TakeProfitPrice : F
  OpenedAt : Int
  ClosedAt : Option Int
  Status : OrderStatus

/-- Modelled from the spec: `NewOrder(openingOrder, amount, openPrice, timestamp)` creates an
open order carrying the intent's side and trigger prices (spec §4.3 steps 3 and 4). -/
def NewOrder {F : Type} (openingOrder : OpeningOrder F) (amount openPrice : F)
    (timestamp : Int) : Order F :=
  { OrderType := openingOrder.OrderType
    Amount := amount
    OpenPrice := openPrice
    CancelOrderPrice := openingOrder.CancelOrderPrice
    TakeProfitPrice := openingOrder.TakeProfitPrice
    OpenedAt := timestamp
    ClosedAt := none
    Status := OrderStatus.OPEN }

/-- Modelled from the spec: `Order.IsEnable` is true iff the status is OPEN (spec §4.1,
isOpen). -/
def Order.IsEnable {F : Type} (o : Order F) : Bool :=
  decide (o.Status = OrderStatus.OPEN)

/-- Modelled from the spec: `Order.MarkCancel` sets status CANCELED and records the closing
time; it leaves an order that is already terminal as it is (spec §4.1, markCanceled). -/
def Order.MarkCancel {F : Type} (o : Order F) ( t : Int) : Order F :=
  if o.IsEnable then { o with Status := OrderStatus.CANCELED, ClosedAt := some t } else o

/-- Modelled from the spec: `Order.MarkMatched` sets status MATCHED and records the closing
time; it leaves an order that is already terminal as it is (spec §4.1, markMatched). -/
def Order.MarkMatched {F : Type} (o : Order F) ( t : Int) : Order F :=
  if o.IsEnable then { o with Status := OrderStatus.MATCHED, ClosedAt := some t } else o

/-- The fields of `BacktestOptions` that `backtest.go` reads and writes. -/
structure BacktestOptions (F : Type) where
  Pair : String
  AmountPerOrder : F
  InitialBaseAmount : F
  CurrentBaseAmount : F
  InitialQuoteAmount : F
  CurrentQuoteAmount : F

/-- Modelled from the spec: the strategy capability (spec §6): `OpenNewOrder` answers a bar
with an intent or with nothing (`nil`), `Naming` is the strategy's name. -/
structure Strategy (F : Type) where
  OpenNewOrder : Price F → Option (OpeningOrder F)
  Naming : String

/-- The struct `BackTest`; `Prices` stands for `DataHandler.Prices`. -/
structure BackTest (F : Type) where
  myStrategy : Strategy F
  Prices : List (Price F)
  BackTestOptions : BacktestOptions F
  order : List (Order F)

/-- The state touched by the loop of `Run`: `exchangeHandler.HistoryOrders` and
`bt.BackTestOptions`. -/
structure RunState (F : Type) where
  HistoryOrders : List (Order F)
  Options : BacktestOptions F

/-- Modelled from the spec: `ExchangeHandler.CountEnabledOrder` counts the orders with
`IsEnable()` true (spec §4.2, countOpenOrders). -/
def CountEnabledOrder {F : Type} (history : List (Order F)) : Nat :=
  (history.filter (fun o => o.IsEnable)).length

section Loop

variable {F : Type} [Add F] [Sub F] [Mul F] [Div F] [LE F] [∀ a b : F, Decidable (a ≤ b)]

/-! ## `BackTest.Run` -/

/-- Lines 38–45 of `Run`: the cancellation check on one order. -/
def cancelCheck (price : Price F) (currentOrder : Order F) (options : BacktestOptions F) :
    Order F × BacktestOptions F :=
  if currentOrder.IsEnable = true ∧ price.LowPrice ≤ currentOrder.CancelOrderPrice
      ∧ currentOrder.CancelOrderPrice ≤ price.HighPrice then
    (currentOrder.MarkCancel price.Timestamp,
      if currentOrder.OrderType = OrderType.ASK then
        { options with CurrentBaseAmount := options.CurrentBaseAmount + currentOrder.Amount }
      else
        { options with CurrentQuoteAmount :=
            options.CurrentQuoteAmount + currentOrder.Amount * currentOrder.OpenPrice })
  else
    (currentOrder, options)

/-- Lines 47–54 of `Run`: the take-profit check on one order. -/
def takeProfitCheck (price : Price F) (currentOrder : Order F) (options : BacktestOptions F) :
    Order F × BacktestOptions F :=
  if currentOrder.IsEnable = true ∧ price.LowPrice ≤ currentOrder.TakeProfitPrice
      ∧ currentOrder.TakeProfitPrice ≤ price.HighPrice then
    (currentOrder.MarkMatched price.Timestamp,
      if currentOrder.OrderType = OrderType.ASK then
        { options with CurrentQuoteAmount :=
            options.CurrentQuoteAmount + currentOrder.Amount * currentOrder.OpenPrice }
      else
        { options with CurrentBaseAmount :=
            options.CurrentBaseAmount + currentOrder.Amount / currentOrder.OpenPrice })
  else
    (currentOrder, options)

/-- Lines 38–54 of `Run`: the body of the inner loop, the cancellation check followed by the
take-profit check on the order as the first check left it. -/
def resolveOrder (price : Price F) (currentOrder : Order F) (options : BacktestOptions F) :
    Order F × BacktestOptions F :=
  takeProfitCheck price (cancelCheck price currentOrder options).1
    (cancelCheck price currentOrder options).2

/-- Lines 37–55 of `Run`: the inner loop over `HistoryOrders`, in slice order, the balances
being threaded from one order to the next. -/
def resolveOrders (price : Price F) :
    List (Order F) → BacktestOptions F → List (Order F) × BacktestOptions F
  | [], options => ([], options)
  | currentOrder :: rest, options =>
    ((resolveOrder price currentOrder options).1
        :: (resolveOrders price rest (resolveOrder price currentOrder options).2).1,
      (resolveOrders price rest (resolveOrder price currentOrder options).2).2)

/-- Lines 36–56 of `Run`: the inner loop behind its `CountEnabledOrder() != 0` guard. -/
def resolveBar (price : Price F) (s : RunState F) : RunState F :=
  if CountEnabledOrder s.HistoryOrders ≠ 0 then
    { HistoryOrders := (resolveOrders price s.HistoryOrders s.Options).1
      Options := (resolveOrders price s.HistoryOrders s.Options).2 }
  else s

/-- Lines 65–70 of `Run`: the ASK branch of the opening step. -/
def openAsk (price : Price F) (openingOrder : OpeningOrder F) (s : RunState F) : RunState F :=
  if openingOrder.OrderType = OrderType.ASK
      ∧ s.Options.AmountPerOrder / price.OpenPrice ≤ s.Options.CurrentBaseAmount then
    { HistoryOrders := s.HistoryOrders ++
        [NewOrder openingOrder (s.Options.AmountPerOrder / price.OpenPrice) price.OpenPrice
          price.Timestamp]
      Options := { s.Options with
        CurrentBaseAmount :=
          s.Options.CurrentBaseAmount - s.Options.AmountPerOrder / price.OpenPrice } }
  else s

/-- Lines 71–76 of `Run`: the BID branch of the opening step. -/
def openBid (price : Price F) (openingOrder : OpeningOrder F) (s : RunState F) : RunState F :=
  if openingOrder.OrderType = OrderType.BID
      ∧ s.Options.AmountPerOrder ≤ s.Options.CurrentQuoteAmount then
    { HistoryOrders := s.HistoryOrders ++
        [NewOrder openingOrder s.Options.AmountPerOrder price.OpenPrice price.Timestamp]
      Options := { s.Options with
        CurrentQuoteAmount := s.Options.CurrentQuoteAmount - s.Options.AmountPerOrder } }
  else s

/-- Lines 58–76 of `Run`: the strategy is asked for an intent; `nil` continues with the next
bar, otherwise the two opening branches run one after the other. -/
def openStep (myStrategy : Strategy F) (price : Price F) (s : RunState F) : RunState F :=
  match myStrategy.OpenNewOrder price with
  | none => s
  | some openingOrder => openBid price openingOrder (openAsk price openingOrder s)

/-- Lines 36–76 of `Run`: the body of the loop over the prices. -/
def runBar (myStrategy : Strategy F) (s : RunState F) (price : Price F) : RunState F :=
  openStep myStrategy price (resolveBar price s)

/-- The loop of `Run` (lines 35–77) started in an arbitrary state. -/
def runFrom (myStrategy : Strategy F) (s : RunState F) (prices : List (Price F)) : RunState F :=
  prices.foldl (runBar myStrategy) s

/-- The method `BackTest.Run` (lines 33–79): the loop started with the empty history of a
fresh exchange handler; the final history is stored in `bt.order`. -/
def BackTest.Run (bt : BackTest F) : BackTest F :=
  { bt with
    BackTestOptions :=
      (runFrom bt.myStrategy { HistoryOrders := [], Options := bt.BackTestOptions } bt.Prices).Options
    order :=
      (runFrom bt.myStrategy { HistoryOrders := [], Options := bt.BackTestOptions }
        bt.Prices).HistoryOrders }

end Loop

/-! ## `BackTest.Portfolio` -/

/-- Indexing a Go slice with an `int`: out of range is a run-time panic. -/
def index {α : Type} (xs : List α) (i : Int) : Option α :=
  if i < 0 then none else xs[i.toNat]?

/-- The pieces of `s` between the occurrences of the separator character, as
`strings.Split(s, "/")` returns them for a one-character separator. -/
def Split : List Char → Char → List (List Char)
  | [], _ => [[]]
  | c :: cs, sep =>
    if c = sep then [] :: Split cs sep
    else
      match Split cs sep with
      | [] => [[c]]
      | w :: ws => (c :: w) :: ws

/-- The largest `time.Duration` (an `int64` count of nanoseconds). -/
def maxDuration : Int := 2 ^ 63 - 1

/-- The smallest `time.Duration`. -/
def minDuration : Int := -(2 ^ 63)

/-- The method `Time.Sub`: the difference in nanoseconds, saturated at the range of
`time.Duration`. -/
def Time.Sub (t u : Int) : Int :=
  if t - u < minDuration then minDuration
  else if maxDuration < t - u then maxDuration
  else t - u

/-- The method `Duration.Hours`. -/
def Duration.Hours (d : Int) : ℚ := (d : ℚ) / 3600000000000

/-- Rounding of a rational to the nearest integer, a tie going to the even neighbour. -/
def roundHalfEven (q : ℚ) : Int :=
  if q - ⌊q⌋ < 1 / 2 then ⌊q⌋
  else if 1 / 2 < q - ⌊q⌋ then ⌊q⌋ + 1
  else if ⌊q⌋ % 2 = 0 then ⌊q⌋ else ⌊q⌋ + 1

/-- Rounding of a positive rational to a `float64` with its 53 significant bits: for `x` with
binary exponent `e` (`2 ^ e ≤ x < 2 ^ (e + 1)`), the multiple of `2 ^ (e - 52)` nearest to
`x`, a tie going to the even multiple. -/
def roundPos (x : ℚ) : ℚ :=
  (roundHalfEven (x / 2 ^ (Int.log 2 x - 52)) : ℚ) * 2 ^ (Int.log 2 x - 52)

/-- The rounding of IEEE 754 binary64 arithmetic (round to nearest, ties to even) that Go
applies to the exact result of each `float64` operation, for results in the normal range
(neither overflow nor subnormal). -/
def roundFloat64 (x : ℚ) : ℚ :=
  if x = 0 then 0 else if 0 < x then roundPos x else -roundPos (-x)

/-- The method `Duration.Minutes` of Go's `time` package,
`min := d / Minute; nsec := d % Minute; return float64(min) + float64(nsec)/(60*1e9)`:
the two `int64` parts convert to `float64` exactly, the quotient and the sum are each
rounded. -/
def Duration.Minutes (d : Int) : ℚ :=
  roundFloat64 ((Int.tdiv d 60000000000 : ℚ)
    + roundFloat64 ((Int.tmod d 60000000000 : ℚ) / 60000000000))

/-- The conversion `int(x)` of a `float64`: truncation toward zero. -/
def toInt (x : ℚ) : Int := Int.tdiv x.num x.den

/-- The function `calculateCAGR` (lines 148–153); `pow` stands for `math.Pow`. -/
def calculateCAGR (pow : ℚ → ℚ → ℚ) (startDate endDate : Int)
    (initialAmount currentAmount : ℚ) : ℚ :=
  let years := Duration.Hours (Time.Sub endDate startDate) / 24 / 365.25
  let cagr := pow (currentAmount / initialAmount) (1 / years) - 1
  cagr * 100

/-- The function `minute2Interval` (lines 199–214). -/
def minute2Interval (m : Int) : String :=
  if m = 1 then "1m"
  else if m = 2 then "2m"
  else if m = 3 then "3m"
  else if m = 5 then "5m"
  else if m = 60 then "1h"
  else if m = 120 then "2h"
  else toString m ++ "m"

/-- The struct `Portfolio` assembled by `BackTest.Portfolio` (lines 101–122). -/
structure Portfolio where
  Pair : String
  BaseCoin : String
  QuoteCoin : String
  AmountPerOrder : ℚ
  InitialBaseAmount : ℚ
  CurrentBaseAmount : ℚ
  InitialQuoteAmount : ℚ
  CurrentQuoteAmount : ℚ
  InitialSumAmount : ℚ
  CurrentSumAmount : ℚ
  Profit : ℚ
  ProfitMargin : ℚ
  Cagr : ℚ
  Orders : List (Order ℚ)
  CreatedAt : Int
  Strategy : String
  Prices : List (Price ℚ)
  Interval : String
  From : Int
  To : Int

/-- The method `BackTest.Portfolio` up to the assembly of the report (lines 81–122), over
exact rationals; `pow` stands for `math.Pow` and `now` for `time.Now()`. The result is `none`
where the Go code panics on an index out of range. Serialising, logging and storing the
report (lines 124–145) are outside the embedding. -/
def BackTest.Portfolio (pow : ℚ → ℚ → ℚ) (now : Int) (bt : BackTest ℚ) : Option Portfolio := do
  let options := bt.BackTestOptions
  let coins := Split options.Pair.data '/'
  let baseCoin ← index coins 0
  let quoteCoin ← index coins 1
  let first ← index bt.Prices 0
  let initialSumAmount := options.InitialBaseAmount * first.OpenPrice + options.InitialQuoteAmount
  let currentSumAmount := options.CurrentBaseAmount * first.OpenPrice + options.CurrentQuoteAmount
  let profit := currentSumAmount - initialSumAmount
  let profitMargin := profit / initialSumAmount * 100
  let l : Int := bt.Prices.length
  let startDate := first.Timestamp
  let last ← index bt.Prices (l - 1)
  let endDate := last.Timestamp
  let cagr := calculateCAGR pow startDate endDate initialSumAmount currentSumAmount
  let beforeLast ← index bt.Prices (l - 2)
  let duration := Time.Sub last.Timestamp beforeLast.Timestamp
  let minutes := Duration.Minutes duration
  pure
    { Pair := options.Pair
      BaseCoin := String.mk baseCoin
      QuoteCoin := String.mk quoteCoin
      AmountPerOrder := options.AmountPerOrder
      InitialBaseAmount := options.InitialBaseAmount
      CurrentBaseAmount := options.CurrentBaseAmount
      InitialQuoteAmount := options.InitialQuoteAmount
      CurrentQuoteAmount := options.CurrentQuoteAmount
      InitialSumAmount := initialSumAmount
      CurrentSumAmount := currentSumAmount
      Profit := profit
      ProfitMargin := profitMargin
      Cagr := cagr
      Orders := bt.order
      CreatedAt := now
      Strategy := bt.myStrategy.Naming
      Prices := bt.Prices
      Interval := minute2Interval (toInt minutes)
      From := startDate
      To := endDate }

/-! ## `float64` arithmetic on finite values -/

/-- A finite `float64` value, held as the rational number it denotes. On this carrier the
four operations of `Run` are those of Go on finite values: the exact result, rounded by
`roundFloat64`. A result that overflows and a division by zero are outside the carrier. -/
structure Finite64 where
  val : ℚ
deriving DecidableEq

instance : Add Finite64 := ⟨fun a b => ⟨roundFloat64 (a.val + b.val)⟩⟩

instance : Sub Finite64 := ⟨fun a b => ⟨roundFloat64 (a.val - b.val)⟩⟩

instance : Mul Finite64 := ⟨fun a b => ⟨roundFloat64 (a.val * b.val)⟩⟩

instance : Div Finite64 := ⟨fun a b => ⟨roundFloat64 (a.val / b.val)⟩⟩

instance : LE Finite64 := ⟨fun a b => a.val ≤ b.val⟩

instance (a b : Finite64) : Decidable (a ≤ b) := inferInstanceAs (Decidable (a.val ≤ b.val))

/-! ## `BackTest.Portfolio` through `json.Marshal` -/

/-- A `float64` value as the valuation can produce it: a finite value, or one of the three
values that a division by zero brings in and that `json.Marshal` refuses. -/
inductive Float64 where
  | finite (q : ℚ)
  | posInf
  | negInf
  | nan
deriving DecidableEq

/-- The quotient `a / b` of two finite `float64` values: a division by zero gives `+Inf` or
`-Inf` after the sign of the dividend, and `NaN` for `0 / 0`. The zero of the rationals
stands for `+0`; with `-0` as divisor the two infinities change places, and the quotient is
as little finite. -/
def Float64.div (a b : ℚ) : Float64 :=
  if b ≠ 0 then Float64.finite (a / b)
  else if 0 < a then Float64.posInf
  else if a < 0 then Float64.negInf
  else Float64.nan

/-- The difference `x - c` of a `float64` and a finite value. -/
def Float64.sub (x : Float64) (c : ℚ) : Float64 :=
  match x with
  | Float64.finite q => Float64.finite (q - c)
  | Float64.posInf => Float64.posInf
  | Float64.negInf => Float64.negInf
  | Float64.nan => Float64.nan

/-- The product `x * c` of a `float64` and a finite value. -/
def Float64.mul (x : Float64) (c : ℚ) : Float64 :=
  match x with
  | Float64.finite q => Float64.finite (q * c)
  | Float64.posInf =>
    if 0 < c then Float64.posInf else if c < 0 then Float64.negInf else Float64.nan
  | Float64.negInf =>
    if 0 < c then Float64.negInf else if c < 0 then Float64.posInf else Float64.nan
  | Float64.nan => Float64.nan

/-- The function `calculateCAGR` (lines 148–153) with the values of its two quotients that
are not finite; `pow` stands for `math.Pow` on all of `float64`. -/
def Float64.calculateCAGR (pow : Float64 → Float64 → Float64) (startDate endDate : Int)
    (initialAmount currentAmount : ℚ) : Float64 :=
  let years := Duration.Hours (Time.Sub endDate startDate) / 24 / 365.25
  let cagr := (pow (Float64.div currentAmount initialAmount) (Float64.div 1 years)).sub 1
  cagr.mul 100

/-- The two ways in which `BackTest.Portfolio` stops without a report: the run-time panic of
an index out of range, and the `log.Fatal` of line 126, "cannot marshal portfolio". -/
inductive PortfolioFailure where
  | indexOutOfRange
  | cannotMarshal
deriving DecidableEq

/-- The method `BackTest.Portfolio` through the serialisation of the report (lines 81–127):
the assembly of `BackTest.Portfolio`, with the profit margin and the CAGR as the `float64`
values they are, followed by `json.Marshal`, which returns an error for a `float64` field
that is NaN or ±Inf, upon which line 126 ends the process. All other `float64` fields are
copies, sums, differences and products of the finite inputs; finite values are exact
rationals, so that the overflow of a finite operation is not represented. The result is the
report that is serialised, or the way the method stopped. -/
def BackTest.PortfolioMarshal (pow : Float64 → Float64 → Float64) (now : Int)
    (bt : BackTest ℚ) : Except PortfolioFailure BackTesting.Portfolio :=
  let options := bt.BackTestOptions
  let coins := Split options.Pair.data '/'
  let l : Int := bt.Prices.length
  match index coins 0, index coins 1, index bt.Prices 0, index bt.Prices (l - 1),
      index bt.Prices (l - 2) with
  | some baseCoin, some quoteCoin, some first, some last, some beforeLast =>
    let initialSumAmount := options.InitialBaseAmount * first.OpenPrice + options.InitialQuoteAmount
    let currentSumAmount := options.CurrentBaseAmount * first.OpenPrice + options.CurrentQuoteAmount
    let profit := currentSumAmount - initialSumAmount
    let startDate := first.Timestamp
    let endDate := last.Timestamp
    let duration := Time.Sub last.Timestamp beforeLast.Timestamp
    let minutes := Duration.Minutes duration
    match (Float64.div profit initialSumAmount).mul 100,
        Float64.calculateCAGR pow startDate endDate initialSumAmount currentSumAmount with
    | Float64.finite profitMargin, Float64.finite cagr =>
      Except.ok
        { Pair := options.Pair
          BaseCoin := String.mk baseCoin
          QuoteCoin := String.mk quoteCoin
          AmountPerOrder := options.AmountPerOrder
          InitialBaseAmount := options.InitialBaseAmount
          CurrentBaseAmount := options.CurrentBaseAmount
          InitialQuoteAmount := options.InitialQuoteAmount
          CurrentQuoteAmount := options.CurrentQuoteAmount
          InitialSumAmount := initialSumAmount
          CurrentSumAmount := currentSumAmount
          Profit := profit
          ProfitMargin := profitMargin
          Cagr := cagr
          Orders := bt.order
          CreatedAt := now
          Strategy := bt.myStrategy.Naming
          Prices := bt.Prices
          Interval := minute2Interval (toInt minutes)
          From := startDate
          To := endDate }
    | _, _ => Except.error PortfolioFailure.cannotMarshal
  | _, _, _, _, _ => Except.error PortfolioFailure.indexOutOfRange

/-! ## The strategy name in the storage key -/

/-- The three functions of Go's `unicode` package that `backtest.go` calls
(`unicode.IsLetter`, `unicode.IsDigit`, and `unicode.ToLower` through `strings.ToLower`);
their tables are not part of the repository and are taken as given. -/
structure Unicode where
  IsLetter : Char → Bool
  IsDigit : Char → Bool
  ToLower : Char → Char

/-- The function `replaceNonAlphabeticCharacterToDash` (lines 187–197) on the runes of the
string: `strings.ToLower` maps `unicode.ToLower` over them, `strings.Map` then keeps the
letters and the digits and writes a dash for every other rune. -/
def replaceNonAlphabeticCharacterToDash (u : Unicode) (str : List Char) : List Char :=
  (str.map u.ToLower).map
    (fun r => if u.IsLetter r then r else if u.IsDigit r then r else '-')

/-! ## The loop without the guard on the open-order count -/

section Unguarded

variable {F : Type} [Add F] [Sub F] [Mul F] [Div F] [LE F] [∀ a b : F, Decidable (a ≤ b)]

/-- The body of the loop of `Run` with the check `CountEnabledOrder() != 0` removed: the
history is always iterated. -/
def runBarUnguarded (myStrategy : Strategy F) (s : RunState F) (price : Price F) : RunState F :=
  openStep myStrategy price
    { HistoryOrders := (resolveOrders price s.HistoryOrders s.Options).1
      Options := (resolveOrders price s.HistoryOrders s.Options).2 }

/-- The loop of `Run` with the check removed, started in an arbitrary state. -/
def runFromUnguarded (myStrategy : Strategy F) (s : RunState F) (prices : List (Price F)) :
    RunState F :=
  prices.foldl (runBarUnguarded myStrategy) s

/-- The method `Run` with the check removed. -/
def BackTest.RunUnguarded (bt : BackTest F) : BackTest F :=
  { bt with
    BackTestOptions :=
      (runFromUnguarded bt.myStrategy { HistoryOrders := [], Options := bt.BackTestOptions }
        bt.Prices).Options
    order :=
      (runFromUnguarded bt.myStrategy { HistoryOrders := [], Options := bt.BackTestOptions }
        bt.Prices).HistoryOrders }

end Unguarded

/-! ## Concrete inputs -/

/-- A bar with the given open price, range `[low, high]` and timestamp. -/
def Scenario.bar (openPrice low high : ℚ) (timestamp : Int) : Price ℚ :=
  { OpenPrice := openPrice, HighPrice := high, LowPrice := low, Timestamp := timestamp }

/-- One hour in nanoseconds. -/
def Scenario.hour : Int := 3600000000000

/-- Balances of the scenarios: no base units, 100 quote units, 100 quote units per order. -/
def Scenario.options : BacktestOptions ℚ :=
  { Pair := "BTC/USDT", AmountPerOrder := 100, InitialBaseAmount := 0, CurrentBaseAmount := 0,
    InitialQuoteAmount := 100, CurrentQuoteAmount := 100 }

/-- A strategy that proposes the given intent on the bar stamped `0` and nothing elsewhere. -/
def Scenario.onFirstBar (openingOrder : OpeningOrder ℚ) : Strategy ℚ :=
  { OpenNewOrder := fun price => if price.Timestamp = 0 then some openingOrder else none
    Naming := "first bar" }

/-- A strategy that never proposes a trade. -/
def Scenario.never : Strategy ℚ :=
  { OpenNewOrder := fun _ => none, Naming := "never" }

/-- An open BID order of 100 quote units opened at price 100, cancel price 90, take-profit
price 94. -/
def Scenario.bidOrder : Order ℚ :=
  NewOrder { OrderType := OrderType.BID, CancelOrderPrice := 90, TakeProfitPrice := 94 } 100 100 0

/-- An open ASK order of 1 base unit opened at price 100, cancel price 90, take-profit
price 94. -/
def Scenario.askOrder : Order ℚ :=
  NewOrder { OrderType := OrderType.ASK, CancelOrderPrice := 90, TakeProfitPrice := 94 } 1 100 0

/-- A state whose history holds the open BID order. -/
def Scenario.oneBid : RunState ℚ :=
  { HistoryOrders := [Scenario.bidOrder], Options := { Scenario.options with CurrentQuoteAmount := 0 } }

/-- A state whose history holds the open ASK order. -/
def Scenario.oneAsk : RunState ℚ :=
  { HistoryOrders := [Scenario.askOrder], Options := Scenario.options }

/-- Scenario A: three bars at constant price 100 and a strategy that never trades. -/
def Scenario.A : BackTest ℚ :=
  { myStrategy := Scenario.never
    Prices := [Scenario.bar 100 100 100 0, Scenario.bar 100 100 100 Scenario.hour,
      Scenario.bar 100 100 100 (2 * Scenario.hour)]
    BackTestOptions := Scenario.options
    order := [] }

/-- Scenario B: a BID order opened on bar 0 at price 100 with take-profit price 92 and cancel
price 80; bar 1 has range `[90, 95]`. -/
def Scenario.B : BackTest ℚ :=
  { myStrategy := Scenario.onFirstBar
      { OrderType := OrderType.BID, CancelOrderPrice := 80, TakeProfitPrice := 92 }
    Prices := [Scenario.bar 100 100 100 0, Scenario.bar 93 90 95 Scenario.hour]
    BackTestOptions := Scenario.options
    order := [] }

/-- Scenario C: a BID order opened on bar 0 at price 100 with cancel price 90 and take-profit
price 94; bar 1 has range `[88, 96]`. -/
def Scenario.C : BackTest ℚ :=
  { myStrategy := Scenario.onFirstBar
      { OrderType := OrderType.BID, CancelOrderPrice := 90, TakeProfitPrice := 94 }
    Prices := [Scenario.bar 100 100 100 0, Scenario.bar 92 88 96 Scenario.hour]
    BackTestOptions := Scenario.options
    order := [] }

/-- Two bars whose timestamps run backwards by 8766 hours, with an initial value of 1000 and a
current value of 1100 quote units. -/
def Scenario.backwards : BackTest ℚ :=
  { myStrategy := Scenario.never
    Prices := [Scenario.bar 100 100 100 (8766 * Scenario.hour), Scenario.bar 100 100 100 0]
    BackTestOptions :=
      { Scenario.options with InitialQuoteAmount := 1000, CurrentQuoteAmount := 1100 }
    order := [] }

/-- A stand-in for `math.Pow` on exact rationals, for evaluation: the integer power where the
exponent is an integer, and 1 elsewhere. It has the two special cases of `math.Pow` that the
valuation relies on, `Pow(1, y) = 1` and `Pow(x, 1) = x`. -/
def Scenario.pow (x y : ℚ) : ℚ := if y.den = 1 then x ^ y.num else 1

/-- A stand-in for `math.Pow` on all of `float64`, for evaluation: on a finite base and a
finite integer exponent it is the integer power (`+Inf` for a negative power of zero, as
`math.Pow` has it); its other values, 1 for a fractional exponent and NaN for an argument
that is not finite, are placeholders. -/
def Scenario.pow64 (x y : Float64) : Float64 :=
  match x, y with
  | Float64.finite a, Float64.finite b =>
    if b.den = 1 then
      if a = 0 ∧ b.num < 0 then Float64.posInf else Float64.finite (a ^ b.num)
    else Float64.finite 1
  | _, _ => Float64.nan

/-- Two bars one hour apart and balances whose initial value is 0, the current value being
100 quote units. -/
def Scenario.zeroInitial : BackTest ℚ :=
  { myStrategy := Scenario.never
    Prices := [Scenario.bar 100 100 100 0, Scenario.bar 100 100 100 Scenario.hour]
    BackTestOptions := { Scenario.options with InitialQuoteAmount := 0 }
    order := [] }

/-- Scenario D: two bars exactly one year of 365.25 days (8766 hours) apart, an initial value
of 1000 and a current value of 1100 quote units. -/
def Scenario.D : BackTest ℚ :=
  { myStrategy := Scenario.never
    Prices := [Scenario.bar 100 100 100 0, Scenario.bar 100 100 100 (8766 * Scenario.hour)]
    BackTestOptions :=
      { Scenario.options with InitialQuoteAmount := 1000, CurrentQuoteAmount := 1100 }
    order := [] }

/-- Scenario E: three bars, the last two the given number of nanoseconds apart. -/
def Scenario.E (gap : Int) : BackTest ℚ :=
  { myStrategy := Scenario.never
    Prices := [Scenario.bar 100 100 100 0, Scenario.bar 100 100 100 Scenario.hour,
      Scenario.bar 100 100 100 (Scenario.hour + gap)]
    BackTestOptions := Scenario.options
    order := [] }

/-- One minute in nanoseconds. -/
def Scenario.minute : Int := 60000000000

/-- The tables of the `unicode` package cut down to ASCII: the letters `a`–`z` and `A`–`Z`,
the digits `0`–`9`, and the lower case of `A`–`Z`. -/
def Scenario.ascii : Unicode :=
  { IsLetter := fun r => decide (('a' ≤ r ∧ r ≤ 'z') ∨ ('A' ≤ r ∧ r ≤ 'Z'))
    IsDigit := fun r => decide ('0' ≤ r ∧ r ≤ '9')
    ToLower := fun r => if 'A' ≤ r ∧ r ≤ 'Z' then Char.ofNat (r.toNat + 32) else r }

/-- A bar in `float64` arithmetic with the given open price, range `[low, high]` and
timestamp. -/
def Scenario.bar64 (openPrice low high : ℚ) (timestamp : Int) : Price Finite64 :=
  { OpenPrice := ⟨openPrice⟩, HighPrice := ⟨high⟩, LowPrice := ⟨low⟩, Timestamp := timestamp }

/-- An ASK intent in `float64` arithmetic with cancel price 5 and take-profit price 12. -/
def Scenario.askIntent64 : OpeningOrder Finite64 :=
  { OrderType := OrderType.ASK, CancelOrderPrice := ⟨5⟩, TakeProfitPrice := ⟨12⟩ }

/-- Scenario F, in `float64` arithmetic: 10 base units and no quote unit, 100 quote units
per order; an ASK order proposed on bar 0, whose open price is 11, with cancel price 5 and
take-profit price 12; bar 1 has range `[11.5, 12.5]`. -/
def Scenario.F : BackTest Finite64 :=
  { myStrategy :=
      { OpenNewOrder := fun price =>
          if price.Timestamp = 0 then some Scenario.askIntent64 else none
        Naming := "first bar" }
    Prices := [Scenario.bar64 11 11 11 0, Scenario.bar64 12 (23 / 2) (25 / 2) Scenario.hour]
    BackTestOptions :=
      { Pair := "BTC/USDT", AmountPerOrder := ⟨100⟩, InitialBaseAmount := ⟨10⟩,
        CurrentBaseAmount := ⟨10⟩, InitialQuoteAmount := ⟨0⟩, CurrentQuoteAmount := ⟨0⟩ }
    order := [] }

/-- An ASK intent with cancel price 90 and take-profit price 94. -/
def Scenario.askIntent : OpeningOrder ℚ :=
  { OrderType := OrderType.ASK, CancelOrderPrice := 90, TakeProfitPrice := 94 }

/-! ## Facts about the order operations -/

section Lemmas

set_option linter.unusedSectionVars false

variable {F : Type} [Add F] [Sub F] [Mul F] [Div F] [LE F] [∀ a b : F, Decidable (a ≤ b)]

theorem isEnable_iff (o : Order F) : o.IsEnable = true ↔ o.Status = OrderStatus.OPEN := by
  simp [Order.IsEnable]

theorem markCancel_of_enable (o : Order F) (t : Int) (h : o.IsEnable = true) :
    o.MarkCancel t = { o with Status := OrderStatus.CANCELED, ClosedAt := some t } := by
  simp [Order.MarkCancel, h]

theorem markMatched_of_enable (o : Order F) (t : Int) (h : o.IsEnable = true) :
    o.MarkMatched t = { o with Status := OrderStatus.MATCHED, ClosedAt := some t } := by
  simp [Order.MarkMatched, h]

theorem isEnable_markCancel (o : Order F) (t : Int) : (o.MarkCancel t).IsEnable = false := by
  by_cases h : o.IsEnable = true
  · rw [markCancel_of_enable o t h]; simp [Order.IsEnable]
  · simp [Order.MarkCancel, h]

theorem isEnable_markMatched (o : Order F) (t : Int) : (o.MarkMatched t).IsEnable = false := by
  by_cases h : o.IsEnable = true
  · rw [markMatched_of_enable o t h]; simp [Order.IsEnable]
  · simp [Order.MarkMatched, h]

/-- A terminal order passes through the loop body untouched, and so do the balances. -/
theorem resolveOrder_of_not_enable (price : Price F) (o : Order F) (options : BacktestOptions F)
    (h : o.IsEnable = false) : resolveOrder price o options = (o, options) := by
  simp [resolveOrder, cancelCheck, takeProfitCheck, h]

/-- An open order whose cancel price is in the bar's range is cancelled and refunded; the
take-profit check then finds it closed. -/
theorem resolveOrder_of_cancel (price : Price F) (o : Order F) (options : BacktestOptions F)
    (h : o.IsEnable = true) (hlo : price.LowPrice ≤ o.CancelOrderPrice)
    (hhi : o.CancelOrderPrice ≤ price.HighPrice) :
    resolveOrder price o options =
      (o.MarkCancel price.Timestamp,
        if o.OrderType = OrderType.ASK then
          { options with CurrentBaseAmount := options.CurrentBaseAmount + o.Amount }
        else
          { options with CurrentQuoteAmount := options.CurrentQuoteAmount + o.Amount * o.OpenPrice }) := by
  simp [resolveOrder, cancelCheck, takeProfitCheck, h, hlo, hhi, isEnable_markCancel]

/-- An open order whose cancel price is outside the bar's range and whose take-profit price
is inside is matched and credited. -/
theorem resolveOrder_of_match (price : Price F) (o : Order F) (options : BacktestOptions F)
    (h : o.IsEnable = true)
    (hc : ¬ (price.LowPrice ≤ o.CancelOrderPrice ∧ o.CancelOrderPrice ≤ price.HighPrice))
    (hlo : price.LowPrice ≤ o.TakeProfitPrice) (hhi : o.TakeProfitPrice ≤ price.HighPrice) :
    resolveOrder price o options =
      (o.MarkMatched price.Timestamp,
        if o.OrderType = OrderType.ASK then
          { options with CurrentQuoteAmount := options.CurrentQuoteAmount + o.Amount * o.OpenPrice }
        else
          { options with CurrentBaseAmount := options.CurrentBaseAmount + o.Amount / o.OpenPrice }) := by
  have hc2 : ¬ (o.IsEnable = true ∧ price.LowPrice ≤ o.CancelOrderPrice
      ∧ o.CancelOrderPrice ≤ price.HighPrice) := fun hh => hc hh.2
  simp only [resolveOrder, cancelCheck, if_neg hc2, takeProfitCheck]
  rw [if_pos ⟨h, hlo, hhi⟩]

/-- An open order with neither trigger price in the bar's range stays as it is. -/
theorem resolveOrder_of_neither (price : Price F) (o : Order F) (options : BacktestOptions F)
    (hc : ¬ (price.LowPrice ≤ o.CancelOrderPrice ∧ o.CancelOrderPrice ≤ price.HighPrice))
    (ht : ¬ (price.LowPrice ≤ o.TakeProfitPrice ∧ o.TakeProfitPrice ≤ price.HighPrice)) :
    resolveOrder price o options = (o, options) := by
  have hc2 : ¬ (o.IsEnable = true ∧ price.LowPrice ≤ o.CancelOrderPrice
      ∧ o.CancelOrderPrice ≤ price.HighPrice) := fun hh => hc hh.2
  have ht2 : ¬ (o.IsEnable = true ∧ price.LowPrice ≤ o.TakeProfitPrice
      ∧ o.TakeProfitPrice ≤ price.HighPrice) := fun hh => ht hh.2
  simp only [resolveOrder, cancelCheck, if_neg hc2, takeProfitCheck, if_neg ht2]

/-- What the loop body does to the order does not depend on the balances. -/
theorem resolveOrder_fst_indep (price : Price F) (o : Order F) (a b : BacktestOptions F) :
    (resolveOrder price o a).1 = (resolveOrder price o b).1 := by
  by_cases h : o.IsEnable = true
  · by_cases hc : price.LowPrice ≤ o.CancelOrderPrice ∧ o.CancelOrderPrice ≤ price.HighPrice
    · rw [resolveOrder_of_cancel price o a h hc.1 hc.2, resolveOrder_of_cancel price o b h hc.1 hc.2]
    · by_cases ht : price.LowPrice ≤ o.TakeProfitPrice ∧ o.TakeProfitPrice ≤ price.HighPrice
      · rw [resolveOrder_of_match price o a h hc ht.1 ht.2,
          resolveOrder_of_match price o b h hc ht.1 ht.2]
      · rw [resolveOrder_of_neither price o a hc ht, resolveOrder_of_neither price o b hc ht]
  · have h2 : o.IsEnable = false := by simpa using h
    rw [resolveOrder_of_not_enable price o a h2, resolveOrder_of_not_enable price o b h2]

/-- The history after the inner loop is the old history with the loop body applied to each
order, position by position. -/
theorem resolveOrders_fst (price : Price F) (history : List (Order F))
    (options ref : BacktestOptions F) :
    (resolveOrders price history options).1 =
      history.map (fun o => (resolveOrder price o ref).1) := by
  induction history generalizing options with
  | nil => rfl
  | cons o rest ih =>
    simp only [resolveOrders, List.map_cons]
    rw [ih, resolveOrder_fst_indep price o options ref]

theorem resolveOrders_of_none_enabled (price : Price F) (history : List (Order F))
    (options : BacktestOptions F) (h : ∀ o ∈ history, o.IsEnable = false) :
    resolveOrders price history options = (history, options) := by
  induction history generalizing options with
  | nil => rfl
  | cons o rest ih =>
    have ho : o.IsEnable = false := h o (List.mem_cons_self _ _)
    have hr : ∀ x ∈ rest, x.IsEnable = false := fun x hx => h x (List.mem_cons_of_mem _ hx)
    simp only [resolveOrders, resolveOrder_of_not_enable price o options ho, ih options hr]

theorem countEnabledOrder_eq_zero (history : List (Order F)) :
    CountEnabledOrder history = 0 ↔ ∀ o ∈ history, o.IsEnable = false := by
  simp [CountEnabledOrder, List.filter_eq_nil_iff]

/-- The guard on the open-order count does not change what the inner loop computes. -/
theorem resolveBar_eq (price : Price F) (s : RunState F) :
    resolveBar price s =
      { HistoryOrders := (resolveOrders price s.HistoryOrders s.Options).1
        Options := (resolveOrders price s.HistoryOrders s.Options).2 } := by
  unfold resolveBar
  by_cases h : CountEnabledOrder s.HistoryOrders = 0
  · have hall := (countEnabledOrder_eq_zero s.HistoryOrders).1 h
    simp [h, resolveOrders_of_none_enabled price s.HistoryOrders s.Options hall]
  · simp [h]

theorem resolveBar_history (price : Price F) (s : RunState F) :
    (resolveBar price s).HistoryOrders =
      s.HistoryOrders.map (fun o => (resolveOrder price o s.Options).1) := by
  rw [resolveBar_eq, resolveOrders_fst price s.HistoryOrders s.Options s.Options]

/-- The loop body changes no option but the two current balances. -/
theorem resolveOrder_amountPerOrder (price : Price F) (o : Order F)
    (options : BacktestOptions F) :
    (resolveOrder price o options).2.AmountPerOrder = options.AmountPerOrder := by
  unfold resolveOrder cancelCheck takeProfitCheck
  split_ifs <;> rfl

theorem resolveOrders_amountPerOrder (price : Price F) (history : List (Order F))
    (options : BacktestOptions F) :
    (resolveOrders price history options).2.AmountPerOrder = options.AmountPerOrder := by
  induction history generalizing options with
  | nil => rfl
  | cons o rest ih =>
    simp only [resolveOrders]
    rw [ih, resolveOrder_amountPerOrder]

/-! ### The opening step -/

theorem openStep_of_none (myStrategy : Strategy F) (price : Price F) (s : RunState F)
    (h : myStrategy.OpenNewOrder price = none) : openStep myStrategy price s = s := by
  simp [openStep, h]

theorem openStep_of_ask (myStrategy : Strategy F) (price : Price F) (s : RunState F)
    (openingOrder : OpeningOrder F) (h : myStrategy.OpenNewOrder price = some openingOrder)
    (hside : openingOrder.OrderType = OrderType.ASK)
    (hfunds : s.Options.AmountPerOrder / price.OpenPrice ≤ s.Options.CurrentBaseAmount) :
    openStep myStrategy price s =
      { HistoryOrders := s.HistoryOrders ++
          [NewOrder openingOrder (s.Options.AmountPerOrder / price.OpenPrice) price.OpenPrice
            price.Timestamp]
        Options := { s.Options with
          CurrentBaseAmount :=
            s.Options.CurrentBaseAmount - s.Options.AmountPerOrder / price.OpenPrice } } := by
  simp [openStep, h, openAsk, openBid, hside, hfunds]

theorem openStep_of_bid (myStrategy : Strategy F) (price : Price F) (s : RunState F)
    (openingOrder : OpeningOrder F) (h : myStrategy.OpenNewOrder price = some openingOrder)
    (hside : openingOrder.OrderType = OrderType.BID)
    (hfunds : s.Options.AmountPerOrder ≤ s.Options.CurrentQuoteAmount) :
    openStep myStrategy price s =
      { HistoryOrders := s.HistoryOrders ++
          [NewOrder openingOrder s.Options.AmountPerOrder price.OpenPrice price.Timestamp]
        Options := { s.Options with
          CurrentQuoteAmount := s.Options.CurrentQuoteAmount - s.Options.AmountPerOrder } } := by
  simp [openStep, h, openAsk, openBid, hside, hfunds]

theorem openStep_of_ask_short (myStrategy : Strategy F) (price : Price F) (s : RunState F)
    (openingOrder : OpeningOrder F) (h : myStrategy.OpenNewOrder price = some openingOrder)
    (hside : openingOrder.OrderType = OrderType.ASK)
    (hfunds : ¬ s.Options.AmountPerOrder / price.OpenPrice ≤ s.Options.CurrentBaseAmount) :
    openStep myStrategy price s = s := by
  simp [openStep, h, openAsk, openBid, hside, hfunds]

theorem openStep_of_bid_short (myStrategy : Strategy F) (price : Price F) (s : RunState F)
    (openingOrder : OpeningOrder F) (h : myStrategy.OpenNewOrder price = some openingOrder)
    (hside : openingOrder.OrderType = OrderType.BID)
    (hfunds : ¬ s.Options.AmountPerOrder ≤ s.Options.CurrentQuoteAmount) :
    openStep myStrategy price s = s := by
  simp [openStep, h, openAsk, openBid, hside, hfunds]

/-- The opening step leaves the history as it is or appends one order to it, the second only
on an intent whose side has the funds. -/
theorem openStep_history (myStrategy : Strategy F) (price : Price F) (s : RunState F) :
    (openStep myStrategy price s).HistoryOrders = s.HistoryOrders ∨
      ∃ openingOrder amount,
        myStrategy.OpenNewOrder price = some openingOrder ∧
        ((openingOrder.OrderType = OrderType.ASK ∧
            s.Options.AmountPerOrder / price.OpenPrice ≤ s.Options.CurrentBaseAmount) ∨
          (openingOrder.OrderType = OrderType.BID ∧
            s.Options.AmountPerOrder ≤ s.Options.CurrentQuoteAmount)) ∧
        (openStep myStrategy price s).HistoryOrders =
          s.HistoryOrders ++ [NewOrder openingOrder amount price.OpenPrice price.Timestamp] := by
  cases h : myStrategy.OpenNewOrder price with
  | none => left; rw [openStep_of_none myStrategy price s h]
  | some openingOrder =>
    cases hside : openingOrder.OrderType with
    | ASK =>
      by_cases hfunds : s.Options.AmountPerOrder / price.OpenPrice ≤ s.Options.CurrentBaseAmount
      · right
        exact ⟨openingOrder, _, rfl, Or.inl ⟨hside, hfunds⟩,
          by rw [openStep_of_ask myStrategy price s openingOrder h hside hfunds]⟩
      · left; rw [openStep_of_ask_short myStrategy price s openingOrder h hside hfunds]
    | BID =>
      by_cases hfunds : s.Options.AmountPerOrder ≤ s.Options.CurrentQuoteAmount
      · right
        exact ⟨openingOrder, _, rfl, Or.inr ⟨hside, hfunds⟩,
          by rw [openStep_of_bid myStrategy price s openingOrder h hside hfunds]⟩
      · left; rw [openStep_of_bid_short myStrategy price s openingOrder h hside hfunds]

/-- After a bar, every position of the old history holds the order the loop body made of the
order that was there. -/
theorem runBar_getElem? (myStrategy : Strategy F) (s : RunState F) (price : Price F)
    (i : Nat) (o : Order F) (h : s.HistoryOrders[i]? = some o) :
    (runBar myStrategy s price).HistoryOrders[i]? = some (resolveOrder price o s.Options).1 := by
  have hres : (resolveBar price s).HistoryOrders[i]? = some (resolveOrder price o s.Options).1 := by
    rw [resolveBar_history, List.getElem?_map, h]; rfl
  unfold runBar
  rcases openStep_history myStrategy price (resolveBar price s) with hh | ⟨oo, a, _, _, hh⟩
  · rw [hh, hres]
  · rw [hh]
    have hlt : i < (resolveBar price s).HistoryOrders.length := by
      by_contra hge
      rw [List.getElem?_eq_none (by omega)] at hres
      exact Option.noConfusion hres
    rw [List.getElem?_append_left hlt, hres]

/-- A terminal order keeps its place and its content through any number of further bars. -/
theorem runFrom_getElem?_of_not_enable (myStrategy : Strategy F) (prices : List (Price F))
    (s : RunState F) (i : Nat) (o : Order F) (h : s.HistoryOrders[i]? = some o)
    (hterm : o.IsEnable = false) :
    (runFrom myStrategy s prices).HistoryOrders[i]? = some o := by
  induction prices generalizing s with
  | nil => exact h
  | cons price rest ih =>
    have hstep := runBar_getElem? myStrategy s price i o h
    rw [resolveOrder_of_not_enable price o s.Options hterm] at hstep
    exact ih (runBar myStrategy s price) hstep

/-- The loop body leaves the fields an order was created with as they are. -/
theorem resolveOrder_creation_fields (price : Price F) (o : Order F)
    (options : BacktestOptions F) :
    (resolveOrder price o options).1.OrderType = o.OrderType ∧
      (resolveOrder price o options).1.Amount = o.Amount ∧
      (resolveOrder price o options).1.OpenPrice = o.OpenPrice ∧
      (resolveOrder price o options).1.CancelOrderPrice = o.CancelOrderPrice ∧
      (resolveOrder price o options).1.TakeProfitPrice = o.TakeProfitPrice ∧
      (resolveOrder price o options).1.OpenedAt = o.OpenedAt := by
  by_cases h : o.IsEnable = true
  · by_cases hc : price.LowPrice ≤ o.CancelOrderPrice ∧ o.CancelOrderPrice ≤ price.HighPrice
    · rw [resolveOrder_of_cancel price o options h hc.1 hc.2, markCancel_of_enable o _ h]
      simp
    · by_cases ht : price.LowPrice ≤ o.TakeProfitPrice ∧ o.TakeProfitPrice ≤ price.HighPrice
      · rw [resolveOrder_of_match price o options h hc ht.1 ht.2, markMatched_of_enable o _ h]
        simp
      · rw [resolveOrder_of_neither price o options hc ht]
        simp
  · rw [resolveOrder_of_not_enable price o options (by simpa using h)]
    simp

theorem runBar_length_le (myStrategy : Strategy F) (s : RunState F) (price : Price F) :
    s.HistoryOrders.length ≤ (runBar myStrategy s price).HistoryOrders.length := by
  unfold runBar
  rcases openStep_history myStrategy price (resolveBar price s) with hh | ⟨oo, a, _, _, hh⟩
  · rw [hh, resolveBar_history, List.length_map]
  · rw [hh, resolveBar_history, List.length_append, List.length_map]
    omega

theorem runFrom_length_le (myStrategy : Strategy F) (prices : List (Price F)) (s : RunState F) :
    s.HistoryOrders.length ≤ (runFrom myStrategy s prices).HistoryOrders.length := by
  induction prices generalizing s with
  | nil => exact le_refl _
  | cons price rest ih =>
    exact le_trans (runBar_length_le myStrategy s price) (ih (runBar myStrategy s price))

/-- With an empty history and a strategy that stays silent on every bar of the series, the
loop changes nothing. -/
theorem runFrom_of_no_intent (myStrategy : Strategy F) (prices : List (Price F))
    (s : RunState F) (hempty : s.HistoryOrders = [])
    (h : ∀ price ∈ prices, myStrategy.OpenNewOrder price = none) :
    runFrom myStrategy s prices = s := by
  induction prices with
  | nil => rfl
  | cons price rest ih =>
    have hbar : runBar myStrategy s price = s := by
      unfold runBar
      rw [openStep_of_none myStrategy price _ (h price (List.mem_cons_self _ _))]
      simp [resolveBar, CountEnabledOrder, hempty]
    show runFrom myStrategy (runBar myStrategy s price) rest = s
    rw [hbar]
    exact ih (fun p hp => h p (List.mem_cons_of_mem _ hp))

/-- A run over two bars in which the strategy proposes a BID order on the first bar, with the
funds for it, and nothing on the second: the order is opened on the first bar and meets the
loop body once, on the second bar. -/
theorem run_two_bars_of_bid (myStrategy : Strategy F) (bar0 bar1 : Price F)
    (options : BacktestOptions F) (openingOrder : OpeningOrder F)
    (h0 : myStrategy.OpenNewOrder bar0 = some openingOrder)
    (h1 : myStrategy.OpenNewOrder bar1 = none)
    (hside : openingOrder.OrderType = OrderType.BID)
    (hfunds : options.AmountPerOrder ≤ options.CurrentQuoteAmount) :
    runFrom myStrategy { HistoryOrders := [], Options := options } [bar0, bar1] =
      { HistoryOrders :=
          [(resolveOrder bar1
            (NewOrder openingOrder options.AmountPerOrder bar0.OpenPrice bar0.Timestamp)
            { options with
              CurrentQuoteAmount := options.CurrentQuoteAmount - options.AmountPerOrder }).1]
        Options :=
          (resolveOrder bar1
            (NewOrder openingOrder options.AmountPerOrder bar0.OpenPrice bar0.Timestamp)
            { options with
              CurrentQuoteAmount := options.CurrentQuoteAmount - options.AmountPerOrder }).2 } := by
  have hfirst : runBar myStrategy { HistoryOrders := [], Options := options } bar0 =
      { HistoryOrders :=
          [NewOrder openingOrder options.AmountPerOrder bar0.OpenPrice bar0.Timestamp]
        Options := { options with
          CurrentQuoteAmount := options.CurrentQuoteAmount - options.AmountPerOrder } } := by
    have hres : resolveBar bar0 ({ HistoryOrders := [], Options := options } : RunState F) =
        { HistoryOrders := [], Options := options } := by
      simp [resolveBar, CountEnabledOrder]
    unfold runBar
    rw [hres, openStep_of_bid myStrategy bar0 _ openingOrder h0 hside hfunds]
    rfl
  show runBar myStrategy (runBar myStrategy _ bar0) bar1 = _
  rw [hfirst]
  unfold runBar
  rw [openStep_of_none myStrategy bar1 _ h1, resolveBar_eq]
  rfl

/-- The same run with an ASK order: the order is opened on the first bar with the amount
`AmountPerOrder / OpenPrice` and meets the loop body once, on the second bar. -/
theorem run_two_bars_of_ask (myStrategy : Strategy F) (bar0 bar1 : Price F)
    (options : BacktestOptions F) (openingOrder : OpeningOrder F)
    (h0 : myStrategy.OpenNewOrder bar0 = some openingOrder)
    (h1 : myStrategy.OpenNewOrder bar1 = none)
    (hside : openingOrder.OrderType = OrderType.ASK)
    (hfunds : options.AmountPerOrder / bar0.OpenPrice ≤ options.CurrentBaseAmount) :
    runFrom myStrategy { HistoryOrders := [], Options := options } [bar0, bar1] =
      { HistoryOrders :=
          [(resolveOrder bar1
            (NewOrder openingOrder (options.AmountPerOrder / bar0.OpenPrice) bar0.OpenPrice
              bar0.Timestamp)
            { options with
              CurrentBaseAmount :=
                options.CurrentBaseAmount - options.AmountPerOrder / bar0.OpenPrice }).1]
        Options :=
          (resolveOrder bar1
            (NewOrder openingOrder (options.AmountPerOrder / bar0.OpenPrice) bar0.OpenPrice
              bar0.Timestamp)
            { options with
              CurrentBaseAmount :=
                options.CurrentBaseAmount - options.AmountPerOrder / bar0.OpenPrice }).2 } := by
  have hfirst : runBar myStrategy { HistoryOrders := [], Options := options } bar0 =
      { HistoryOrders :=
          [NewOrder openingOrder (options.AmountPerOrder / bar0.OpenPrice) bar0.OpenPrice
            bar0.Timestamp]
        Options := { options with
          CurrentBaseAmount :=
            options.CurrentBaseAmount - options.AmountPerOrder / bar0.OpenPrice } } := by
    have hres : resolveBar bar0 ({ HistoryOrders := [], Options := options } : RunState F) =
        { HistoryOrders := [], Options := options } := by
      simp [resolveBar, CountEnabledOrder]
    unfold runBar
    rw [hres, openStep_of_ask myStrategy bar0 _ openingOrder h0 hside hfunds]
    rfl
  show runBar myStrategy (runBar myStrategy _ bar0) bar1 = _
  rw [hfirst]
  unfold runBar
  rw [openStep_of_none myStrategy bar1 _ h1, resolveBar_eq]
  rfl

theorem resolveBar_amountPerOrder (price : Price F) (s : RunState F) :
    (resolveBar price s).Options.AmountPerOrder = s.Options.AmountPerOrder := by
  rw [resolveBar_eq]
  exact resolveOrders_amountPerOrder price s.HistoryOrders s.Options

end Lemmas

/-! ## Facts about the valuation -/

theorem index_eq_none_of_length_le {α : Type} (xs : List α) (i : Int)
    (h : i < 0 ∨ (xs.length : Int) ≤ i) : index xs i = none := by
  unfold index
  rcases h with h | h
  · simp [h]
  · have hi : ¬ i < 0 := by omega
    rw [if_neg hi, List.getElem?_eq_none]
    omega

theorem index_isSome {α : Type} (xs : List α) (i : Int) (h0 : 0 ≤ i)
    (h : i < (xs.length : Int)) : ∃ x, index xs i = some x := by
  unfold index
  have hi : ¬ i < 0 := by omega
  rw [if_neg hi]
  have hlt : i.toNat < xs.length := by omega
  exact ⟨xs[i.toNat], List.getElem?_eq_getElem hlt⟩

/-- A series with fewer than two bars makes `Portfolio` panic. -/
theorem Portfolio_eq_none_of_short (pow : ℚ → ℚ → ℚ) (now : Int) (bt : BackTest ℚ)
    (h : bt.Prices.length < 2) : bt.Portfolio pow now = none := by
  have hprev : index bt.Prices ((bt.Prices.length : Int) - 2) = none :=
    index_eq_none_of_length_le _ _ (Or.inl (by omega))
  cases hb : index (Split bt.BackTestOptions.Pair.data '/') 0 <;>
    cases hq : index (Split bt.BackTestOptions.Pair.data '/') 1 <;>
    cases hf : index bt.Prices 0 <;>
    cases hl : index bt.Prices ((bt.Prices.length : Int) - 1) <;>
    simp [BackTest.Portfolio, hb, hq, hf, hl, hprev]

/-- What a report says about profit and orders, whenever there is a report. -/
theorem Portfolio_profit (pow : ℚ → ℚ → ℚ) (now : Int) (bt : BackTest ℚ) (r : Portfolio)
    (h : bt.Portfolio pow now = some r) :
    ∃ first, index bt.Prices 0 = some first ∧
      r.Profit =
        (bt.BackTestOptions.CurrentBaseAmount * first.OpenPrice
            + bt.BackTestOptions.CurrentQuoteAmount)
          - (bt.BackTestOptions.InitialBaseAmount * first.OpenPrice
            + bt.BackTestOptions.InitialQuoteAmount) ∧
      r.Orders = bt.order := by
  simp only [BackTest.Portfolio, Option.bind_eq_bind, Option.bind_eq_some, pure,
    Option.some.injEq] at h
  obtain ⟨baseCoin, _, quoteCoin, _, first, hfirst, last, _, beforeLast, _, hr⟩ := h
  subst hr
  exact ⟨first, hfirst, rfl, rfl⟩

/-- The report, field by field, once the five index expressions have values. -/
theorem Portfolio_of_index (pow : ℚ → ℚ → ℚ) (now : Int) (bt : BackTest ℚ)
    (baseCoin quoteCoin : List Char) (first last beforeLast : Price ℚ)
    (hb : index (Split bt.BackTestOptions.Pair.data '/') 0 = some baseCoin)
    (hq : index (Split bt.BackTestOptions.Pair.data '/') 1 = some quoteCoin)
    (hf : index bt.Prices 0 = some first)
    (hl : index bt.Prices ((bt.Prices.length : Int) - 1) = some last)
    (hp : index bt.Prices ((bt.Prices.length : Int) - 2) = some beforeLast) :
    bt.Portfolio pow now = some
      { Pair := bt.BackTestOptions.Pair
        BaseCoin := String.mk baseCoin
        QuoteCoin := String.mk quoteCoin
        AmountPerOrder := bt.BackTestOptions.AmountPerOrder
        InitialBaseAmount := bt.BackTestOptions.InitialBaseAmount
        CurrentBaseAmount := bt.BackTestOptions.CurrentBaseAmount
        InitialQuoteAmount := bt.BackTestOptions.InitialQuoteAmount
        CurrentQuoteAmount := bt.BackTestOptions.CurrentQuoteAmount
        InitialSumAmount :=
          bt.BackTestOptions.InitialBaseAmount * first.OpenPrice
            + bt.BackTestOptions.InitialQuoteAmount
        CurrentSumAmount :=
          bt.BackTestOptions.CurrentBaseAmount * first.OpenPrice
            + bt.BackTestOptions.CurrentQuoteAmount
        Profit :=
          (bt.BackTestOptions.CurrentBaseAmount * first.OpenPrice
              + bt.BackTestOptions.CurrentQuoteAmount)
            - (bt.BackTestOptions.InitialBaseAmount * first.OpenPrice
              + bt.BackTestOptions.InitialQuoteAmount)
        ProfitMargin :=
          ((bt.BackTestOptions.CurrentBaseAmount * first.OpenPrice
                + bt.BackTestOptions.CurrentQuoteAmount)
              - (bt.BackTestOptions.InitialBaseAmount * first.OpenPrice
                + bt.BackTestOptions.InitialQuoteAmount))
            / (bt.BackTestOptions.InitialBaseAmount * first.OpenPrice
              + bt.BackTestOptions.InitialQuoteAmount) * 100
        Cagr :=
          calculateCAGR pow first.Timestamp last.Timestamp
            (bt.BackTestOptions.InitialBaseAmount * first.OpenPrice
              + bt.BackTestOptions.InitialQuoteAmount)
            (bt.BackTestOptions.CurrentBaseAmount * first.OpenPrice
              + bt.BackTestOptions.CurrentQuoteAmount)
        Orders := bt.order
        CreatedAt := now
        Strategy := bt.myStrategy.Naming
        Prices := bt.Prices
        Interval :=
          minute2Interval (toInt (Duration.Minutes (Time.Sub last.Timestamp beforeLast.Timestamp)))
        From := first.Timestamp
        To := last.Timestamp } := by
  simp [BackTest.Portfolio, hb, hq, hf, hl, hp]

/-- A series of at least two bars and a pair with a separator give a report. -/
theorem Portfolio_isSome (pow : ℚ → ℚ → ℚ) (now : Int) (bt : BackTest ℚ)
    (hbars : 2 ≤ bt.Prices.length)
    (hpair : 2 ≤ (Split bt.BackTestOptions.Pair.data '/').length) :
    ∃ r, bt.Portfolio pow now = some r := by
  obtain ⟨baseCoin, hb⟩ := index_isSome (Split bt.BackTestOptions.Pair.data '/') 0
    (le_refl _) (by omega)
  obtain ⟨quoteCoin, hq⟩ := index_isSome (Split bt.BackTestOptions.Pair.data '/') 1
    (by omega) (by omega)
  obtain ⟨first, hf⟩ := index_isSome bt.Prices 0 (le_refl _) (by omega)
  obtain ⟨last, hl⟩ := index_isSome bt.Prices ((bt.Prices.length : Int) - 1)
    (by omega) (by omega)
  obtain ⟨beforeLast, hp⟩ := index_isSome bt.Prices ((bt.Prices.length : Int) - 2)
    (by omega) (by omega)
  simp [BackTest.Portfolio, hb, hq, hf, hl, hp]

/-! ## The claims -/

section Claims

set_option linter.unusedSectionVars false

variable {F : Type} [Add F] [Sub F] [Mul F] [Div F] [LE F] [∀ a b : F, Decidable (a ≤ b)]

/-- C1. Cancellation priority: an order that is open when a bar is processed and whose cancel
price and take-profit price both lie in the bar's range `[LowPrice, HighPrice]` is, after the
bar, CANCELED and closed at the bar's timestamp, it is not MATCHED, and the loop body has
applied to the balances the cancellation refund only (base plus `Amount` for ASK, quote plus
`Amount * OpenPrice` otherwise). -/
theorem cancellation_priority (myStrategy : Strategy F) (s : RunState F) (price : Price F)
    (i : Nat) (o : Order F) (hget : s.HistoryOrders[i]? = some o) (hopen : o.IsEnable = true)
    (hc : price.LowPrice ≤ o.CancelOrderPrice ∧ o.CancelOrderPrice ≤ price.HighPrice)
    (_ht : price.LowPrice ≤ o.TakeProfitPrice ∧ o.TakeProfitPrice ≤ price.HighPrice) :
    (∃ o', (runBar myStrategy s price).HistoryOrders[i]? = some o' ∧
        o'.Status = OrderStatus.CANCELED ∧ o'.ClosedAt = some price.Timestamp ∧
        o'.Status ≠ OrderStatus.MATCHED ∧ o'.IsEnable = false) ∧
      ∀ options : BacktestOptions F,
        resolveOrder price o options =
          ({ o with Status := OrderStatus.CANCELED, ClosedAt := some price.Timestamp },
            if o.OrderType = OrderType.ASK then
              { options with CurrentBaseAmount := options.CurrentBaseAmount + o.Amount }
            else
              { options with
                CurrentQuoteAmount := options.CurrentQuoteAmount + o.Amount * o.OpenPrice }) := by
  have hbody : ∀ options : BacktestOptions F,
      resolveOrder price o options =
        ({ o with Status := OrderStatus.CANCELED, ClosedAt := some price.Timestamp },
          if o.OrderType = OrderType.ASK then
            { options with CurrentBaseAmount := options.CurrentBaseAmount + o.Amount }
          else
            { options with
              CurrentQuoteAmount := options.CurrentQuoteAmount + o.Amount * o.OpenPrice }) := by
    intro options
    rw [resolveOrder_of_cancel price o options hopen hc.1 hc.2,
      markCancel_of_enable o price.Timestamp hopen]
  refine ⟨⟨_, runBar_getElem? myStrategy s price i o hget, ?_⟩, hbody⟩
  rw [hbody s.Options]
  simp [Order.IsEnable]

/-- C1, at a concrete input: the open BID order with cancel price 90 and take-profit price 94
on a bar with range `[88, 96]`. -/
theorem cancellation_priority_witness :
    (∃ o', (runBar Scenario.never Scenario.oneBid
          (Scenario.bar 92 88 96 Scenario.hour)).HistoryOrders[0]? = some o' ∧
        o'.Status = OrderStatus.CANCELED ∧ o'.ClosedAt = some Scenario.hour ∧
        o'.Status ≠ OrderStatus.MATCHED ∧ o'.IsEnable = false) ∧
      ∀ options : BacktestOptions ℚ,
        resolveOrder (Scenario.bar 92 88 96 Scenario.hour) Scenario.bidOrder options =
          ({ Scenario.bidOrder with
              Status := OrderStatus.CANCELED, ClosedAt := some Scenario.hour },
            if Scenario.bidOrder.OrderType = OrderType.ASK then
              { options with
                CurrentBaseAmount := options.CurrentBaseAmount + Scenario.bidOrder.Amount }
            else
              { options with
                CurrentQuoteAmount := options.CurrentQuoteAmount +
                  Scenario.bidOrder.Amount * Scenario.bidOrder.OpenPrice }) :=
  cancellation_priority Scenario.never Scenario.oneBid (Scenario.bar 92 88 96 Scenario.hour) 0
    Scenario.bidOrder rfl rfl
    (by norm_num [Scenario.bar, Scenario.bidOrder, NewOrder])
    (by norm_num [Scenario.bar, Scenario.bidOrder, NewOrder])

/-- C5. Cancellation step: an order that is open when a bar is processed is CANCELED after
the bar if and only if `LowPrice ≤ CancelOrderPrice ≤ HighPrice`; when it is, it is closed at
the bar's timestamp and the loop body credits exactly one balance: the base amount grows by
`Amount` for an ASK order, the quote amount by `Amount * OpenPrice` for a BID order, and the
other balance (like every other option) is unchanged. -/
theorem cancellation_step (myStrategy : Strategy F) (s : RunState F) (price : Price F)
    (i : Nat) (o : Order F) (hget : s.HistoryOrders[i]? = some o) (hopen : o.IsEnable = true) :
    (runBar myStrategy s price).HistoryOrders[i]? = some (resolveOrder price o s.Options).1 ∧
      ((resolveOrder price o s.Options).1.Status = OrderStatus.CANCELED ↔
        (price.LowPrice ≤ o.CancelOrderPrice ∧ o.CancelOrderPrice ≤ price.HighPrice)) ∧
      ((price.LowPrice ≤ o.CancelOrderPrice ∧ o.CancelOrderPrice ≤ price.HighPrice) →
        (resolveOrder price o s.Options).1.ClosedAt = some price.Timestamp ∧
        ∀ options : BacktestOptions F,
          (o.OrderType = OrderType.ASK →
            (resolveOrder price o options).2 =
              { options with CurrentBaseAmount := options.CurrentBaseAmount + o.Amount }) ∧
          (o.OrderType = OrderType.BID →
            (resolveOrder price o options).2 =
              { options with
                CurrentQuoteAmount := options.CurrentQuoteAmount + o.Amount * o.OpenPrice })) := by
  have hst : o.Status = OrderStatus.OPEN := (isEnable_iff o).1 hopen
  refine ⟨runBar_getElem? myStrategy s price i o hget, ?_, ?_⟩
  · constructor
    · intro hcancelled
      by_contra hc
      by_cases ht : price.LowPrice ≤ o.TakeProfitPrice ∧ o.TakeProfitPrice ≤ price.HighPrice
      · rw [resolveOrder_of_match price o s.Options hopen hc ht.1 ht.2,
          markMatched_of_enable o price.Timestamp hopen] at hcancelled
        simp at hcancelled
      · rw [resolveOrder_of_neither price o s.Options hc ht, hst] at hcancelled
        simp at hcancelled
    · intro hc
      rw [resolveOrder_of_cancel price o s.Options hopen hc.1 hc.2,
        markCancel_of_enable o price.Timestamp hopen]
  · intro hc
    constructor
    · rw [resolveOrder_of_cancel price o s.Options hopen hc.1 hc.2,
        markCancel_of_enable o price.Timestamp hopen]
    · intro options
      rw [resolveOrder_of_cancel price o options hopen hc.1 hc.2]
      constructor
      · intro hside; simp [hside]
      · intro hside; simp [hside]

/-- C5, at a concrete input: the open ASK order with cancel price 90 on a bar with range
`[88, 92]`. -/
theorem cancellation_step_witness :
    (runBar Scenario.never Scenario.oneAsk (Scenario.bar 91 88 92 Scenario.hour)).HistoryOrders[0]? =
        some (resolveOrder (Scenario.bar 91 88 92 Scenario.hour) Scenario.askOrder
          Scenario.oneAsk.Options).1 ∧
      ((resolveOrder (Scenario.bar 91 88 92 Scenario.hour) Scenario.askOrder
          Scenario.oneAsk.Options).1.Status = OrderStatus.CANCELED ↔
        ((Scenario.bar 91 88 92 Scenario.hour).LowPrice ≤ Scenario.askOrder.CancelOrderPrice ∧
          Scenario.askOrder.CancelOrderPrice ≤ (Scenario.bar 91 88 92 Scenario.hour).HighPrice)) ∧
      (((Scenario.bar 91 88 92 Scenario.hour).LowPrice ≤ Scenario.askOrder.CancelOrderPrice ∧
          Scenario.askOrder.CancelOrderPrice ≤ (Scenario.bar 91 88 92 Scenario.hour).HighPrice) →
        (resolveOrder (Scenario.bar 91 88 92 Scenario.hour) Scenario.askOrder
          Scenario.oneAsk.Options).1.ClosedAt = some (Scenario.bar 91 88 92 Scenario.hour).Timestamp ∧
        ∀ options : BacktestOptions ℚ,
          (Scenario.askOrder.OrderType = OrderType.ASK →
            (resolveOrder (Scenario.bar 91 88 92 Scenario.hour) Scenario.askOrder options).2 =
              { options with
                CurrentBaseAmount := options.CurrentBaseAmount + Scenario.askOrder.Amount }) ∧
          (Scenario.askOrder.OrderType = OrderType.BID →
            (resolveOrder (Scenario.bar 91 88 92 Scenario.hour) Scenario.askOrder options).2 =
              { options with
                CurrentQuoteAmount := options.CurrentQuoteAmount +
                  Scenario.askOrder.Amount * Scenario.askOrder.OpenPrice })) :=
  cancellation_step Scenario.never Scenario.oneAsk (Scenario.bar 91 88 92 Scenario.hour) 0
    Scenario.askOrder rfl rfl

/-- C6. Take-profit step: an order that is open when a bar is processed and whose cancel
price is outside the bar's range is MATCHED after the bar if and only if
`LowPrice ≤ TakeProfitPrice ≤ HighPrice`; when it is, it is closed at the bar's timestamp and
the loop body credits exactly one balance: the quote amount grows by `Amount * OpenPrice` for
an ASK order, the base amount by `Amount / OpenPrice` for a BID order, and the other balance
(like every other option) is unchanged. -/
theorem take_profit_step (myStrategy : Strategy F) (s : RunState F) (price : Price F)
    (i : Nat) (o : Order F) (hget : s.HistoryOrders[i]? = some o) (hopen : o.IsEnable = true)
    (hc : ¬ (price.LowPrice ≤ o.CancelOrderPrice ∧ o.CancelOrderPrice ≤ price.HighPrice)) :
    (runBar myStrategy s price).HistoryOrders[i]? = some (resolveOrder price o s.Options).1 ∧
      ((resolveOrder price o s.Options).1.Status = OrderStatus.MATCHED ↔
        (price.LowPrice ≤ o.TakeProfitPrice ∧ o.TakeProfitPrice ≤ price.HighPrice)) ∧
      ((price.LowPrice ≤ o.TakeProfitPrice ∧ o.TakeProfitPrice ≤ price.HighPrice) →
        (resolveOrder price o s.Options).1.ClosedAt = some price.Timestamp ∧
        ∀ options : BacktestOptions F,
          (o.OrderType = OrderType.ASK →
            (resolveOrder price o options).2 =
              { options with
                CurrentQuoteAmount := options.CurrentQuoteAmount + o.Amount * o.OpenPrice }) ∧
          (o.OrderType = OrderType.BID →
            (resolveOrder price o options).2 =
              { options with
                CurrentBaseAmount := options.CurrentBaseAmount + o.Amount / o.OpenPrice })) := by
  have hst : o.Status = OrderStatus.OPEN := (isEnable_iff o).1 hopen
  refine ⟨runBar_getElem? myStrategy s price i o hget, ?_, ?_⟩
  · constructor
    · intro hmatched
      by_contra ht
      rw [resolveOrder_of_neither price o s.Options hc ht, hst] at hmatched
      simp at hmatched
    · intro ht
      rw [resolveOrder_of_match price o s.Options hopen hc ht.1 ht.2,
        markMatched_of_enable o price.Timestamp hopen]
  · intro ht
    constructor
    · rw [resolveOrder_of_match price o s.Options hopen hc ht.1 ht.2,
        markMatched_of_enable o price.Timestamp hopen]
    · intro options
      rw [resolveOrder_of_match price o options hopen hc ht.1 ht.2]
      constructor
      · intro hside; simp [hside]
      · intro hside; simp [hside]

/-- C6, at a concrete input: the open BID order with cancel price 90 and take-profit price 94
on a bar with range `[93, 95]`. -/
theorem take_profit_step_witness :
    (runBar Scenario.never Scenario.oneBid (Scenario.bar 93 93 95 Scenario.hour)).HistoryOrders[0]? =
        some (resolveOrder (Scenario.bar 93 93 95 Scenario.hour) Scenario.bidOrder
          Scenario.oneBid.Options).1 ∧
      ((resolveOrder (Scenario.bar 93 93 95 Scenario.hour) Scenario.bidOrder
          Scenario.oneBid.Options).1.Status = OrderStatus.MATCHED ↔
        ((Scenario.bar 93 93 95 Scenario.hour).LowPrice ≤ Scenario.bidOrder.TakeProfitPrice ∧
          Scenario.bidOrder.TakeProfitPrice ≤ (Scenario.bar 93 93 95 Scenario.hour).HighPrice)) ∧
      (((Scenario.bar 93 93 95 Scenario.hour).LowPrice ≤ Scenario.bidOrder.TakeProfitPrice ∧
          Scenario.bidOrder.TakeProfitPrice ≤ (Scenario.bar 93 93 95 Scenario.hour).HighPrice) →
        (resolveOrder (Scenario.bar 93 93 95 Scenario.hour) Scenario.bidOrder
          Scenario.oneBid.Options).1.ClosedAt = some (Scenario.bar 93 93 95 Scenario.hour).Timestamp ∧
        ∀ options : BacktestOptions ℚ,
          (Scenario.bidOrder.OrderType = OrderType.ASK →
            (resolveOrder (Scenario.bar 93 93 95 Scenario.hour) Scenario.bidOrder options).2 =
              { options with
                CurrentQuoteAmount := options.CurrentQuoteAmount +
                  Scenario.bidOrder.Amount * Scenario.bidOrder.OpenPrice }) ∧
          (Scenario.bidOrder.OrderType = OrderType.BID →
            (resolveOrder (Scenario.bar 93 93 95 Scenario.hour) Scenario.bidOrder options).2 =
              { options with
                CurrentBaseAmount := options.CurrentBaseAmount +
                  Scenario.bidOrder.Amount / Scenario.bidOrder.OpenPrice })) :=
  take_profit_step Scenario.never Scenario.oneBid (Scenario.bar 93 93 95 Scenario.hour) 0
    Scenario.bidOrder rfl rfl (by norm_num [Scenario.bar, Scenario.bidOrder, NewOrder])

/-- C4. Order exclusivity. On one bar the loop body does to an order exactly one of three
things: it leaves the order and the balances as they are, it cancels an OPEN order and
applies the cancellation refund, or it matches an OPEN order and applies the take-profit
credit (never both, so at most one status change and one credit). A status change starts
from OPEN and ends in a terminal status. An order that is terminal is left alone, with the
balances, by the loop body, and keeps its place, status and closing time in the history
through every later bar of a run. -/
theorem order_exclusivity (myStrategy : Strategy F) (s : RunState F) (price : Price F)
    (prices : List (Price F)) (i : Nat) (o : Order F) (options : BacktestOptions F) :
    (resolveOrder price o options = (o, options) ∨
      (o.Status = OrderStatus.OPEN ∧
        resolveOrder price o options =
          ({ o with Status := OrderStatus.CANCELED, ClosedAt := some price.Timestamp },
            if o.OrderType = OrderType.ASK then
              { options with CurrentBaseAmount := options.CurrentBaseAmount + o.Amount }
            else
              { options with
                CurrentQuoteAmount := options.CurrentQuoteAmount + o.Amount * o.OpenPrice })) ∨
      (o.Status = OrderStatus.OPEN ∧
        resolveOrder price o options =
          ({ o with Status := OrderStatus.MATCHED, ClosedAt := some price.Timestamp },
            if o.OrderType = OrderType.ASK then
              { options with
                CurrentQuoteAmount := options.CurrentQuoteAmount + o.Amount * o.OpenPrice }
            else
              { options with
                CurrentBaseAmount := options.CurrentBaseAmount + o.Amount / o.OpenPrice }))) ∧
      ((resolveOrder price o options).1.Status ≠ o.Status →
        o.Status = OrderStatus.OPEN ∧
          (resolveOrder price o options).1.Status ≠ OrderStatus.OPEN) ∧
      (o.Status ≠ OrderStatus.OPEN → resolveOrder price o options = (o, options)) ∧
      (s.HistoryOrders[i]? = some o → o.Status ≠ OrderStatus.OPEN →
        (runFrom myStrategy s prices).HistoryOrders[i]? = some o) := by
  have hterm : o.Status ≠ OrderStatus.OPEN → o.IsEnable = false := by
    intro h; simp [Order.IsEnable, h]
  have hcases : resolveOrder price o options = (o, options) ∨
      (o.Status = OrderStatus.OPEN ∧
        resolveOrder price o options =
          ({ o with Status := OrderStatus.CANCELED, ClosedAt := some price.Timestamp },
            if o.OrderType = OrderType.ASK then
              { options with CurrentBaseAmount := options.CurrentBaseAmount + o.Amount }
            else
              { options with
                CurrentQuoteAmount := options.CurrentQuoteAmount + o.Amount * o.OpenPrice })) ∨
      (o.Status = OrderStatus.OPEN ∧
        resolveOrder price o options =
          ({ o with Status := OrderStatus.MATCHED, ClosedAt := some price.Timestamp },
            if o.OrderType = OrderType.ASK then
              { options with
                CurrentQuoteAmount := options.CurrentQuoteAmount + o.Amount * o.OpenPrice }
            else
              { options with
                CurrentBaseAmount := options.CurrentBaseAmount + o.Amount / o.OpenPrice })) := by
    by_cases hopen : o.IsEnable = true
    · have hst : o.Status = OrderStatus.OPEN := (isEnable_iff o).1 hopen
      by_cases hc : price.LowPrice ≤ o.CancelOrderPrice ∧ o.CancelOrderPrice ≤ price.HighPrice
      · right; left
        exact ⟨hst, by rw [resolveOrder_of_cancel price o options hopen hc.1 hc.2,
          markCancel_of_enable o price.Timestamp hopen]⟩
      · by_cases ht : price.LowPrice ≤ o.TakeProfitPrice ∧ o.TakeProfitPrice ≤ price.HighPrice
        · right; right
          exact ⟨hst, by rw [resolveOrder_of_match price o options hopen hc ht.1 ht.2,
            markMatched_of_enable o price.Timestamp hopen]⟩
        · left; exact resolveOrder_of_neither price o options hc ht
    · left
      exact resolveOrder_of_not_enable price o options (by simpa using hopen)
  refine ⟨hcases, ?_, ?_, ?_⟩
  · intro hchange
    rcases hcases with h | ⟨hst, h⟩ | ⟨hst, h⟩
    · rw [h] at hchange; exact absurd rfl hchange
    · rw [h]; exact ⟨hst, by simp⟩
    · rw [h]; exact ⟨hst, by simp⟩
  · intro h
    exact resolveOrder_of_not_enable price o options (hterm h)
  · intro hget h
    exact runFrom_getElem?_of_not_enable myStrategy prices s i o hget (hterm h)

/-- C7. Opening step: on a bar for which the strategy returns an intent, with the state as
the resolution of the bar left it, (ASK) if `AmountPerOrder / OpenPrice` does not exceed the
base amount, the base amount is reduced by it and an open ASK order with that amount, the
bar's open price and timestamp and the intent's trigger prices is appended to the history;
(BID) if `AmountPerOrder` does not exceed the quote amount, the quote amount is reduced by it
and an open BID order with amount `AmountPerOrder` is appended likewise; in the two remaining
cases the opening step changes neither the history nor any balance. -/
theorem opening_step (myStrategy : Strategy F) (s : RunState F) (price : Price F)
    (openingOrder : OpeningOrder F)
    (hintent : myStrategy.OpenNewOrder price = some openingOrder) :
    (openingOrder.OrderType = OrderType.ASK →
      (resolveBar price s).Options.AmountPerOrder / price.OpenPrice
        ≤ (resolveBar price s).Options.CurrentBaseAmount →
      runBar myStrategy s price =
        { HistoryOrders := (resolveBar price s).HistoryOrders ++
            [{ OrderType := OrderType.ASK
               Amount := (resolveBar price s).Options.AmountPerOrder / price.OpenPrice
               OpenPrice := price.OpenPrice
               CancelOrderPrice := openingOrder.CancelOrderPrice
               TakeProfitPrice := openingOrder.TakeProfitPrice
               OpenedAt := price.Timestamp
               ClosedAt := none
               Status := OrderStatus.OPEN }]
          Options := { (resolveBar price s).Options with
            CurrentBaseAmount := (resolveBar price s).Options.CurrentBaseAmount -
              (resolveBar price s).Options.AmountPerOrder / price.OpenPrice } }) ∧
    (openingOrder.OrderType = OrderType.BID →
      (resolveBar price s).Options.AmountPerOrder ≤ (resolveBar price s).Options.CurrentQuoteAmount →
      runBar myStrategy s price =
        { HistoryOrders := (resolveBar price s).HistoryOrders ++
            [{ OrderType := OrderType.BID
               Amount := (resolveBar price s).Options.AmountPerOrder
               OpenPrice := price.OpenPrice
               CancelOrderPrice := openingOrder.CancelOrderPrice
               TakeProfitPrice := openingOrder.TakeProfitPrice
               OpenedAt := price.Timestamp
               ClosedAt := none
               Status := OrderStatus.OPEN }]
          Options := { (resolveBar price s).Options with
            CurrentQuoteAmount := (resolveBar price s).Options.CurrentQuoteAmount -
              (resolveBar price s).Options.AmountPerOrder } }) ∧
    (openingOrder.OrderType = OrderType.ASK →
      ¬ (resolveBar price s).Options.AmountPerOrder / price.OpenPrice
        ≤ (resolveBar price s).Options.CurrentBaseAmount →
      runBar myStrategy s price = resolveBar price s) ∧
    (openingOrder.OrderType = OrderType.BID →
      ¬ (resolveBar price s).Options.AmountPerOrder ≤ (resolveBar price s).Options.CurrentQuoteAmount →
      runBar myStrategy s price = resolveBar price s) ∧
    (resolveBar price s).Options.AmountPerOrder = s.Options.AmountPerOrder := by
  refine ⟨?_, ?_, ?_, ?_, ?_⟩
  · intro hside hfunds
    unfold runBar
    rw [openStep_of_ask myStrategy price _ openingOrder hintent hside hfunds]
    simp [NewOrder, hside]
  · intro hside hfunds
    unfold runBar
    rw [openStep_of_bid myStrategy price _ openingOrder hintent hside hfunds]
    simp [NewOrder, hside]
  · intro hside hfunds
    exact openStep_of_ask_short myStrategy price _ openingOrder hintent hside hfunds
  · intro hside hfunds
    exact openStep_of_bid_short myStrategy price _ openingOrder hintent hside hfunds
  · rw [resolveBar_eq]
    exact resolveOrders_amountPerOrder price s.HistoryOrders s.Options

/-- C7, at a concrete input: a BID intent on the first bar with 100 quote units available and
100 quote units per order opens the order and leaves no quote units. -/
theorem opening_step_witness :
    (Scenario.onFirstBar
        { OrderType := OrderType.BID, CancelOrderPrice := 90, TakeProfitPrice := 94 }).OpenNewOrder
        (Scenario.bar 100 100 100 0) =
        some { OrderType := OrderType.BID, CancelOrderPrice := 90, TakeProfitPrice := 94 } ∧
      runBar
          (Scenario.onFirstBar
            { OrderType := OrderType.BID, CancelOrderPrice := 90, TakeProfitPrice := 94 })
          { HistoryOrders := [], Options := Scenario.options } (Scenario.bar 100 100 100 0) =
        { HistoryOrders := [Scenario.bidOrder]
          Options := { Scenario.options with CurrentQuoteAmount := 0 } } := by
  refine ⟨rfl, ?_⟩
  have h := (opening_step
    (Scenario.onFirstBar
      { OrderType := OrderType.BID, CancelOrderPrice := 90, TakeProfitPrice := 94 })
    { HistoryOrders := [], Options := Scenario.options } (Scenario.bar 100 100 100 0)
    { OrderType := OrderType.BID, CancelOrderPrice := 90, TakeProfitPrice := 94 } rfl).2.1 rfl
    (by simp [resolveBar, CountEnabledOrder, Scenario.options])
  rw [h]
  simp [resolveBar, CountEnabledOrder, Scenario.options, Scenario.bidOrder, NewOrder,
    Scenario.bar]

/-- C8. Monotonic history: after a bar the history is the history before the bar, each order
in its place and with the fields it was created with, followed by at most one new order; so
the length never decreases, over one bar and over a whole run, and it grows on a bar (by one)
only when the strategy returned an intent on that bar and the funds left by the bar's
resolution sufficed for the intent's side. -/
theorem monotonic_history (myStrategy : Strategy F) (s : RunState F) (price : Price F)
    (prices : List (Price F)) :
    (∃ extra : List (Order F),
        (runBar myStrategy s price).HistoryOrders =
          s.HistoryOrders.map (fun o => (resolveOrder price o s.Options).1) ++ extra ∧
        extra.length ≤ 1) ∧
      (∀ (o : Order F) (options : BacktestOptions F),
        (resolveOrder price o options).1.OrderType = o.OrderType ∧
        (resolveOrder price o options).1.Amount = o.Amount ∧
        (resolveOrder price o options).1.OpenPrice = o.OpenPrice ∧
        (resolveOrder price o options).1.CancelOrderPrice = o.CancelOrderPrice ∧
        (resolveOrder price o options).1.TakeProfitPrice = o.TakeProfitPrice ∧
        (resolveOrder price o options).1.OpenedAt = o.OpenedAt) ∧
      s.HistoryOrders.length ≤ (runBar myStrategy s price).HistoryOrders.length ∧
      (s.HistoryOrders.length < (runBar myStrategy s price).HistoryOrders.length →
        (runBar myStrategy s price).HistoryOrders.length = s.HistoryOrders.length + 1 ∧
        ∃ openingOrder,
          myStrategy.OpenNewOrder price = some openingOrder ∧
          ((openingOrder.OrderType = OrderType.ASK ∧
              (resolveBar price s).Options.AmountPerOrder / price.OpenPrice
                ≤ (resolveBar price s).Options.CurrentBaseAmount) ∨
            (openingOrder.OrderType = OrderType.BID ∧
              (resolveBar price s).Options.AmountPerOrder
                ≤ (resolveBar price s).Options.CurrentQuoteAmount))) ∧
      s.HistoryOrders.length ≤ (runFrom myStrategy s prices).HistoryOrders.length := by
  refine ⟨?_, fun o options => resolveOrder_creation_fields price o options,
    runBar_length_le myStrategy s price, ?_, runFrom_length_le myStrategy prices s⟩
  · unfold runBar
    rcases openStep_history myStrategy price (resolveBar price s) with hh | ⟨oo, a, _, _, hh⟩
    · exact ⟨[], by rw [hh, resolveBar_history, List.append_nil], by simp⟩
    · exact ⟨[NewOrder oo a price.OpenPrice price.Timestamp],
        by rw [hh, resolveBar_history], by simp⟩
  · intro hlt
    unfold runBar at hlt ⊢
    rcases openStep_history myStrategy price (resolveBar price s) with hh | ⟨oo, a, hoo, hfunds, hh⟩
    · rw [hh, resolveBar_history, List.length_map] at hlt
      exact absurd hlt (lt_irrefl _)
    · refine ⟨?_, oo, hoo, hfunds⟩
      rw [hh, resolveBar_history, List.length_append, List.length_map]
      rfl

/-- C9. Scenario A, generalised: when the strategy returns no intent on any bar of the
series, `Run` ends with an empty order history and leaves every option, the two current
balances among them, as it was; if moreover the current balances equal the initial ones, every
report of `Portfolio` after the run has profit 0 and no orders, and there is such a report as
soon as the series has two bars and the pair a separator. -/
theorem no_intent_run (pow : ℚ → ℚ → ℚ) (now : Int) (bt : BackTest ℚ)
    (h : ∀ price ∈ bt.Prices, bt.myStrategy.OpenNewOrder price = none) :
    bt.Run.order = [] ∧
      bt.Run.BackTestOptions = bt.BackTestOptions ∧
      (bt.BackTestOptions.CurrentBaseAmount = bt.BackTestOptions.InitialBaseAmount →
        bt.BackTestOptions.CurrentQuoteAmount = bt.BackTestOptions.InitialQuoteAmount →
        (∀ r, bt.Run.Portfolio pow now = some r → r.Profit = 0 ∧ r.Orders = []) ∧
        (2 ≤ bt.Prices.length → 2 ≤ (Split bt.BackTestOptions.Pair.data '/').length →
          ∃ r, bt.Run.Portfolio pow now = some r ∧ r.Profit = 0 ∧ r.Orders = [])) := by
  have hrun : runFrom bt.myStrategy { HistoryOrders := [], Options := bt.BackTestOptions }
      bt.Prices = { HistoryOrders := [], Options := bt.BackTestOptions } :=
    runFrom_of_no_intent bt.myStrategy bt.Prices _ rfl h
  have horder : bt.Run.order = [] := by simp [BackTest.Run, hrun]
  have hopts : bt.Run.BackTestOptions = bt.BackTestOptions := by simp [BackTest.Run, hrun]
  have hprices : bt.Run.Prices = bt.Prices := rfl
  refine ⟨horder, hopts, ?_⟩
  intro hbase hquote
  have hall : ∀ r, bt.Run.Portfolio pow now = some r → r.Profit = 0 ∧ r.Orders = [] := by
    intro r hr
    obtain ⟨first, _, hprofit, horders⟩ := Portfolio_profit pow now bt.Run r hr
    rw [hopts, hbase, hquote, sub_self] at hprofit
    exact ⟨hprofit, by rw [horders, horder]⟩
  refine ⟨hall, ?_⟩
  intro hbars hpair
  obtain ⟨r, hr⟩ := Portfolio_isSome pow now bt.Run (by rw [hprices]; exact hbars)
    (by rw [hopts]; exact hpair)
  exact ⟨r, hr, hall r hr⟩

/-- C9, at a concrete input: scenario A, three bars at constant price 100 and a strategy that
never proposes a trade. -/
theorem no_intent_run_witness :
    Scenario.A.Run.order = [] ∧
      Scenario.A.Run.BackTestOptions = Scenario.A.BackTestOptions ∧
      ∀ (pow : ℚ → ℚ → ℚ) (now : Int),
        ∃ r, Scenario.A.Run.Portfolio pow now = some r ∧ r.Profit = 0 ∧ r.Orders = [] :=
  ⟨(no_intent_run (fun x _ => x) 0 Scenario.A (fun _ _ => rfl)).1,
    (no_intent_run (fun x _ => x) 0 Scenario.A (fun _ _ => rfl)).2.1,
    fun pow now =>
      ((no_intent_run pow now Scenario.A (fun _ _ => rfl)).2.2 rfl rfl).2
        (by decide) (by decide)⟩

/-- C2. The BID refund at the failing input (scenario C): a BID order opened at price 100
with allocation 100 reserves 100 quote units, is cancelled on the bar `[88, 96]` and is
refunded `Amount * OpenPrice = 10000` quote units, so the run that started with 100 quote
units ends with 10000, not with the 100 it had before the order was opened; the base amount
is unchanged. The sibling ASK path does conserve: cancelling an ASK order opened with
`AmountPerOrder / OpenPrice` base units gives back the balances as they were before the
order was opened. -/
theorem bid_cancel_refund_scenario :
    (Scenario.C.Run.order.map (fun o => (o.OrderType, o.Status, o.ClosedAt)) =
        [(OrderType.BID, OrderStatus.CANCELED, some Scenario.hour)] ∧
      Scenario.C.BackTestOptions.CurrentQuoteAmount = 100 ∧
      Scenario.C.Run.BackTestOptions.CurrentQuoteAmount = 10000 ∧
      Scenario.C.Run.BackTestOptions.CurrentBaseAmount =
        Scenario.C.BackTestOptions.CurrentBaseAmount) ∧
      ∀ (openingOrder : OpeningOrder ℚ) (A P : ℚ) (t : Int) (price : Price ℚ)
        (options : BacktestOptions ℚ),
        openingOrder.OrderType = OrderType.ASK →
        price.LowPrice ≤ openingOrder.CancelOrderPrice →
        openingOrder.CancelOrderPrice ≤ price.HighPrice →
        (resolveOrder price (NewOrder openingOrder (A / P) P t)
          { options with CurrentBaseAmount := options.CurrentBaseAmount - A / P }).2 =
          options := by
  constructor
  · refine ⟨?_, rfl, ?_, ?_⟩
    all_goals
      simp +decide [Scenario.C, Scenario.onFirstBar, Scenario.bar, Scenario.options,
        Scenario.hour, BackTest.Run, runFrom, runBar, resolveBar, openStep, openAsk, openBid,
        CountEnabledOrder, resolveOrders, resolveOrder, cancelCheck, takeProfitCheck,
        Order.IsEnable, NewOrder, Order.MarkCancel, Order.MarkMatched]
    all_goals norm_num
  · intro openingOrder A P t price options hside hlo hhi
    have hopen : (NewOrder openingOrder (A / P) P t).IsEnable = true := rfl
    rw [resolveOrder_of_cancel price (NewOrder openingOrder (A / P) P t) _ hopen hlo hhi]
    simp [NewOrder, hside]

/-- C3, as stated, fails on scenario B: the BID order opened at price 100 with allocation
100 and take-profit price 92 is MATCHED on the bar `[90, 95]`, the quote amount stays at its
post-reservation value 0, and the base amount credited is `100 / 100 = 1`, which is not
`100 / 92`. -/
theorem bid_match_credit_counterexample :
    Scenario.B.Run.order.map (fun o => (o.OrderType, o.Status, o.TakeProfitPrice)) =
        [(OrderType.BID, OrderStatus.MATCHED, 92)] ∧
      Scenario.B.Run.BackTestOptions.CurrentQuoteAmount = 0 ∧
      Scenario.B.Run.BackTestOptions.CurrentBaseAmount
        - Scenario.B.BackTestOptions.CurrentBaseAmount = 1 ∧
      Scenario.B.Run.BackTestOptions.CurrentBaseAmount
        - Scenario.B.BackTestOptions.CurrentBaseAmount ≠ 100 / 92 := by
  refine ⟨?_, ?_, ?_, ?_⟩
  all_goals
    simp +decide [Scenario.B, Scenario.onFirstBar, Scenario.bar, Scenario.options,
      Scenario.hour, BackTest.Run, runFrom, runBar, resolveBar, openStep, openAsk, openBid,
      CountEnabledOrder, resolveOrders, resolveOrder, cancelCheck, takeProfitCheck,
      Order.IsEnable, NewOrder, Order.MarkCancel, Order.MarkMatched]
  all_goals norm_num

/-- C3, amended. A BID order opened with allocation `A` at open price `P` that meets a later
bar whose range covers its take-profit price but not its cancel price ends MATCHED, closed at
that bar's timestamp; the base amount credited is `A / P` (the open price, not the
take-profit price, divides the allocation), and every other option, the quote amount among
them, is unchanged. In a run over two bars that opens the order on the first bar, the final
balances are the quote amount less `AmountPerOrder` and the base amount plus
`AmountPerOrder / OpenPrice` of the first bar. -/
theorem bid_match_credit (openingOrder : OpeningOrder F) (A P : F) (t : Int) (price : Price F)
    (hside : openingOrder.OrderType = OrderType.BID)
    (hc : ¬ (price.LowPrice ≤ openingOrder.CancelOrderPrice ∧
      openingOrder.CancelOrderPrice ≤ price.HighPrice))
    (ht : price.LowPrice ≤ openingOrder.TakeProfitPrice ∧
      openingOrder.TakeProfitPrice ≤ price.HighPrice) :
    (∀ options : BacktestOptions F,
      resolveOrder price (NewOrder openingOrder A P t) options =
        ({ NewOrder openingOrder A P t with
            Status := OrderStatus.MATCHED, ClosedAt := some price.Timestamp },
          { options with CurrentBaseAmount := options.CurrentBaseAmount + A / P })) ∧
    (∀ (myStrategy : Strategy F) (bar0 : Price F) (options : BacktestOptions F),
      myStrategy.OpenNewOrder bar0 = some openingOrder →
      myStrategy.OpenNewOrder price = none →
      options.AmountPerOrder ≤ options.CurrentQuoteAmount →
      (BackTest.Run ⟨myStrategy, [bar0, price], options, []⟩).order =
        [{ NewOrder openingOrder options.AmountPerOrder bar0.OpenPrice bar0.Timestamp with
            Status := OrderStatus.MATCHED, ClosedAt := some price.Timestamp }] ∧
      (BackTest.Run ⟨myStrategy, [bar0, price], options, []⟩).BackTestOptions =
        { options with
          CurrentQuoteAmount := options.CurrentQuoteAmount - options.AmountPerOrder,
          CurrentBaseAmount :=
            options.CurrentBaseAmount + options.AmountPerOrder / bar0.OpenPrice }) := by
  have hbody : ∀ (A P : F) (t : Int) (options : BacktestOptions F),
      resolveOrder price (NewOrder openingOrder A P t) options =
        ({ NewOrder openingOrder A P t with
            Status := OrderStatus.MATCHED, ClosedAt := some price.Timestamp },
          { options with CurrentBaseAmount := options.CurrentBaseAmount + A / P }) := by
    intro A P t options
    have hopen : (NewOrder openingOrder A P t).IsEnable = true := rfl
    rw [resolveOrder_of_match price _ options hopen hc ht.1 ht.2,
      markMatched_of_enable _ price.Timestamp hopen]
    simp [NewOrder, hside]
  refine ⟨hbody A P t, ?_⟩
  intro myStrategy bar0 options h0 h1 hfunds
  have hrun := run_two_bars_of_bid myStrategy bar0 price options openingOrder h0 h1 hside hfunds
  rw [hbody] at hrun
  exact ⟨congrArg RunState.HistoryOrders hrun, congrArg RunState.Options hrun⟩

/-- C3 amended, at a concrete input: scenario B, where the credit is `100 / 100`. -/
theorem bid_match_credit_witness :
    ((Scenario.bar 93 90 95 Scenario.hour).LowPrice ≤ (92 : ℚ) ∧
        (92 : ℚ) ≤ (Scenario.bar 93 90 95 Scenario.hour).HighPrice) ∧
      Scenario.B.Run.BackTestOptions =
        { Scenario.options with CurrentQuoteAmount := 100 - 100, CurrentBaseAmount := 0 + 100 / 100 } :=
  ⟨by norm_num [Scenario.bar],
    ((bid_match_credit
      ({ OrderType := OrderType.BID, CancelOrderPrice := 80, TakeProfitPrice := 92 } :
        OpeningOrder ℚ)
      (100 : ℚ) 100 0 (Scenario.bar 93 90 95 Scenario.hour) rfl
      (by norm_num [Scenario.bar]) (by norm_num [Scenario.bar])).2
      Scenario.B.myStrategy (Scenario.bar 100 100 100 0) Scenario.options rfl rfl
      (by norm_num [Scenario.options])).2⟩

end Claims

/-! ## The valuation through `json.Marshal` -/

theorem PortfolioMarshal_of_short (pow : Float64 → Float64 → Float64) (now : Int)
    (bt : BackTest ℚ) (h : bt.Prices.length < 2) :
    bt.PortfolioMarshal pow now = Except.error PortfolioFailure.indexOutOfRange := by
  have hp : index bt.Prices ((bt.Prices.length : Int) - 2) = none := by
    unfold index
    rw [if_pos (by omega)]
  unfold BackTest.PortfolioMarshal
  simp only [hp]
  split
  · rename_i heq
    exact Option.noConfusion heq
  · rfl

theorem PortfolioMarshal_of_index (pow : Float64 → Float64 → Float64) (now : Int)
    (bt : BackTest ℚ) (baseCoin quoteCoin : List Char) (first last beforeLast : Price ℚ)
    (hb : index (Split bt.BackTestOptions.Pair.data '/') 0 = some baseCoin)
    (hq : index (Split bt.BackTestOptions.Pair.data '/') 1 = some quoteCoin)
    (hf : index bt.Prices 0 = some first)
    (hl : index bt.Prices ((bt.Prices.length : Int) - 1) = some last)
    (hp : index bt.Prices ((bt.Prices.length : Int) - 2) = some beforeLast) :
    bt.PortfolioMarshal pow now =
      match (Float64.div
            (bt.BackTestOptions.CurrentBaseAmount * first.OpenPrice
                + bt.BackTestOptions.CurrentQuoteAmount
              - (bt.BackTestOptions.InitialBaseAmount * first.OpenPrice
                + bt.BackTestOptions.InitialQuoteAmount))
            (bt.BackTestOptions.InitialBaseAmount * first.OpenPrice
              + bt.BackTestOptions.InitialQuoteAmount)).mul 100,
          Float64.calculateCAGR pow first.Timestamp last.Timestamp
            (bt.BackTestOptions.InitialBaseAmount * first.OpenPrice
              + bt.BackTestOptions.InitialQuoteAmount)
            (bt.BackTestOptions.CurrentBaseAmount * first.OpenPrice
              + bt.BackTestOptions.CurrentQuoteAmount) with
      | Float64.finite profitMargin, Float64.finite cagr =>
        Except.ok
          { Pair := bt.BackTestOptions.Pair
            BaseCoin := String.mk baseCoin
            QuoteCoin := String.mk quoteCoin
            AmountPerOrder := bt.BackTestOptions.AmountPerOrder
            InitialBaseAmount := bt.BackTestOptions.InitialBaseAmount
            CurrentBaseAmount := bt.BackTestOptions.CurrentBaseAmount
            InitialQuoteAmount := bt.BackTestOptions.InitialQuoteAmount
            CurrentQuoteAmount := bt.BackTestOptions.CurrentQuoteAmount
            InitialSumAmount :=
              bt.BackTestOptions.InitialBaseAmount * first.OpenPrice
                + bt.BackTestOptions.InitialQuoteAmount
            CurrentSumAmount :=
              bt.BackTestOptions.CurrentBaseAmount * first.OpenPrice
                + bt.BackTestOptions.CurrentQuoteAmount
            Profit :=
              bt.BackTestOptions.CurrentBaseAmount * first.OpenPrice
                  + bt.BackTestOptions.CurrentQuoteAmount
                - (bt.BackTestOptions.InitialBaseAmount * first.OpenPrice
                  + bt.BackTestOptions.InitialQuoteAmount)
            ProfitMargin := profitMargin
            Cagr := cagr
            Orders := bt.order
            CreatedAt := now
            Strategy := bt.myStrategy.Naming
            Prices := bt.Prices
            Interval :=
              minute2Interval
                (toInt (Duration.Minutes (Time.Sub last.Timestamp beforeLast.Timestamp)))
            From := first.Timestamp
            To := last.Timestamp }
      | _, _ => Except.error PortfolioFailure.cannotMarshal := by
  unfold BackTest.PortfolioMarshal
  simp only [hb, hq, hf, hl, hp]

/-- A quotient by zero, multiplied by a finite value, is not finite. -/
theorem div_zero_mul_ne_finite (a c m : ℚ) : (Float64.div a 0).mul c ≠ Float64.finite m := by
  unfold Float64.div Float64.mul
  rw [if_neg (by simp)]
  split_ifs <;> simp

theorem mul_eq_finite (x : Float64) (c m : ℚ) (h : x.mul c = Float64.finite m) :
    ∃ q, x = Float64.finite q ∧ m = q * c := by
  cases x with
  | finite q => exact ⟨q, rfl, (Float64.finite.inj h).symm⟩
  | posInf => unfold Float64.mul at h; split_ifs at h
  | negInf => unfold Float64.mul at h; split_ifs at h
  | nan => exact Float64.noConfusion h

/-- A report is serialised only with the five index expressions in range and both metrics
finite. -/
theorem PortfolioMarshal_of_ok (pow : Float64 → Float64 → Float64) (now : Int)
    (bt : BackTest ℚ) (r : Portfolio) (h : bt.PortfolioMarshal pow now = Except.ok r) :
    ∃ first last beforeLast,
      index bt.Prices 0 = some first ∧
      index bt.Prices ((bt.Prices.length : Int) - 1) = some last ∧
      index bt.Prices ((bt.Prices.length : Int) - 2) = some beforeLast ∧
      r.InitialSumAmount =
        bt.BackTestOptions.InitialBaseAmount * first.OpenPrice
          + bt.BackTestOptions.InitialQuoteAmount ∧
      r.CurrentSumAmount =
        bt.BackTestOptions.CurrentBaseAmount * first.OpenPrice
          + bt.BackTestOptions.CurrentQuoteAmount ∧
      r.Profit = r.CurrentSumAmount - r.InitialSumAmount ∧
      r.From = first.Timestamp ∧ r.To = last.Timestamp ∧
      (Float64.div r.Profit r.InitialSumAmount).mul 100 = Float64.finite r.ProfitMargin ∧
      Float64.calculateCAGR pow r.From r.To r.InitialSumAmount r.CurrentSumAmount
        = Float64.finite r.Cagr := by
  cases hb : index (Split bt.BackTestOptions.Pair.data '/') 0 with
  | none => simp [BackTest.PortfolioMarshal, hb] at h
  | some baseCoin =>
    cases hq : index (Split bt.BackTestOptions.Pair.data '/') 1 with
    | none => simp [BackTest.PortfolioMarshal, hb, hq] at h
    | some quoteCoin =>
      cases hf : index bt.Prices 0 with
      | none => simp [BackTest.PortfolioMarshal, hb, hq, hf] at h
      | some first =>
        cases hl : index bt.Prices ((bt.Prices.length : Int) - 1) with
        | none => simp [BackTest.PortfolioMarshal, hb, hq, hf, hl] at h
        | some last =>
          cases hp : index bt.Prices ((bt.Prices.length : Int) - 2) with
          | none => simp [BackTest.PortfolioMarshal, hb, hq, hf, hl, hp] at h
          | some beforeLast =>
            rw [PortfolioMarshal_of_index pow now bt baseCoin quoteCoin first last beforeLast
              hb hq hf hl hp] at h
            refine ⟨first, last, beforeLast, rfl, rfl, rfl, ?_⟩
            split at h
            · rename_i profitMargin cagr hm hc
              have hr := Except.ok.inj h
              subst hr
              exact ⟨rfl, rfl, rfl, rfl, rfl, hm, hc⟩
            · exact Except.noConfusion h

/-- C10, as stated, fails on two bars whose timestamps run backwards: the elapsed time
between first and last bar is negative (minus 8766 hours, so `years = -1`), the initial value
1000 is not zero, and `Portfolio` does not fail: whenever `math.Pow(1.1, -1)` is a finite
`float64` (as it is, and as the stand-in has it), both metrics are finite, `json.Marshal`
accepts the report, and the report has profit margin 10 and the CAGR that the formula gives
for the exponent `1 / (-1)`. -/
theorem portfolio_backwards_counterexample :
    Time.Sub 0 (8766 * Scenario.hour) < 0 ∧
      Scenario.backwards.BackTestOptions.InitialBaseAmount * 100
        + Scenario.backwards.BackTestOptions.InitialQuoteAmount = 1000 ∧
      (∀ (pow : Float64 → Float64 → Float64) (now : Int) (v : ℚ),
        pow (Float64.finite (1100 / 1000)) (Float64.finite (1 / (-1))) = Float64.finite v →
        ∃ r, Scenario.backwards.PortfolioMarshal pow now = Except.ok r ∧
          r.InitialSumAmount = 1000 ∧ r.CurrentSumAmount = 1100 ∧ r.ProfitMargin = 10 ∧
          r.Cagr = (v - 1) * 100) ∧
      ∃ r, Scenario.backwards.PortfolioMarshal Scenario.pow64 0 = Except.ok r ∧
        r.ProfitMargin = 10 ∧ r.Cagr = (10 / 11 - 1) * 100 := by
  have hsub : Time.Sub 0 (8766 * Scenario.hour) = -31557600000000000 := by decide
  have hgen : ∀ (pow : Float64 → Float64 → Float64) (now : Int) (v : ℚ),
      pow (Float64.finite (1100 / 1000)) (Float64.finite (1 / (-1))) = Float64.finite v →
      ∃ r, Scenario.backwards.PortfolioMarshal pow now = Except.ok r ∧
        r.InitialSumAmount = 1000 ∧ r.CurrentSumAmount = 1100 ∧ r.ProfitMargin = 10 ∧
        r.Cagr = (v - 1) * 100 := by
    intro pow now v hv
    have hr := PortfolioMarshal_of_index pow now Scenario.backwards "BTC".data "USDT".data
      (Scenario.bar 100 100 100 (8766 * Scenario.hour)) (Scenario.bar 100 100 100 0)
      (Scenario.bar 100 100 100 (8766 * Scenario.hour)) (by decide) (by decide) rfl rfl rfl
    have hi : Scenario.backwards.BackTestOptions.InitialBaseAmount
          * (Scenario.bar 100 100 100 (8766 * Scenario.hour)).OpenPrice
        + Scenario.backwards.BackTestOptions.InitialQuoteAmount = 1000 := by
      norm_num [Scenario.backwards, Scenario.options, Scenario.bar]
    have hc : Scenario.backwards.BackTestOptions.CurrentBaseAmount
          * (Scenario.bar 100 100 100 (8766 * Scenario.hour)).OpenPrice
        + Scenario.backwards.BackTestOptions.CurrentQuoteAmount = 1100 := by
      norm_num [Scenario.backwards, Scenario.options, Scenario.bar]
    have hm : (Float64.div (1100 - 1000) 1000).mul 100 = Float64.finite 10 := by
      norm_num [Float64.div, Float64.mul]
    have hy : Duration.Hours (Time.Sub (Scenario.bar 100 100 100 0).Timestamp
        (Scenario.bar 100 100 100 (8766 * Scenario.hour)).Timestamp) / 24 / 365.25 = -1 := by
      show Duration.Hours (Time.Sub 0 (8766 * Scenario.hour)) / 24 / 365.25 = -1
      rw [hsub]
      norm_num [Duration.Hours]
    have hg : Float64.calculateCAGR pow
        (Scenario.bar 100 100 100 (8766 * Scenario.hour)).Timestamp
        (Scenario.bar 100 100 100 0).Timestamp 1000 1100 = Float64.finite ((v - 1) * 100) := by
      unfold Float64.calculateCAGR
      simp only [hy]
      have h1 : Float64.div 1100 1000 = Float64.finite (1100 / 1000) := by
        norm_num [Float64.div]
      have h2 : Float64.div 1 (-1) = Float64.finite (1 / (-1)) := by
        norm_num [Float64.div]
      rw [h1, h2, hv]
      rfl
    rw [hi, hc, hm, hg] at hr
    exact ⟨_, hr, rfl, rfl, rfl, rfl⟩
  refine ⟨by decide, by norm_num [Scenario.backwards, Scenario.options], hgen, ?_⟩
  obtain ⟨r, hr, _, _, hm, hc⟩ := hgen Scenario.pow64 0 (10 / 11) (by
    norm_num [Scenario.pow64])
  exact ⟨r, hr, hm, hc⟩

/-- C10, amended. `Portfolio` fails explicitly, by the panic of an index out of range or by
the fatal "cannot marshal portfolio" after `json.Marshal` refused a NaN or ±Inf, whenever the
series is empty or has fewer than two bars or the initial value is 0; a report that is
serialised has a non-zero initial value and a finite profit margin and CAGR. The elapsed time
is not checked: on a series of at least two bars, with a pair that has a separator, a
non-zero initial value and a non-zero elapsed time, negative included, the report is
serialised whenever `math.Pow` returns a finite value `v`, with profit margin
`profit / initialSum * 100` and CAGR `(v - 1) * 100`. -/
theorem portfolio_failures (pow : Float64 → Float64 → Float64) (now : Int) (bt : BackTest ℚ) :
    (bt.Prices.length < 2 →
        bt.PortfolioMarshal pow now = Except.error PortfolioFailure.indexOutOfRange) ∧
      (∀ first, index bt.Prices 0 = some first →
        bt.BackTestOptions.InitialBaseAmount * first.OpenPrice
          + bt.BackTestOptions.InitialQuoteAmount = 0 →
        ∃ e, bt.PortfolioMarshal pow now = Except.error e) ∧
      (∀ r, bt.PortfolioMarshal pow now = Except.ok r →
        2 ≤ bt.Prices.length ∧ r.InitialSumAmount ≠ 0 ∧
        (Float64.div r.Profit r.InitialSumAmount).mul 100 = Float64.finite r.ProfitMargin ∧
        r.ProfitMargin = r.Profit / r.InitialSumAmount * 100 ∧
        Float64.calculateCAGR pow r.From r.To r.InitialSumAmount r.CurrentSumAmount
          = Float64.finite r.Cagr) ∧
      (2 ≤ bt.Prices.length → 2 ≤ (Split bt.BackTestOptions.Pair.data '/').length →
        ∃ first last, index bt.Prices 0 = some first ∧
          index bt.Prices ((bt.Prices.length : Int) - 1) = some last ∧
          (bt.BackTestOptions.InitialBaseAmount * first.OpenPrice
              + bt.BackTestOptions.InitialQuoteAmount ≠ 0 →
            Time.Sub last.Timestamp first.Timestamp ≠ 0 →
            ∀ v : ℚ,
              pow
                (Float64.finite
                  ((bt.BackTestOptions.CurrentBaseAmount * first.OpenPrice
                      + bt.BackTestOptions.CurrentQuoteAmount)
                    / (bt.BackTestOptions.InitialBaseAmount * first.OpenPrice
                      + bt.BackTestOptions.InitialQuoteAmount)))
                (Float64.finite
                  (1 / (Duration.Hours (Time.Sub last.Timestamp first.Timestamp) / 24 / 365.25)))
                = Float64.finite v →
              ∃ r, bt.PortfolioMarshal pow now = Except.ok r ∧
                r.ProfitMargin =
                  ((bt.BackTestOptions.CurrentBaseAmount * first.OpenPrice
                        + bt.BackTestOptions.CurrentQuoteAmount)
                      - (bt.BackTestOptions.InitialBaseAmount * first.OpenPrice
                        + bt.BackTestOptions.InitialQuoteAmount))
                    / (bt.BackTestOptions.InitialBaseAmount * first.OpenPrice
                      + bt.BackTestOptions.InitialQuoteAmount) * 100 ∧
                r.Cagr = (v - 1) * 100)) := by
  have hok : ∀ r, bt.PortfolioMarshal pow now = Except.ok r →
      2 ≤ bt.Prices.length ∧ r.InitialSumAmount ≠ 0 ∧
      (Float64.div r.Profit r.InitialSumAmount).mul 100 = Float64.finite r.ProfitMargin ∧
      r.ProfitMargin = r.Profit / r.InitialSumAmount * 100 ∧
      Float64.calculateCAGR pow r.From r.To r.InitialSumAmount r.CurrentSumAmount
        = Float64.finite r.Cagr := by
    intro r hr
    obtain ⟨first, last, beforeLast, hf, hl, hp, hi, hc, hpr, hfrom, hto, hm, hg⟩ :=
      PortfolioMarshal_of_ok pow now bt r hr
    have hne : r.InitialSumAmount ≠ 0 := by
      intro h0
      rw [h0] at hm
      exact div_zero_mul_ne_finite _ _ _ hm
    have hlen : 2 ≤ bt.Prices.length := by
      by_contra hlt
      rw [PortfolioMarshal_of_short pow now bt (by omega)] at hr
      exact Except.noConfusion hr
    refine ⟨hlen, hne, hm, ?_, hg⟩
    obtain ⟨q, hq, hmq⟩ := mul_eq_finite _ _ _ hm
    unfold Float64.div at hq
    rw [if_pos hne] at hq
    rw [hmq, ← Float64.finite.inj hq]
  refine ⟨PortfolioMarshal_of_short pow now bt, ?_, hok, ?_⟩
  · intro first hf h0
    cases h : bt.PortfolioMarshal pow now with
    | error e => exact ⟨e, rfl⟩
    | ok r =>
      obtain ⟨first2, last, beforeLast, hf2, hl, hp, hi, _⟩ :=
        PortfolioMarshal_of_ok pow now bt r h
      have hsame : first2 = first := Option.some.inj (hf2.symm.trans hf)
      rw [hsame, h0] at hi
      exact absurd hi (hok r h).2.1
  · intro hbars hpair
    obtain ⟨baseCoin, hb⟩ := index_isSome (Split bt.BackTestOptions.Pair.data '/') 0
      (le_refl _) (by omega)
    obtain ⟨quoteCoin, hq⟩ := index_isSome (Split bt.BackTestOptions.Pair.data '/') 1
      (by omega) (by omega)
    obtain ⟨first, hf⟩ := index_isSome bt.Prices 0 (le_refl _) (by omega)
    obtain ⟨last, hl⟩ := index_isSome bt.Prices ((bt.Prices.length : Int) - 1)
      (by omega) (by omega)
    obtain ⟨beforeLast, hp⟩ := index_isSome bt.Prices ((bt.Prices.length : Int) - 2)
      (by omega) (by omega)
    refine ⟨first, last, hf, hl, ?_⟩
    intro hne hgap v hv
    have hr := PortfolioMarshal_of_index pow now bt baseCoin quoteCoin first last beforeLast
      hb hq hf hl hp
    have hyears : Duration.Hours (Time.Sub last.Timestamp first.Timestamp) / 24 / 365.25 ≠ 0 := by
      unfold Duration.Hours
      norm_num
      exact hgap
    have hg : Float64.calculateCAGR pow first.Timestamp last.Timestamp
        (bt.BackTestOptions.InitialBaseAmount * first.OpenPrice
          + bt.BackTestOptions.InitialQuoteAmount)
        (bt.BackTestOptions.CurrentBaseAmount * first.OpenPrice
          + bt.BackTestOptions.CurrentQuoteAmount) = Float64.finite ((v - 1) * 100) := by
      unfold Float64.calculateCAGR
      simp only []
      unfold Float64.div
      rw [if_pos hne, if_pos hyears, hv]
      rfl
    have hm : ∀ a : ℚ, (Float64.div a
        (bt.BackTestOptions.InitialBaseAmount * first.OpenPrice
          + bt.BackTestOptions.InitialQuoteAmount)).mul 100
        = Float64.finite (a / (bt.BackTestOptions.InitialBaseAmount * first.OpenPrice
          + bt.BackTestOptions.InitialQuoteAmount) * 100) := by
      intro a
      unfold Float64.div
      rw [if_pos hne]
      rfl
    rw [hm, hg] at hr
    exact ⟨_, hr, rfl, rfl⟩

/-- C10 amended, at concrete inputs: a series of one bar stops on the index out of range;
two bars with an initial value of 0 stop on "cannot marshal portfolio", the profit margin
being `100 / 0`; and the two bars one year apart of scenario D are serialised, with the
stand-in for `math.Pow`, with profit margin 10. -/
theorem portfolio_failures_witness :
    (∀ (pow : Float64 → Float64 → Float64) (now : Int),
      BackTest.PortfolioMarshal pow now
        { myStrategy := Scenario.never
          Prices := [Scenario.bar 100 100 100 0]
          BackTestOptions := Scenario.options
          order := [] } = Except.error PortfolioFailure.indexOutOfRange) ∧
      (∀ (pow : Float64 → Float64 → Float64) (now : Int),
        ∃ e, Scenario.zeroInitial.PortfolioMarshal pow now = Except.error e) ∧
      (∀ (pow : Float64 → Float64 → Float64) (now : Int),
        Scenario.zeroInitial.PortfolioMarshal pow now
          = Except.error PortfolioFailure.cannotMarshal) ∧
      ∃ r, Scenario.D.PortfolioMarshal Scenario.pow64 0 = Except.ok r ∧ r.ProfitMargin = 10 := by
  refine ⟨fun pow now => (portfolio_failures pow now _).1 (by decide),
    fun pow now => (portfolio_failures pow now Scenario.zeroInitial).2.1
      (Scenario.bar 100 100 100 0) rfl
      (by norm_num [Scenario.zeroInitial, Scenario.options, Scenario.bar]), ?_, ?_⟩
  · intro pow now
    have hr := PortfolioMarshal_of_index pow now Scenario.zeroInitial "BTC".data "USDT".data
      (Scenario.bar 100 100 100 0) (Scenario.bar 100 100 100 Scenario.hour)
      (Scenario.bar 100 100 100 0) (by decide) (by decide) rfl rfl rfl
    have hi : Scenario.zeroInitial.BackTestOptions.InitialBaseAmount
          * (Scenario.bar 100 100 100 0).OpenPrice
        + Scenario.zeroInitial.BackTestOptions.InitialQuoteAmount = 0 := by
      norm_num [Scenario.zeroInitial, Scenario.options, Scenario.bar]
    rw [hi] at hr
    rw [hr]
    split
    · rename_i hm _
      exact absurd hm (div_zero_mul_ne_finite _ _ _)
    · rfl
  · obtain ⟨first, last, hf, hl, h⟩ :=
      (portfolio_failures Scenario.pow64 0 Scenario.D).2.2.2 (by decide) (by decide)
    have hfirst : first = Scenario.bar 100 100 100 0 :=
      (Option.some.inj (hf.symm.trans (by rfl))).symm ▸ rfl
    have hlast : last = Scenario.bar 100 100 100 (8766 * Scenario.hour) :=
      (Option.some.inj (hl.symm.trans (by rfl))).symm ▸ rfl
    subst hfirst hlast
    have hsub : Time.Sub (Scenario.bar 100 100 100 (8766 * Scenario.hour)).Timestamp
        (Scenario.bar 100 100 100 0).Timestamp = 31557600000000000 := by decide
    obtain ⟨r, hr, hm, _⟩ := h (by norm_num [Scenario.D, Scenario.options, Scenario.bar])
      (by rw [hsub]; decide) (11 / 10) (by
        rw [hsub]
        norm_num [Scenario.D, Scenario.options, Scenario.bar, Duration.Hours, Scenario.pow64])
    refine ⟨r, hr, ?_⟩
    rw [hm]
    norm_num [Scenario.D, Scenario.options, Scenario.bar]

/-! ## More facts about the valuation -/

/-- Whenever there is a report, the five index expressions of `Portfolio` have values. -/
theorem Portfolio_index_of_some (pow : ℚ → ℚ → ℚ) (now : Int) (bt : BackTest ℚ) (r : Portfolio)
    (h : bt.Portfolio pow now = some r) :
    ∃ baseCoin quoteCoin first last beforeLast,
      index (Split bt.BackTestOptions.Pair.data '/') 0 = some baseCoin ∧
      index (Split bt.BackTestOptions.Pair.data '/') 1 = some quoteCoin ∧
      index bt.Prices 0 = some first ∧
      index bt.Prices ((bt.Prices.length : Int) - 1) = some last ∧
      index bt.Prices ((bt.Prices.length : Int) - 2) = some beforeLast := by
  simp only [BackTest.Portfolio, Option.bind_eq_bind, Option.bind_eq_some, pure,
    Option.some.injEq] at h
  obtain ⟨baseCoin, hb, quoteCoin, hq, first, hf, last, hl, beforeLast, hp, _⟩ := h
  exact ⟨baseCoin, quoteCoin, first, last, beforeLast, hb, hq, hf, hl, hp⟩

theorem toInt_neg (x : ℚ) : toInt (-x) = -toInt x := by
  unfold toInt
  rw [Rat.neg_num, Rat.neg_den, Int.neg_tdiv]

theorem toInt_of_nonneg (x : ℚ) (h : 0 ≤ x) : toInt x = ⌊x⌋ := by
  unfold toInt
  rw [Int.tdiv_eq_ediv (Rat.num_nonneg.2 h) (by positivity)]
  exact Rat.floor_def.symm

/-- Truncating the quotient of an integer by a positive natural number is the truncating
integer division. -/
theorem toInt_div (d : Int) (n : Nat) (hn : 0 < n) :
    toInt ((d : ℚ) / (n : ℚ)) = Int.tdiv d n := by
  rcases le_or_lt 0 d with h | h
  · have hx : (0 : ℚ) ≤ (d : ℚ) / (n : ℚ) := by positivity
    rw [toInt_of_nonneg _ hx, Rat.floor_intCast_div_natCast,
      Int.tdiv_eq_ediv h (by positivity)]
  · have hd : 0 ≤ -d := by omega
    have hx : (0 : ℚ) ≤ ((-d : Int) : ℚ) / (n : ℚ) := by positivity
    have hneg : (d : ℚ) / (n : ℚ) = -(((-d : Int) : ℚ) / (n : ℚ)) := by push_cast; ring
    rw [hneg, toInt_neg, toInt_of_nonneg _ hx, Rat.floor_intCast_div_natCast,
      ← Int.tdiv_eq_ediv hd (by positivity), Int.neg_tdiv, neg_neg]

/-! ### Rounding to `float64` -/

theorem roundHalfEven_sub_le (q : ℚ) : (roundHalfEven q : ℚ) - q ≤ 1 / 2 := by
  have h1 := Int.floor_le q
  have h2 := Int.lt_floor_add_one q
  unfold roundHalfEven
  split_ifs with ha hb hc
  · linarith
  · push_cast; linarith
  · linarith
  · push_cast; linarith

theorem le_roundHalfEven (q : ℚ) (n : Int) (h : (n : ℚ) ≤ q) : n ≤ roundHalfEven q := by
  have h1 : n ≤ ⌊q⌋ := Int.le_floor.mpr h
  unfold roundHalfEven
  split_ifs <;> omega

/-- A rational less than one half above an integer rounds to that integer. -/
theorem roundHalfEven_of_lt (q : ℚ) (n : Int) (h1 : (n : ℚ) ≤ q) (h2 : q - n < 1 / 2) :
    roundHalfEven q = n := by
  have hf : ⌊q⌋ = n := by rw [Int.floor_eq_iff]; constructor <;> linarith
  unfold roundHalfEven
  rw [hf, if_pos h2]

/-- A rational more than one half above an integer, and below the next, rounds to the next. -/
theorem roundHalfEven_of_gt (q : ℚ) (n : Int) (h1 : 1 / 2 < q - n) (h2 : q < n + 1) :
    roundHalfEven q = n + 1 := by
  have hf : ⌊q⌋ = n := by rw [Int.floor_eq_iff]; constructor <;> linarith
  unfold roundHalfEven
  rw [hf, if_neg (by linarith), if_pos h1]

/-- The binary exponent of a rational between two consecutive powers of two. -/
theorem int_log_two_eq (x : ℚ) (e : Int) (h1 : (2 : ℚ) ^ e ≤ x) (h2 : x < (2 : ℚ) ^ (e + 1)) :
    Int.log 2 x = e := by
  have hx : 0 < x := lt_of_lt_of_le (by positivity) h1
  have ha := Int.zpow_log_le_self (b := 2) (by norm_num) hx
  have hb := Int.lt_zpow_succ_log_self (b := 2) (by norm_num) x
  push_cast at ha hb
  have h3 : (2 : ℚ) ^ e < 2 ^ (Int.log 2 x + 1) := lt_of_le_of_lt h1 hb
  have h4 : (2 : ℚ) ^ (Int.log 2 x) < 2 ^ (e + 1) := lt_of_le_of_lt ha h2
  rw [zpow_lt_zpow_iff_right₀ (by norm_num)] at h3 h4
  omega

theorem int_log_two_lt (x : ℚ) (e : Int) (hx : 0 < x) (h : x < (2 : ℚ) ^ e) :
    Int.log 2 x < e := by
  have ha := Int.zpow_log_le_self (b := 2) (by norm_num) hx
  push_cast at ha
  have h4 : (2 : ℚ) ^ (Int.log 2 x) < 2 ^ e := lt_of_le_of_lt ha h
  rwa [zpow_lt_zpow_iff_right₀ (by norm_num)] at h4

/-- The `float64` nearest to a positive rational, from its binary exponent `e` and the
integer that its quotient by `2 ^ (e - 52)` rounds to. -/
theorem roundFloat64_eq (x : ℚ) (e n : Int) (h1 : (2 : ℚ) ^ e ≤ x) (h2 : x < (2 : ℚ) ^ (e + 1))
    (hn : roundHalfEven (x / 2 ^ (e - 52)) = n) : roundFloat64 x = n * 2 ^ (e - 52) := by
  have hx : 0 < x := lt_of_lt_of_le (by positivity) h1
  rw [roundFloat64, if_neg hx.ne', if_pos hx, roundPos, int_log_two_eq x e h1 h2, hn]

/-- Rounding moves a positive rational up by at most half a unit in the last place. -/
theorem roundPos_sub_le (x : ℚ) : roundPos x - x ≤ 2 ^ (Int.log 2 x - 53) := by
  have hu : (0 : ℚ) < 2 ^ (Int.log 2 x - 52) := by positivity
  have h := roundHalfEven_sub_le (x / 2 ^ (Int.log 2 x - 52))
  have h2 : (2 : ℚ) ^ (Int.log 2 x - 53) = 2 ^ (Int.log 2 x - 52) / 2 := by
    rw [show Int.log 2 x - 53 = Int.log 2 x - 52 - 1 by ring, zpow_sub_one₀ (by norm_num)]
    ring
  unfold roundPos
  rw [h2]
  have h3 : x = x / 2 ^ (Int.log 2 x - 52) * 2 ^ (Int.log 2 x - 52) := by
    field_simp
  nlinarith

theorem roundPos_nonneg (x : ℚ) (hx : 0 ≤ x) : 0 ≤ roundPos x := by
  have h := le_roundHalfEven (x / 2 ^ (Int.log 2 x - 52)) 0 (by push_cast; positivity)
  unfold roundPos
  have : (0 : ℚ) ≤ (roundHalfEven (x / 2 ^ (Int.log 2 x - 52)) : ℚ) := by exact_mod_cast h
  positivity

/-- Rounding does not take a rational below an integer that it is not below, as long as the
integers are on the grid (binary exponent at most 52). -/
theorem le_roundPos (x : ℚ) (m : Int) (hm : (m : ℚ) ≤ x) (he : Int.log 2 x ≤ 52) :
    (m : ℚ) ≤ roundPos x := by
  have hu : (0 : ℚ) < 2 ^ (Int.log 2 x - 52) := by positivity
  obtain ⟨k, hk⟩ : ∃ k : ℕ, Int.log 2 x - 52 = -(k : Int) :=
    ⟨(52 - Int.log 2 x).toNat, by omega⟩
  have hpow : (2 : ℚ) ^ (Int.log 2 x - 52) = ((2 ^ k : ℕ) : ℚ)⁻¹ := by
    rw [hk, zpow_neg, zpow_natCast]; push_cast; rfl
  have h := le_roundHalfEven (x / 2 ^ (Int.log 2 x - 52)) (m * (2 ^ k : ℕ)) (by
    rw [hpow]; push_cast
    rw [div_inv_eq_mul]
    have : (0 : ℚ) < 2 ^ k := by positivity
    nlinarith)
  have h2 : ((m * (2 ^ k : ℕ) : Int) : ℚ) ≤ (roundHalfEven (x / 2 ^ (Int.log 2 x - 52)) : ℚ) := by
    exact_mod_cast h
  unfold roundPos
  calc (m : ℚ) = ((m * (2 ^ k : ℕ) : Int) : ℚ) * 2 ^ (Int.log 2 x - 52) := by
        rw [hpow]; push_cast; field_simp
    _ ≤ _ := by
        apply mul_le_mul_of_nonneg_right h2 hu.le

theorem roundFloat64_neg (x : ℚ) : roundFloat64 (-x) = -roundFloat64 x := by
  unfold roundFloat64
  rcases lt_trichotomy x 0 with h | h | h
  · rw [if_neg (by linarith), if_pos (by linarith), if_neg (by linarith), if_neg (by linarith)]
    simp
  · simp [h]
  · rw [if_neg (by linarith), if_neg (by linarith), if_neg (by linarith), if_pos h]
    simp

theorem roundFloat64_of_pos (x : ℚ) (hx : 0 < x) : roundFloat64 x = roundPos x := by
  rw [roundFloat64, if_neg hx.ne', if_pos hx]

theorem roundFloat64_zero : roundFloat64 0 = 0 := by simp [roundFloat64]

theorem toInt_of_between (v : ℚ) (m : Int) (hm : 0 ≤ m) (h1 : (m : ℚ) ≤ v) (h2 : v < m + 1) :
    toInt v = m := by
  have hv : 0 ≤ v := le_trans (by exact_mod_cast hm) h1
  rw [toInt_of_nonneg v hv, Int.floor_eq_iff]
  exact ⟨h1, h2⟩

/-- Below `2 ^ 18` minutes the two roundings of `Duration.Minutes` do not reach the next
integer: the conversion to `int` gives the whole number of minutes. -/
theorem toInt_minutes_of_nonneg (d : Int) (h0 : 0 ≤ d) (h1 : d < 262144 * 60000000000) :
    toInt (Duration.Minutes d) = Int.tdiv d 60000000000 := by
  have hdiv : Int.tdiv d 60000000000 = d / 60000000000 :=
    Int.tdiv_eq_ediv h0 (by norm_num)
  have hmod : Int.tmod d 60000000000 = d % 60000000000 := Int.tmod_eq_emod h0 (by norm_num)
  have hm0 : 0 ≤ d / 60000000000 := by omega
  have hm1 : d / 60000000000 < 262144 := by omega
  have hr0 : 0 ≤ d % 60000000000 := by omega
  have hr1 : d % 60000000000 < 60000000000 := by omega
  unfold Duration.Minutes
  rw [hdiv, hmod]
  generalize d / 60000000000 = m at hm0 hm1
  generalize d % 60000000000 = r at hr0 hr1
  have hmq0 : (0 : ℚ) ≤ m := by exact_mod_cast hm0
  have hmq1 : (m : ℚ) + 1 ≤ 262144 := by exact_mod_cast hm1
  have hrq0 : (0 : ℚ) ≤ r := by exact_mod_cast hr0
  have hrq1 : (r : ℚ) ≤ 59999999999 := by
    have : r ≤ 59999999999 := by omega
    exact_mod_cast this
  have hf : 0 ≤ roundFloat64 ((r : ℚ) / 60000000000)
      ∧ roundFloat64 ((r : ℚ) / 60000000000) ≤ 59999999999 / 60000000000 + 2 ^ (-54 : Int) := by
    rcases eq_or_lt_of_le hrq0 with h | h
    · rw [← h]; norm_num [roundFloat64_zero]
    · have hx : (0 : ℚ) < (r : ℚ) / 60000000000 := by positivity
      have hx1 : (r : ℚ) / 60000000000 ≤ 59999999999 / 60000000000 := by
        apply div_le_div_of_nonneg_right hrq1 (by norm_num)
      rw [roundFloat64_of_pos _ hx]
      refine ⟨roundPos_nonneg _ hx.le, ?_⟩
      have he : Int.log 2 ((r : ℚ) / 60000000000) < 0 :=
        int_log_two_lt _ 0 hx (by norm_num; linarith)
      have herr := roundPos_sub_le ((r : ℚ) / 60000000000)
      have hmono : (2 : ℚ) ^ (Int.log 2 ((r : ℚ) / 60000000000) - 53) ≤ 2 ^ (-54 : Int) :=
        zpow_le_zpow_right₀ (by norm_num) (by omega)
      linarith
  generalize roundFloat64 ((r : ℚ) / 60000000000) = f at hf
  obtain ⟨hf0, hf1⟩ := hf
  rcases eq_or_lt_of_le (add_nonneg hmq0 hf0) with h | h
  · rw [← h, roundFloat64_zero]
    have : (m : ℚ) = 0 := by linarith
    have hm : m = 0 := by exact_mod_cast this
    rw [hm]; rfl
  · rw [roundFloat64_of_pos _ h]
    have he : Int.log 2 ((m : ℚ) + f) < 18 :=
      int_log_two_lt _ 18 h (by
        have : (2 : ℚ) ^ (-54 : Int) < 1 / 60000000000 := by norm_num
        norm_num at hf1 ⊢
        linarith)
    have herr := roundPos_sub_le ((m : ℚ) + f)
    have hmono : (2 : ℚ) ^ (Int.log 2 ((m : ℚ) + f) - 53) ≤ 2 ^ (-36 : Int) :=
      zpow_le_zpow_right₀ (by norm_num) (by omega)
    have hlow := le_roundPos ((m : ℚ) + f) m (by linarith) (by omega)
    apply toInt_of_between _ m hm0 hlow
    have e54 : (2 : ℚ) ^ (-54 : Int) = 1 / 18014398509481984 := by norm_num
    have e36 : (2 : ℚ) ^ (-36 : Int) = 1 / 68719476736 := by norm_num
    rw [e54] at hf1
    rw [e36] at hmono
    linarith

theorem neg_tmod (a b : Int) : Int.tmod (-a) b = -Int.tmod a b := by
  rw [Int.tmod_def, Int.tmod_def, Int.neg_tdiv]; ring

theorem minutes_neg (d : Int) : Duration.Minutes (-d) = -Duration.Minutes d := by
  unfold Duration.Minutes
  rw [Int.neg_tdiv, neg_tmod]
  push_cast
  rw [neg_div, roundFloat64_neg, ← neg_add, roundFloat64_neg]

/-- The whole number of minutes of a duration shorter than `2 ^ 18` minutes, of either
sign. -/
theorem toInt_minutes (d : Int) (h : |d| < 262144 * 60000000000) :
    toInt (Duration.Minutes d) = Int.tdiv d 60000000000 := by
  rcases le_or_lt 0 d with h0 | h0
  · exact toInt_minutes_of_nonneg d h0 (by rw [abs_of_nonneg h0] at h; exact h)
  · have h1 : -d < 262144 * 60000000000 := by rw [abs_of_neg h0] at h; exact h
    have h2 := toInt_minutes_of_nonneg (-d) (by omega) h1
    rw [minutes_neg, toInt_neg, Int.neg_tdiv] at h2
    omega

theorem timeSub_of_small (t u : Int) (hlo : minDuration ≤ t - u) (hhi : t - u ≤ maxDuration) :
    Time.Sub t u = t - u := by
  unfold Time.Sub
  rw [if_neg (by omega), if_neg (by omega)]

theorem scenario_pow_one_left (y : ℚ) : Scenario.pow 1 y = 1 := by
  unfold Scenario.pow
  split_ifs <;> simp

theorem scenario_pow_exp_one (x : ℚ) : Scenario.pow x 1 = x := by
  simp [Scenario.pow]

/-! ## The claims on the valuation -/

/-- C11. Valuation formulas: for a series of at least two bars, with `first` its first bar,
every report of `Portfolio` has `InitialSumAmount = InitialBaseAmount * first.OpenPrice +
InitialQuoteAmount`, `CurrentSumAmount = CurrentBaseAmount * first.OpenPrice +
CurrentQuoteAmount`, `Profit = CurrentSumAmount - InitialSumAmount` and `ProfitMargin =
Profit / InitialSumAmount * 100`, and carries the balances over unchanged; there is a report
as soon as the pair has a separator. -/
theorem valuation_formulas (pow : ℚ → ℚ → ℚ) (now : Int) (bt : BackTest ℚ)
    (hbars : 2 ≤ bt.Prices.length) :
    ∃ first, bt.Prices.head? = some first ∧
      (∀ r, bt.Portfolio pow now = some r →
        r.InitialSumAmount =
            bt.BackTestOptions.InitialBaseAmount * first.OpenPrice
              + bt.BackTestOptions.InitialQuoteAmount ∧
          r.CurrentSumAmount =
            bt.BackTestOptions.CurrentBaseAmount * first.OpenPrice
              + bt.BackTestOptions.CurrentQuoteAmount ∧
          r.Profit = r.CurrentSumAmount - r.InitialSumAmount ∧
          r.ProfitMargin = r.Profit / r.InitialSumAmount * 100 ∧
          r.InitialBaseAmount = bt.BackTestOptions.InitialBaseAmount ∧
          r.InitialQuoteAmount = bt.BackTestOptions.InitialQuoteAmount ∧
          r.CurrentBaseAmount = bt.BackTestOptions.CurrentBaseAmount ∧
          r.CurrentQuoteAmount = bt.BackTestOptions.CurrentQuoteAmount) ∧
      (2 ≤ (Split bt.BackTestOptions.Pair.data '/').length →
        ∃ r, bt.Portfolio pow now = some r) := by
  obtain ⟨first, hf⟩ := index_isSome bt.Prices 0 (le_refl _) (by omega)
  have hhead : bt.Prices.head? = some first := by
    cases hp : bt.Prices with
    | nil => rw [hp] at hbars; simp at hbars
    | cons a rest => rw [hp] at hf; simpa [index] using hf
  refine ⟨first, hhead, ?_, fun hpair => Portfolio_isSome pow now bt hbars hpair⟩
  intro r hr
  obtain ⟨baseCoin, quoteCoin, first2, last, beforeLast, hb, hq, hf2, hl, hp⟩ :=
    Portfolio_index_of_some pow now bt r hr
  have hsame : first2 = first := Option.some.inj (hf2.symm.trans hf)
  subst hsame
  rw [Portfolio_of_index pow now bt baseCoin quoteCoin first2 last beforeLast hb hq hf2 hl hp]
    at hr
  have hr2 := Option.some.inj hr
  subst hr2
  exact ⟨rfl, rfl, rfl, rfl, rfl, rfl, rfl, rfl⟩

/-- C11, at a concrete input: scenario D, an initial value of 1000 and a current value of
1100 quote units. -/
theorem valuation_formulas_witness :
    2 ≤ Scenario.D.Prices.length ∧
      ∀ (pow : ℚ → ℚ → ℚ) (now : Int),
        ∃ r, Scenario.D.Portfolio pow now = some r ∧ r.InitialSumAmount = 1000 ∧
          r.CurrentSumAmount = 1100 ∧ r.Profit = 100 ∧ r.ProfitMargin = 10 := by
  refine ⟨by decide, ?_⟩
  intro pow now
  obtain ⟨first, hhead, hall, hsome⟩ := valuation_formulas pow now Scenario.D (by decide)
  have hfirst : first = Scenario.bar 100 100 100 0 :=
    (Option.some.inj (hhead.symm.trans (by rfl))).symm ▸ rfl
  subst hfirst
  obtain ⟨r, hr⟩ := hsome (by decide)
  obtain ⟨hi, hc, hp, hm, _⟩ := hall r hr
  have hi2 : r.InitialSumAmount = 1000 := by
    rw [hi]; norm_num [Scenario.D, Scenario.options, Scenario.bar]
  have hc2 : r.CurrentSumAmount = 1100 := by
    rw [hc]; norm_num [Scenario.D, Scenario.options, Scenario.bar]
  have hp2 : r.Profit = 100 := by rw [hp, hi2, hc2]; norm_num
  exact ⟨r, hr, hi2, hc2, hp2, by rw [hm, hp2, hi2]; norm_num⟩

/-- C12. CAGR round-trip: with `math.Pow` returning 1 for base 1 (its documented special
case `Pow(1, y) = 1`), for every `startDate < endDate` and every non-zero `initialAmount`,
`calculateCAGR(startDate, endDate, initialAmount, initialAmount) = 0`. -/
theorem cagr_round_trip (pow : ℚ → ℚ → ℚ) (hpow : ∀ y, pow 1 y = 1) (startDate endDate : Int)
    (initialAmount : ℚ) (_hdates : startDate < endDate) (hne : initialAmount ≠ 0) :
    calculateCAGR pow startDate endDate initialAmount initialAmount = 0 := by
  simp only [calculateCAGR]
  rw [div_self hne, hpow, sub_self, zero_mul]

/-- C12, at a concrete input: one year between the dates and the amount 1000 on both sides. -/
theorem cagr_round_trip_witness :
    (0 : Int) < 8766 * Scenario.hour ∧ (1000 : ℚ) ≠ 0 ∧
      calculateCAGR Scenario.pow 0 (8766 * Scenario.hour) 1000 1000 = 0 :=
  ⟨by decide, by norm_num,
    cagr_round_trip Scenario.pow scenario_pow_one_left 0 (8766 * Scenario.hour) 1000
      (by decide) (by norm_num)⟩

/-- C13. Scenario D, generalised: with `math.Pow` returning its base for exponent 1 (its
documented special case `Pow(x, 1) = x`), when `endDate - startDate` is exactly 8766 hours,
`years = hours / 24 / 365.25` is 1 and `calculateCAGR` returns
`(currentAmount / initialAmount - 1) * 100`, for every positive `initialAmount` and
non-negative `currentAmount`. -/
theorem cagr_one_year (pow : ℚ → ℚ → ℚ) (hpow : ∀ x, pow x 1 = x) (startDate endDate : Int)
    (initialAmount currentAmount : ℚ) (hyear : endDate - startDate = 8766 * 3600000000000)
    (_hinit : 0 < initialAmount) (_hcur : 0 ≤ currentAmount) :
    Duration.Hours (Time.Sub endDate startDate) / 24 / 365.25 = 1 ∧
      calculateCAGR pow startDate endDate initialAmount currentAmount =
        (currentAmount / initialAmount - 1) * 100 := by
  have hsub : Time.Sub endDate startDate = 8766 * 3600000000000 := by
    rw [timeSub_of_small endDate startDate (by rw [hyear]; decide) (by rw [hyear]; decide),
      hyear]
  have hyears : Duration.Hours (Time.Sub endDate startDate) / 24 / 365.25 = 1 := by
    rw [hsub]; norm_num [Duration.Hours]
  refine ⟨hyears, ?_⟩
  simp only [calculateCAGR]
  rw [hyears, div_one, hpow]

/-- C13, at a concrete input: scenario D, `initialSum = 1000` and `currentSum = 1100` one
year apart give a CAGR of 10, in `calculateCAGR` and in the report of `Portfolio`. -/
theorem cagr_one_year_witness :
    calculateCAGR Scenario.pow 0 (8766 * Scenario.hour) 1000 1100 = 10 ∧
      ∀ now : Int, ∃ r, Scenario.D.Portfolio Scenario.pow now = some r ∧ r.Cagr = 10 := by
  have h := (cagr_one_year Scenario.pow scenario_pow_exp_one 0 (8766 * Scenario.hour) 1000 1100
    (by decide) (by norm_num) (by norm_num)).2
  have h10 : calculateCAGR Scenario.pow 0 (8766 * Scenario.hour) 1000 1100 = 10 := by
    rw [h]; norm_num
  refine ⟨h10, fun now => ?_⟩
  have hr := Portfolio_of_index Scenario.pow now Scenario.D "BTC".data "USDT".data
    (Scenario.bar 100 100 100 0) (Scenario.bar 100 100 100 (8766 * Scenario.hour))
    (Scenario.bar 100 100 100 0) (by decide) (by decide) rfl rfl rfl
  refine ⟨_, hr, ?_⟩
  have hi : Scenario.D.BackTestOptions.InitialBaseAmount * (Scenario.bar 100 100 100 0).OpenPrice
      + Scenario.D.BackTestOptions.InitialQuoteAmount = 1000 := by
    norm_num [Scenario.D, Scenario.options, Scenario.bar]
  have hc : Scenario.D.BackTestOptions.CurrentBaseAmount * (Scenario.bar 100 100 100 0).OpenPrice
      + Scenario.D.BackTestOptions.CurrentQuoteAmount = 1100 := by
    norm_num [Scenario.D, Scenario.options, Scenario.bar]
  show calculateCAGR Scenario.pow (Scenario.bar 100 100 100 0).Timestamp
    (Scenario.bar 100 100 100 (8766 * Scenario.hour)).Timestamp _ _ = 10
  rw [hi, hc]
  exact h10

/-- The `float64` that `Duration.Minutes` returns for one nanosecond less than 262145
minutes: the fraction `59999999999 / 60000000000` rounds to a `float64` less than `2 ^ -35`
below 1, and its sum with `262144 = 2 ^ 18`, where consecutive `float64` values are `2 ^ -34`
apart, rounds up to 262145. -/
theorem minutes_at_gap : Duration.Minutes (262145 * Scenario.minute - 1) = 262145 := by
  have hq : Int.tdiv (262145 * Scenario.minute - 1) 60000000000 = 262144 := by decide
  have hr : Int.tmod (262145 * Scenario.minute - 1) 60000000000 = 59999999999 := by decide
  have hf : roundFloat64 (59999999999 / 60000000000) = 9007199254590872 * 2 ^ (-1 - 52 : Int) :=
    roundFloat64_eq _ (-1) 9007199254590872 (by norm_num) (by norm_num)
      (roundHalfEven_of_lt _ 9007199254590872 (by norm_num) (by norm_num))
  have hs : roundFloat64 (262144 + 9007199254590872 * 2 ^ (-1 - 52 : Int))
      = 4503616807239680 * 2 ^ (18 - 52 : Int) :=
    roundFloat64_eq _ 18 4503616807239680 (by norm_num) (by norm_num)
      (roundHalfEven_of_gt _ 4503616807239679 (by norm_num) (by norm_num))
  unfold Duration.Minutes
  rw [hq, hr]
  push_cast
  rw [hf, hs]
  norm_num

/-- C14, as stated, fails on a series whose last two bars are one nanosecond less than
262145 minutes apart: the whole number of minutes between them is 262144, and `Portfolio`
labels the interval "262145m", because `duration.Minutes()` is the `float64` 262145 there. -/
theorem interval_label_counterexample :
    Int.tdiv (Time.Sub (Scenario.hour + (262145 * Scenario.minute - 1)) Scenario.hour)
        60000000000 = 262144 ∧
      minute2Interval 262144 = "262144m" ∧
      toInt (Duration.Minutes
        (Time.Sub (Scenario.hour + (262145 * Scenario.minute - 1)) Scenario.hour)) = 262145 ∧
      ∀ (pow : ℚ → ℚ → ℚ) (now : Int),
        ∃ r, (Scenario.E (262145 * Scenario.minute - 1)).Portfolio pow now = some r ∧
          r.Interval = "262145m" := by
  have hsub : Time.Sub (Scenario.hour + (262145 * Scenario.minute - 1)) Scenario.hour
      = 262145 * Scenario.minute - 1 := by decide
  have hto : toInt (Duration.Minutes (262145 * Scenario.minute - 1)) = 262145 := by
    rw [minutes_at_gap]; rfl
  refine ⟨by decide, by decide, by rw [hsub, hto], ?_⟩
  intro pow now
  have hr := Portfolio_of_index pow now (Scenario.E (262145 * Scenario.minute - 1))
    "BTC".data "USDT".data (Scenario.bar 100 100 100 0)
    (Scenario.bar 100 100 100 (Scenario.hour + (262145 * Scenario.minute - 1)))
    (Scenario.bar 100 100 100 Scenario.hour) (by decide) (by decide) rfl rfl rfl
  refine ⟨_, hr, ?_⟩
  show minute2Interval (toInt (Duration.Minutes
    (Time.Sub (Scenario.hour + (262145 * Scenario.minute - 1)) Scenario.hour))) = "262145m"
  rw [hsub, hto]
  decide

/-- C14, amended. Interval label: `minute2Interval` gives "1m", "2m", "3m", "5m", "1h", "2h"
for 1, 2, 3, 5, 60, 120, and for every other integer its decimal rendering (the base-10
digits, after a minus sign for a negative integer) followed by "m"; in every report of
`Portfolio` the interval is `minute2Interval` of `int(duration.Minutes())` for the duration
between the last two bars, and this is the whole number of minutes between them (the
truncated quotient by the nanoseconds of a minute) whenever the two bars are less than
`2 ^ 18 = 262144` minutes apart. -/
theorem interval_label :
    (minute2Interval 1 = "1m" ∧ minute2Interval 2 = "2m" ∧ minute2Interval 3 = "3m" ∧
        minute2Interval 5 = "5m" ∧ minute2Interval 60 = "1h" ∧ minute2Interval 120 = "2h") ∧
      (∀ m : Int, m ≠ 1 → m ≠ 2 → m ≠ 3 → m ≠ 5 → m ≠ 60 → m ≠ 120 →
        minute2Interval m = toString m ++ "m" ∧
        (0 ≤ m → minute2Interval m = (Nat.toDigits 10 m.toNat).asString ++ "m") ∧
        (m < 0 → minute2Interval m = "-" ++ (Nat.toDigits 10 (-m).toNat).asString ++ "m")) ∧
      (∀ (pow : ℚ → ℚ → ℚ) (now : Int) (bt : BackTest ℚ) (r : Portfolio),
        bt.Portfolio pow now = some r →
        ∃ last beforeLast,
          index bt.Prices ((bt.Prices.length : Int) - 1) = some last ∧
          index bt.Prices ((bt.Prices.length : Int) - 2) = some beforeLast ∧
          r.Interval =
            minute2Interval
              (toInt (Duration.Minutes (Time.Sub last.Timestamp beforeLast.Timestamp))) ∧
          (|Time.Sub last.Timestamp beforeLast.Timestamp| < 262144 * 60000000000 →
            r.Interval =
              minute2Interval
                (Int.tdiv (Time.Sub last.Timestamp beforeLast.Timestamp) 60000000000))) := by
  refine ⟨⟨rfl, rfl, rfl, rfl, rfl, rfl⟩, ?_, ?_⟩
  · intro m h1 h2 h3 h5 h60 h120
    have hm : minute2Interval m = toString m ++ "m" := by
      simp [minute2Interval, h1, h2, h3, h5, h60, h120]
    refine ⟨hm, ?_, ?_⟩
    · intro h
      obtain ⟨n, rfl⟩ := Int.eq_ofNat_of_zero_le h
      rw [hm]; rfl
    · intro h
      obtain ⟨n, rfl⟩ := Int.eq_negSucc_of_lt_zero h
      rw [hm]; rfl
  · intro pow now bt r hr
    obtain ⟨baseCoin, quoteCoin, first, last, beforeLast, hb, hq, hf, hl, hp⟩ :=
      Portfolio_index_of_some pow now bt r hr
    rw [Portfolio_of_index pow now bt baseCoin quoteCoin first last beforeLast hb hq hf hl hp]
      at hr
    have hr2 := Option.some.inj hr
    subst hr2
    exact ⟨last, beforeLast, hl, hp, rfl, fun hgap => by rw [← toInt_minutes _ hgap]⟩

/-- C14 amended, at concrete inputs: 60 minutes give "1h" and 7 minutes give "7m", for the
function and for the report of a series whose last two bars are that far apart. -/
theorem interval_label_witness :
    minute2Interval 60 = "1h" ∧ minute2Interval 7 = "7m" ∧
      (∀ (pow : ℚ → ℚ → ℚ) (now : Int),
        ∃ r, (Scenario.E (60 * Scenario.minute)).Portfolio pow now = some r ∧
          r.Interval = "1h") ∧
      (∀ (pow : ℚ → ℚ → ℚ) (now : Int),
        ∃ r, (Scenario.E (7 * Scenario.minute)).Portfolio pow now = some r ∧
          r.Interval = "7m") := by
  refine ⟨interval_label.1.2.2.2.2.1, by decide, ?_, ?_⟩
  · intro pow now
    obtain ⟨r, hr⟩ := Portfolio_isSome pow now (Scenario.E (60 * Scenario.minute))
      (by decide) (by decide)
    obtain ⟨last, beforeLast, hl, hp, _, hi⟩ := interval_label.2.2 pow now _ r hr
    have hlast : last = Scenario.bar 100 100 100 (Scenario.hour + 60 * Scenario.minute) :=
      (Option.some.inj (hl.symm.trans (by rfl))).symm ▸ rfl
    have hprev : beforeLast = Scenario.bar 100 100 100 Scenario.hour :=
      (Option.some.inj (hp.symm.trans (by rfl))).symm ▸ rfl
    subst hlast hprev
    exact ⟨r, hr, (hi (by decide)).trans (by decide)⟩
  · intro pow now
    obtain ⟨r, hr⟩ := Portfolio_isSome pow now (Scenario.E (7 * Scenario.minute))
      (by decide) (by decide)
    obtain ⟨last, beforeLast, hl, hp, _, hi⟩ := interval_label.2.2 pow now _ r hr
    have hlast : last = Scenario.bar 100 100 100 (Scenario.hour + 7 * Scenario.minute) :=
      (Option.some.inj (hl.symm.trans (by rfl))).symm ▸ rfl
    have hprev : beforeLast = Scenario.bar 100 100 100 Scenario.hour :=
      (Option.some.inj (hp.symm.trans (by rfl))).symm ▸ rfl
    subst hlast hprev
    exact ⟨r, hr, (hi (by decide)).trans (by decide)⟩

/-- C15. Slugification of the strategy name: the result of
`replaceNonAlphabeticCharacterToDash` has as many characters as the lowercased string (and as
the string); its `i`-th character is the lower case of the `i`-th character of the string
when that lower case is a letter or a digit, and a dash otherwise; where lowercasing keeps a
character among the letters and digits or outside them, as the Unicode case tables do, the
test may be read on the character of the string itself; every character of the result is a
letter, a digit or a dash, and the result holds no underscore, the underscore being neither
letter nor digit. -/
theorem slugification (u : Unicode) (str : List Char) :
    (replaceNonAlphabeticCharacterToDash u str).length = (str.map u.ToLower).length ∧
      (replaceNonAlphabeticCharacterToDash u str).length = str.length ∧
      (∀ (i : Nat) (hi : i < str.length),
        (replaceNonAlphabeticCharacterToDash u str)[i]? =
          some (if u.IsLetter (u.ToLower str[i]) = true ∨ u.IsDigit (u.ToLower str[i]) = true
            then u.ToLower str[i] else '-')) ∧
      ((∀ c, (u.IsLetter (u.ToLower c) = true ∨ u.IsDigit (u.ToLower c) = true) ↔
          (u.IsLetter c = true ∨ u.IsDigit c = true)) →
        ∀ (i : Nat) (hi : i < str.length),
          (replaceNonAlphabeticCharacterToDash u str)[i]? =
            some (if u.IsLetter str[i] = true ∨ u.IsDigit str[i] = true
              then u.ToLower str[i] else '-')) ∧
      (∀ c ∈ replaceNonAlphabeticCharacterToDash u str,
        u.IsLetter c = true ∨ u.IsDigit c = true ∨ c = '-') ∧
      (u.IsLetter '_' = false → u.IsDigit '_' = false →
        '_' ∉ replaceNonAlphabeticCharacterToDash u str) := by
  have hget : ∀ (i : Nat) (hi : i < str.length),
      (replaceNonAlphabeticCharacterToDash u str)[i]? =
        some (if u.IsLetter (u.ToLower str[i]) = true ∨ u.IsDigit (u.ToLower str[i]) = true
          then u.ToLower str[i] else '-') := by
    intro i hi
    simp only [replaceNonAlphabeticCharacterToDash, List.getElem?_map,
      List.getElem?_eq_getElem hi, Option.map_some']
    by_cases hl : u.IsLetter (u.ToLower str[i]) = true
    · simp [hl]
    · by_cases hd : u.IsDigit (u.ToLower str[i]) = true
      · simp [hl, hd]
      · simp [hl, hd]
  have hmem : ∀ c ∈ replaceNonAlphabeticCharacterToDash u str,
      u.IsLetter c = true ∨ u.IsDigit c = true ∨ c = '-' := by
    intro c hc
    simp only [replaceNonAlphabeticCharacterToDash, List.mem_map] at hc
    obtain ⟨r, _, hr⟩ := hc
    by_cases hl : u.IsLetter r = true
    · rw [if_pos hl] at hr; subst hr; exact Or.inl hl
    · rw [if_neg hl] at hr
      by_cases hd : u.IsDigit r = true
      · rw [if_pos hd] at hr; subst hr; exact Or.inr (Or.inl hd)
      · rw [if_neg hd] at hr; exact Or.inr (Or.inr hr.symm)
  refine ⟨by simp [replaceNonAlphabeticCharacterToDash],
    by simp [replaceNonAlphabeticCharacterToDash], hget, ?_, hmem, ?_⟩
  · intro hcase i hi
    rw [hget i hi]
    by_cases h : u.IsLetter str[i] = true ∨ u.IsDigit str[i] = true
    · rw [if_pos ((hcase _).2 h), if_pos h]
    · rw [if_neg (fun hh => h ((hcase _).1 hh)), if_neg h]
  · intro hl hd hin
    rcases hmem '_' hin with h | h | h
    · rw [hl] at h; exact Bool.noConfusion h
    · rw [hd] at h; exact Bool.noConfusion h
    · exact absurd h (by decide)

/-- C15, at a concrete input: with the tables cut down to ASCII, "My Strat_1" becomes
"my-strat-1", which has the same length and no underscore. -/
theorem slugification_witness :
    replaceNonAlphabeticCharacterToDash Scenario.ascii "My Strat_1".data = "my-strat-1".data ∧
      (replaceNonAlphabeticCharacterToDash Scenario.ascii "My Strat_1".data).length
        = "My Strat_1".data.length ∧
      '_' ∉ replaceNonAlphabeticCharacterToDash Scenario.ascii "My Strat_1".data :=
  ⟨by decide, (slugification Scenario.ascii "My Strat_1".data).2.1,
    (slugification Scenario.ascii "My Strat_1".data).2.2.2.2.2 (by decide) (by decide)⟩

/-! ## More facts about the run -/

section RunFacts

set_option linter.unusedSectionVars false

variable {F : Type} [Add F] [Sub F] [Mul F] [Div F] [LE F] [∀ a b : F, Decidable (a ≤ b)]

theorem runBarUnguarded_eq (myStrategy : Strategy F) (s : RunState F) (price : Price F) :
    runBarUnguarded myStrategy s price = runBar myStrategy s price := by
  unfold runBarUnguarded runBar
  rw [resolveBar_eq]

theorem runFromUnguarded_eq (myStrategy : Strategy F) (prices : List (Price F))
    (s : RunState F) : runFromUnguarded myStrategy s prices = runFrom myStrategy s prices := by
  induction prices generalizing s with
  | nil => rfl
  | cons price rest ih =>
    show runFromUnguarded myStrategy (runBarUnguarded myStrategy s price) rest =
      runFrom myStrategy (runBar myStrategy s price) rest
    rw [runBarUnguarded_eq, ih]

/-- An order of the history after a bar is an order of the history before the bar as the loop
body left it, or the order just created, which is open and stamped with the bar's time. -/
theorem mem_runBar_history (myStrategy : Strategy F) (s : RunState F) (price : Price F)
    (o : Order F) (h : o ∈ (runBar myStrategy s price).HistoryOrders) :
    (∃ o0 ∈ s.HistoryOrders, o = (resolveOrder price o0 s.Options).1) ∨
      ∃ openingOrder amount, o = NewOrder openingOrder amount price.OpenPrice price.Timestamp := by
  unfold runBar at h
  rcases openStep_history myStrategy price (resolveBar price s) with hh | ⟨oo, a, _, _, hh⟩
  · rw [hh, resolveBar_history, List.mem_map] at h
    obtain ⟨o0, h0, rfl⟩ := h
    exact Or.inl ⟨o0, h0, rfl⟩
  · rw [hh, resolveBar_history, List.mem_append, List.mem_map, List.mem_singleton] at h
    rcases h with ⟨o0, h0, rfl⟩ | rfl
    · exact Or.inl ⟨o0, h0, rfl⟩
    · exact Or.inr ⟨oo, a, rfl⟩

/-- The loop body keeps the opening time; an order it leaves terminal was terminal before and
is unchanged, or has just been closed at the bar's timestamp. -/
theorem resolveOrder_closing (price : Price F) (o : Order F) (options : BacktestOptions F) :
    (resolveOrder price o options).1.OpenedAt = o.OpenedAt ∧
      ((resolveOrder price o options).1.IsEnable = false →
        (o.IsEnable = false ∧ (resolveOrder price o options).1 = o) ∨
          (o.IsEnable = true ∧
            (resolveOrder price o options).1.ClosedAt = some price.Timestamp)) := by
  refine ⟨(resolveOrder_creation_fields price o options).2.2.2.2.2, ?_⟩
  intro hterm
  by_cases h : o.IsEnable = true
  · right
    refine ⟨h, ?_⟩
    by_cases hc : price.LowPrice ≤ o.CancelOrderPrice ∧ o.CancelOrderPrice ≤ price.HighPrice
    · rw [resolveOrder_of_cancel price o options h hc.1 hc.2, markCancel_of_enable o _ h]
    · by_cases ht : price.LowPrice ≤ o.TakeProfitPrice ∧ o.TakeProfitPrice ≤ price.HighPrice
      · rw [resolveOrder_of_match price o options h hc ht.1 ht.2, markMatched_of_enable o _ h]
      · rw [resolveOrder_of_neither price o options hc ht, h] at hterm
        exact Bool.noConfusion hterm
  · have h2 : o.IsEnable = false := by simpa using h
    left
    exact ⟨h2, by rw [resolveOrder_of_not_enable price o options h2]⟩

/-- Over bars with strictly increasing timestamps, every order is opened on a bar of the
series, before all the bars still to come, and every terminal order is closed on a bar of
the series later than the one it was opened on. -/
theorem runFrom_closing (myStrategy : Strategy F) (all rest : List (Price F))
    (hsub : ∀ p ∈ rest, p ∈ all)
    (hsorted : rest.Pairwise (fun a b => a.Timestamp < b.Timestamp)) (s : RunState F)
    (hinv : ∀ o ∈ s.HistoryOrders,
      (∃ b ∈ all, o.OpenedAt = b.Timestamp) ∧
      (∀ p ∈ rest, o.OpenedAt < p.Timestamp) ∧
      (o.IsEnable = false →
        ∃ c ∈ all, o.ClosedAt = some c.Timestamp ∧ o.OpenedAt < c.Timestamp)) :
    ∀ o ∈ (runFrom myStrategy s rest).HistoryOrders,
      (∃ b ∈ all, o.OpenedAt = b.Timestamp) ∧
      (o.IsEnable = false →
        ∃ c ∈ all, o.ClosedAt = some c.Timestamp ∧ o.OpenedAt < c.Timestamp) := by
  induction rest generalizing s with
  | nil =>
    intro o ho
    exact ⟨(hinv o ho).1, (hinv o ho).2.2⟩
  | cons price rest ih =>
    have hprice : price ∈ all := hsub price (List.mem_cons_self _ _)
    have hlater : ∀ p ∈ rest, price.Timestamp < p.Timestamp :=
      (List.pairwise_cons.1 hsorted).1
    apply ih (fun p hp => hsub p (List.mem_cons_of_mem _ hp)) (List.pairwise_cons.1 hsorted).2
      (runBar myStrategy s price)
    intro o ho
    rcases mem_runBar_history myStrategy s price o ho with ⟨o0, h0, rfl⟩ | ⟨oo, a, rfl⟩
    · obtain ⟨hopened, hbefore, hclosed⟩ := hinv o0 h0
      obtain ⟨hsame, hterm⟩ := resolveOrder_closing price o0 s.Options
      rw [hsame]
      refine ⟨hopened, fun p hp => hbefore p (List.mem_cons_of_mem _ hp), ?_⟩
      intro hdone
      rcases hterm hdone with ⟨hwas, heq⟩ | ⟨_, hnow⟩
      · rw [heq]; exact hclosed hwas
      · exact ⟨price, hprice, hnow, hbefore price (List.mem_cons_self _ _)⟩
    · refine ⟨⟨price, hprice, rfl⟩, fun p hp => hlater p hp, ?_⟩
      intro hdone
      exact Bool.noConfusion hdone

end RunFacts

/-! ## The claims on the order of events and on the guard -/

section OrderingClaims

set_option linter.unusedSectionVars false

variable {F : Type} [Add F] [Sub F] [Mul F] [Div F] [LE F] [∀ a b : F, Decidable (a ≤ b)]

/-- C16. Resolve before open: an order appended on a bar is, after that bar, OPEN, without a
closing time and stamped with the bar's timestamp, whatever its trigger prices and the bar's
range are; hence, for a series with strictly increasing timestamps, every terminal order of
the final history was opened on a bar of the series and closed on a bar of the series with a
strictly later timestamp. -/
theorem resolve_before_open (bt : BackTest F)
    (hsorted : bt.Prices.Pairwise (fun a b => a.Timestamp < b.Timestamp)) :
    (∀ (s : RunState F) (price : Price F) (i : Nat) (o : Order F),
      s.HistoryOrders.length ≤ i →
      (runBar bt.myStrategy s price).HistoryOrders[i]? = some o →
      o.Status = OrderStatus.OPEN ∧ o.ClosedAt = none ∧ o.OpenedAt = price.Timestamp) ∧
    (∀ o ∈ bt.Run.order, o.Status ≠ OrderStatus.OPEN →
      ∃ opened ∈ bt.Prices, ∃ closed ∈ bt.Prices,
        o.OpenedAt = opened.Timestamp ∧ o.ClosedAt = some closed.Timestamp ∧
        opened.Timestamp < closed.Timestamp) := by
  constructor
  · intro s price i o hi hget
    unfold runBar at hget
    rcases openStep_history bt.myStrategy price (resolveBar price s) with hh | ⟨oo, a, _, _, hh⟩
    · rw [hh, resolveBar_history, List.getElem?_eq_none (by rw [List.length_map]; exact hi)]
        at hget
      exact Option.noConfusion hget
    · rw [hh, resolveBar_history] at hget
      have hlen : (List.map (fun o => (resolveOrder price o s.Options).1) s.HistoryOrders).length
          ≤ i := by rw [List.length_map]; exact hi
      rw [List.getElem?_append_right hlen] at hget
      cases hk : i - (List.map (fun o => (resolveOrder price o s.Options).1)
          s.HistoryOrders).length with
      | zero =>
        rw [hk] at hget
        have ho : NewOrder oo a price.OpenPrice price.Timestamp = o := by simpa using hget
        subst ho
        exact ⟨rfl, rfl, rfl⟩
      | succ k =>
        rw [hk] at hget
        simp at hget
  · intro o ho hterm
    have hdone : o.IsEnable = false := by simp [Order.IsEnable, hterm]
    obtain ⟨⟨opened, hopened, hoa⟩, hclosed⟩ :=
      runFrom_closing bt.myStrategy bt.Prices bt.Prices (fun _ hp => hp) hsorted
        { HistoryOrders := [], Options := bt.BackTestOptions }
        (fun o ho => absurd ho (List.not_mem_nil o)) o ho
    obtain ⟨closed, hc, hca, hlt⟩ := hclosed hdone
    exact ⟨opened, hopened, closed, hc, hoa, hca, by rw [← hoa]; exact hlt⟩

/-- C16, at a concrete input: in scenario C the order opened on the bar stamped 0 with cancel
price 90, although the cancel check is not run on that bar, is closed on the bar stamped one
hour later. -/
theorem resolve_before_open_witness :
    Scenario.C.Prices.Pairwise (fun a b => a.Timestamp < b.Timestamp) ∧
      ∀ o ∈ Scenario.C.Run.order, o.Status ≠ OrderStatus.OPEN →
        ∃ opened ∈ Scenario.C.Prices, ∃ closed ∈ Scenario.C.Prices,
          o.OpenedAt = opened.Timestamp ∧ o.ClosedAt = some closed.Timestamp ∧
          opened.Timestamp < closed.Timestamp :=
  ⟨by simp +decide [Scenario.C, Scenario.bar],
    (resolve_before_open Scenario.C (by simp +decide [Scenario.C, Scenario.bar])).2⟩

/-- C17. The guard on the open-order count is only an optimisation: `Run` with the check
`CountEnabledOrder() != 0` and the same loop with the check removed end with the same order
history and the same options, balances included, from the empty history of `Run` and from
any other state. -/
theorem count_guard_is_optimisation (bt : BackTest F) (s : RunState F) :
    bt.Run = bt.RunUnguarded ∧
      bt.Run.order = bt.RunUnguarded.order ∧
      bt.Run.BackTestOptions = bt.RunUnguarded.BackTestOptions ∧
      runFrom bt.myStrategy s bt.Prices = runFromUnguarded bt.myStrategy s bt.Prices := by
  have h : bt.Run = bt.RunUnguarded := by
    unfold BackTest.Run BackTest.RunUnguarded
    rw [runFromUnguarded_eq]
  exact ⟨h, by rw [h], by rw [h], (runFromUnguarded_eq bt.myStrategy bt.Prices s).symm⟩

end OrderingClaims

/-! ## Balances over exact rationals -/

/-- The loop body keeps non-negative balances non-negative when the order it meets has a
non-negative amount and a positive open price. -/
theorem resolveOrder_nonneg (price : Price ℚ) (o : Order ℚ) (options : BacktestOptions ℚ)
    (hamount : 0 ≤ o.Amount) (hopen : 0 < o.OpenPrice)
    (hbase : 0 ≤ options.CurrentBaseAmount) (hquote : 0 ≤ options.CurrentQuoteAmount) :
    0 ≤ (resolveOrder price o options).2.CurrentBaseAmount ∧
      0 ≤ (resolveOrder price o options).2.CurrentQuoteAmount := by
  have hmul : 0 ≤ o.Amount * o.OpenPrice := mul_nonneg hamount (le_of_lt hopen)
  have hdiv : 0 ≤ o.Amount / o.OpenPrice := div_nonneg hamount (le_of_lt hopen)
  by_cases h : o.IsEnable = true
  · by_cases hc : price.LowPrice ≤ o.CancelOrderPrice ∧ o.CancelOrderPrice ≤ price.HighPrice
    · rw [resolveOrder_of_cancel price o options h hc.1 hc.2]
      by_cases hside : o.OrderType = OrderType.ASK
      · simp only [if_pos hside]; exact ⟨add_nonneg hbase hamount, hquote⟩
      · simp only [if_neg hside]; exact ⟨hbase, add_nonneg hquote hmul⟩
    · by_cases ht : price.LowPrice ≤ o.TakeProfitPrice ∧ o.TakeProfitPrice ≤ price.HighPrice
      · rw [resolveOrder_of_match price o options h hc ht.1 ht.2]
        by_cases hside : o.OrderType = OrderType.ASK
        · simp only [if_pos hside]; exact ⟨hbase, add_nonneg hquote hmul⟩
        · simp only [if_neg hside]; exact ⟨add_nonneg hbase hdiv, hquote⟩
      · rw [resolveOrder_of_neither price o options hc ht]; exact ⟨hbase, hquote⟩
  · rw [resolveOrder_of_not_enable price o options (by simpa using h)]; exact ⟨hbase, hquote⟩

theorem resolveOrders_nonneg (price : Price ℚ) (history : List (Order ℚ))
    (options : BacktestOptions ℚ)
    (horders : ∀ o ∈ history, 0 ≤ o.Amount ∧ 0 < o.OpenPrice)
    (hbase : 0 ≤ options.CurrentBaseAmount) (hquote : 0 ≤ options.CurrentQuoteAmount) :
    0 ≤ (resolveOrders price history options).2.CurrentBaseAmount ∧
      0 ≤ (resolveOrders price history options).2.CurrentQuoteAmount := by
  induction history generalizing options with
  | nil => exact ⟨hbase, hquote⟩
  | cons o rest ih =>
    have ho := horders o (List.mem_cons_self _ _)
    have hstep := resolveOrder_nonneg price o options ho.1 ho.2 hbase hquote
    exact ih (resolveOrder price o options).2
      (fun x hx => horders x (List.mem_cons_of_mem _ hx)) hstep.1 hstep.2

/-- One bar with a positive open price keeps the allocation non-negative, the balances
non-negative, and the amounts and open prices of the orders non-negative and positive. -/
theorem runBar_nonneg (myStrategy : Strategy ℚ) (s : RunState ℚ) (price : Price ℚ)
    (hprice : 0 < price.OpenPrice)
    (hinv : 0 ≤ s.Options.AmountPerOrder ∧ 0 ≤ s.Options.CurrentBaseAmount ∧
      0 ≤ s.Options.CurrentQuoteAmount ∧
      ∀ o ∈ s.HistoryOrders, 0 ≤ o.Amount ∧ 0 < o.OpenPrice) :
    0 ≤ (runBar myStrategy s price).Options.AmountPerOrder ∧
      0 ≤ (runBar myStrategy s price).Options.CurrentBaseAmount ∧
      0 ≤ (runBar myStrategy s price).Options.CurrentQuoteAmount ∧
      ∀ o ∈ (runBar myStrategy s price).HistoryOrders, 0 ≤ o.Amount ∧ 0 < o.OpenPrice := by
  obtain ⟨hA, hbase, hquote, horders⟩ := hinv
  have hres := resolveOrders_nonneg price s.HistoryOrders s.Options horders hbase hquote
  have hresA : (resolveBar price s).Options.AmountPerOrder = s.Options.AmountPerOrder := by
    rw [resolveBar_eq]; exact resolveOrders_amountPerOrder price s.HistoryOrders s.Options
  have hresB : 0 ≤ (resolveBar price s).Options.CurrentBaseAmount := by
    rw [resolveBar_eq]; exact hres.1
  have hresQ : 0 ≤ (resolveBar price s).Options.CurrentQuoteAmount := by
    rw [resolveBar_eq]; exact hres.2
  have hresO : ∀ o ∈ (resolveBar price s).HistoryOrders, 0 ≤ o.Amount ∧ 0 < o.OpenPrice := by
    intro o ho
    rw [resolveBar_history, List.mem_map] at ho
    obtain ⟨o0, h0, rfl⟩ := ho
    obtain ⟨_, hamount, hopen, _⟩ := resolveOrder_creation_fields price o0 s.Options
    rw [hamount, hopen]
    exact horders o0 h0
  have hkeep : 0 ≤ (resolveBar price s).Options.AmountPerOrder ∧
      0 ≤ (resolveBar price s).Options.CurrentBaseAmount ∧
      0 ≤ (resolveBar price s).Options.CurrentQuoteAmount ∧
      ∀ o ∈ (resolveBar price s).HistoryOrders, 0 ≤ o.Amount ∧ 0 < o.OpenPrice :=
    ⟨by rw [hresA]; exact hA, hresB, hresQ, hresO⟩
  unfold runBar
  cases h : myStrategy.OpenNewOrder price with
  | none => rw [openStep_of_none myStrategy price _ h]; exact hkeep
  | some openingOrder =>
    cases hside : openingOrder.OrderType with
    | ASK =>
      by_cases hfunds : (resolveBar price s).Options.AmountPerOrder / price.OpenPrice
          ≤ (resolveBar price s).Options.CurrentBaseAmount
      · rw [openStep_of_ask myStrategy price _ openingOrder h hside hfunds]
        refine ⟨hkeep.1, sub_nonneg.2 hfunds, hresQ, ?_⟩
        intro o ho
        rcases List.mem_append.1 ho with ho | ho
        · exact hresO o ho
        · rw [List.mem_singleton.1 ho]
          exact ⟨div_nonneg hkeep.1 (le_of_lt hprice), hprice⟩
      · rw [openStep_of_ask_short myStrategy price _ openingOrder h hside hfunds]; exact hkeep
    | BID =>
      by_cases hfunds : (resolveBar price s).Options.AmountPerOrder
          ≤ (resolveBar price s).Options.CurrentQuoteAmount
      · rw [openStep_of_bid myStrategy price _ openingOrder h hside hfunds]
        refine ⟨hkeep.1, hresB, sub_nonneg.2 hfunds, ?_⟩
        intro o ho
        rcases List.mem_append.1 ho with ho | ho
        · exact hresO o ho
        · rw [List.mem_singleton.1 ho]
          exact ⟨hkeep.1, hprice⟩
      · rw [openStep_of_bid_short myStrategy price _ openingOrder h hside hfunds]; exact hkeep

theorem runFrom_nonneg (myStrategy : Strategy ℚ) (prices : List (Price ℚ)) (s : RunState ℚ)
    (hprices : ∀ p ∈ prices, 0 < p.OpenPrice)
    (hinv : 0 ≤ s.Options.AmountPerOrder ∧ 0 ≤ s.Options.CurrentBaseAmount ∧
      0 ≤ s.Options.CurrentQuoteAmount ∧
      ∀ o ∈ s.HistoryOrders, 0 ≤ o.Amount ∧ 0 < o.OpenPrice) :
    0 ≤ (runFrom myStrategy s prices).Options.CurrentBaseAmount ∧
      0 ≤ (runFrom myStrategy s prices).Options.CurrentQuoteAmount := by
  induction prices generalizing s with
  | nil => exact ⟨hinv.2.1, hinv.2.2.1⟩
  | cons price rest ih =>
    exact ih (runBar myStrategy s price) (fun p hp => hprices p (List.mem_cons_of_mem _ hp))
      (runBar_nonneg myStrategy s price (hprices price (List.mem_cons_self _ _)) hinv)

/-! ## The claims on the balances -/

/-- C18. Non-negative balances: for a series whose open prices are all strictly positive,
any strategy, `AmountPerOrder ≥ 0` and starting balances `≥ 0`, both balances are `≥ 0` after
every bar processed by `Run` (after each prefix of the series), and so at the end of `Run`. -/
theorem nonneg_balances (bt : BackTest ℚ) (hprices : ∀ p ∈ bt.Prices, 0 < p.OpenPrice)
    (hA : 0 ≤ bt.BackTestOptions.AmountPerOrder)
    (hbase : 0 ≤ bt.BackTestOptions.CurrentBaseAmount)
    (hquote : 0 ≤ bt.BackTestOptions.CurrentQuoteAmount) :
    (∀ n : Nat,
      0 ≤ (runFrom bt.myStrategy { HistoryOrders := [], Options := bt.BackTestOptions }
          (bt.Prices.take n)).Options.CurrentBaseAmount ∧
      0 ≤ (runFrom bt.myStrategy { HistoryOrders := [], Options := bt.BackTestOptions }
          (bt.Prices.take n)).Options.CurrentQuoteAmount) ∧
    0 ≤ bt.Run.BackTestOptions.CurrentBaseAmount ∧
    0 ≤ bt.Run.BackTestOptions.CurrentQuoteAmount := by
  have hstart : 0 ≤ bt.BackTestOptions.AmountPerOrder ∧ 0 ≤ bt.BackTestOptions.CurrentBaseAmount ∧
      0 ≤ bt.BackTestOptions.CurrentQuoteAmount ∧
      ∀ o ∈ ([] : List (Order ℚ)), 0 ≤ o.Amount ∧ 0 < o.OpenPrice :=
    ⟨hA, hbase, hquote, fun o ho => absurd ho (List.not_mem_nil o)⟩
  refine ⟨fun n => ?_, ?_⟩
  · exact runFrom_nonneg bt.myStrategy (bt.Prices.take n) _
      (fun p hp => hprices p (List.mem_of_mem_take hp)) hstart
  · exact runFrom_nonneg bt.myStrategy bt.Prices _ hprices hstart

/-- C18, at a concrete input: scenario C, with open prices 100 and 92, allocation 100 and
starting balances 0 and 100. -/
theorem nonneg_balances_witness :
    (∀ p ∈ Scenario.C.Prices, 0 < p.OpenPrice) ∧
      0 ≤ Scenario.C.Run.BackTestOptions.CurrentBaseAmount ∧
      0 ≤ Scenario.C.Run.BackTestOptions.CurrentQuoteAmount :=
  ⟨by simp [Scenario.C, Scenario.bar],
    (nonneg_balances Scenario.C (by simp [Scenario.C, Scenario.bar])
      (by norm_num [Scenario.C, Scenario.options]) (by norm_num [Scenario.C, Scenario.options])
      (by norm_num [Scenario.C, Scenario.options])).2⟩

/-! ## The claim on the value of a matched order -/

/-- The `float64` nearest to `100 / 11`. -/
theorem roundFloat64_hundred_elevenths :
    roundFloat64 (100 / 11) = 5117726849284655 / 562949953421312 := by
  have h := roundFloat64_eq (100 / 11) 3 5117726849284655 (by norm_num) (by norm_num)
    (roundHalfEven_of_gt _ 5117726849284654 (by norm_num) (by norm_num))
  rw [h]
  norm_num

/-- The `float64` nearest to 11 times the `float64` nearest to `100 / 11`: the next
`float64` above 100. -/
theorem roundFloat64_eleven_times :
    roundFloat64 (5117726849284655 / 562949953421312 * 11)
      = 7036874417766401 / 70368744177664 := by
  have h := roundFloat64_eq (5117726849284655 / 562949953421312 * 11) 6 7036874417766401
    (by norm_num) (by norm_num)
    (roundHalfEven_of_gt _ 7036874417766400 (by norm_num) (by norm_num))
  rw [h]
  norm_num

/-- That `float64` is its own rounding. -/
theorem roundFloat64_above_hundred :
    roundFloat64 (7036874417766401 / 70368744177664) = 7036874417766401 / 70368744177664 := by
  have h := roundFloat64_eq (7036874417766401 / 70368744177664) 6 7036874417766401
    (by norm_num) (by norm_num)
    (roundHalfEven_of_lt _ 7036874417766401 (by norm_num) (by norm_num))
  rw [h]
  norm_num

/-- C19, as stated, fails in `float64` arithmetic on scenario F: the ASK order opened by
`Run` at open price 11 with allocation 100 reserves the `float64` nearest to `100 / 11` and
is matched on the next bar, and the credit, the `float64` product of that amount and 11 added
to the quote amount 0, is `100 + 2 ^ -46` (100.00000000000001), not the allocation 100. -/
theorem matched_value_neutral_counterexample :
    Scenario.F.Run.order.map (fun o => (o.OrderType, o.Status, o.Amount, o.OpenPrice)) =
        [(OrderType.ASK, OrderStatus.MATCHED, ⟨5117726849284655 / 562949953421312⟩, ⟨11⟩)] ∧
      Scenario.F.BackTestOptions.CurrentQuoteAmount = ⟨0⟩ ∧
      Scenario.F.Run.BackTestOptions.CurrentQuoteAmount
        = ⟨7036874417766401 / 70368744177664⟩ ∧
      (7036874417766401 / 70368744177664 : ℚ) = 100 + 1 / 2 ^ 46 ∧
      Scenario.F.Run.BackTestOptions.CurrentQuoteAmount ≠ Scenario.F.BackTestOptions.AmountPerOrder := by
  have hamount : (⟨100⟩ / ⟨11⟩ : Finite64) = ⟨5117726849284655 / 562949953421312⟩ := by
    show (⟨roundFloat64 (100 / 11)⟩ : Finite64) = _
    rw [roundFloat64_hundred_elevenths]
  have hcredit : (⟨0⟩ + ⟨5117726849284655 / 562949953421312⟩ * ⟨11⟩ : Finite64)
      = ⟨7036874417766401 / 70368744177664⟩ := by
    show (⟨roundFloat64 (0 + roundFloat64 (5117726849284655 / 562949953421312 * 11))⟩ :
      Finite64) = _
    rw [roundFloat64_eleven_times, zero_add, roundFloat64_above_hundred]
  have hrun := run_two_bars_of_ask Scenario.F.myStrategy (Scenario.bar64 11 11 11 0)
    (Scenario.bar64 12 (23 / 2) (25 / 2) Scenario.hour) Scenario.F.BackTestOptions
    Scenario.askIntent64 rfl rfl rfl (by
      show (⟨100⟩ / ⟨11⟩ : Finite64) ≤ ⟨10⟩
      rw [hamount]
      show (5117726849284655 / 562949953421312 : ℚ) ≤ 10
      norm_num)
  rw [resolveOrder_of_match (Scenario.bar64 12 (23 / 2) (25 / 2) Scenario.hour)
    (NewOrder Scenario.askIntent64
      (Scenario.F.BackTestOptions.AmountPerOrder / (Scenario.bar64 11 11 11 0).OpenPrice)
      (Scenario.bar64 11 11 11 0).OpenPrice (Scenario.bar64 11 11 11 0).Timestamp) _ rfl
    (by
      show ¬ ((23 / 2 : ℚ) ≤ 5 ∧ (5 : ℚ) ≤ 25 / 2)
      norm_num)
    (by
      show (23 / 2 : ℚ) ≤ 12
      norm_num)
    (by
      show (12 : ℚ) ≤ 25 / 2
      norm_num)] at hrun
  have hrun2 : runFrom Scenario.F.myStrategy
      { HistoryOrders := [], Options := Scenario.F.BackTestOptions } Scenario.F.Prices = _ := hrun
  have horder : Scenario.F.Run.order = _ := congrArg RunState.HistoryOrders hrun2
  have hquote : Scenario.F.Run.BackTestOptions.CurrentQuoteAmount
      = (⟨0⟩ + ⟨100⟩ / ⟨11⟩ * ⟨11⟩ : Finite64) :=
    congrArg (fun st => st.Options.CurrentQuoteAmount) hrun2
  rw [hamount, hcredit] at hquote
  refine ⟨?_, rfl, hquote, by norm_num, ?_⟩
  · rw [horder]
    show [(OrderType.ASK, OrderStatus.MATCHED, (⟨100⟩ / ⟨11⟩ : Finite64), (⟨11⟩ : Finite64))] = _
    rw [hamount]
  · rw [hquote]
    intro h
    have h2 := congrArg Finite64.val h
    norm_num [Scenario.F] at h2

section ValueClaims

set_option linter.unusedSectionVars false

variable {F : Type} [Add F] [Sub F] [Mul F] [Div F] [LE F] [∀ a b : F, Decidable (a ≤ b)]

/-- C19, amended. The credit of a matched order is computed from its stored amount and its
own open price, never from its take-profit price. When the strategy proposes an intent on a
bar with open price `p`, `A` being `AmountPerOrder`: an ASK order with the funds is appended
by `Run` with amount `A / p`, that many base units being reserved, and whenever the loop body
later meets it on a bar whose range holds its take-profit price and not its cancel price, it
is marked MATCHED, in its place in the history, and the quote amount is credited
`(A / p) * p`, the product of the stored quotient and the open price in the arithmetic of
the balances (which `float64` rounding can make differ from `A`); a BID order with the funds
is appended with amount `A`, that many quote units being reserved, and is credited `A / p`
base units. In a run over two bars that opens the order on the first bar and matches it on
the second, these are the final balances. The balances after a match are the same for every
take-profit price inside the bar's range. -/
theorem matched_value_neutral (myStrategy : Strategy F) (s : RunState F) (bar price : Price F)
    (openingOrder : OpeningOrder F)
    (hintent : myStrategy.OpenNewOrder bar = some openingOrder)
    (hc : ¬ (price.LowPrice ≤ openingOrder.CancelOrderPrice ∧
      openingOrder.CancelOrderPrice ≤ price.HighPrice))
    (ht : price.LowPrice ≤ openingOrder.TakeProfitPrice ∧
      openingOrder.TakeProfitPrice ≤ price.HighPrice) :
    (openingOrder.OrderType = OrderType.ASK →
      s.Options.AmountPerOrder / bar.OpenPrice ≤ (resolveBar bar s).Options.CurrentBaseAmount →
      ∃ o : Order F,
        (runBar myStrategy s bar).HistoryOrders = (resolveBar bar s).HistoryOrders ++ [o] ∧
        o.Amount = s.Options.AmountPerOrder / bar.OpenPrice ∧ o.OpenPrice = bar.OpenPrice ∧
        (runBar myStrategy s bar).Options =
          { (resolveBar bar s).Options with
            CurrentBaseAmount :=
              (resolveBar bar s).Options.CurrentBaseAmount
                - s.Options.AmountPerOrder / bar.OpenPrice } ∧
        (∀ options : BacktestOptions F,
          resolveOrder price o options =
            ({ o with Status := OrderStatus.MATCHED, ClosedAt := some price.Timestamp },
              { options with
                CurrentQuoteAmount :=
                  options.CurrentQuoteAmount
                    + s.Options.AmountPerOrder / bar.OpenPrice * bar.OpenPrice })) ∧
        ∀ (later : RunState F) (i : Nat), later.HistoryOrders[i]? = some o →
          (runBar myStrategy later price).HistoryOrders[i]? =
            some { o with Status := OrderStatus.MATCHED, ClosedAt := some price.Timestamp }) ∧
    (openingOrder.OrderType = OrderType.BID →
      s.Options.AmountPerOrder ≤ (resolveBar bar s).Options.CurrentQuoteAmount →
      ∃ o : Order F,
        (runBar myStrategy s bar).HistoryOrders = (resolveBar bar s).HistoryOrders ++ [o] ∧
        o.Amount = s.Options.AmountPerOrder ∧ o.OpenPrice = bar.OpenPrice ∧
        (runBar myStrategy s bar).Options =
          { (resolveBar bar s).Options with
            CurrentQuoteAmount :=
              (resolveBar bar s).Options.CurrentQuoteAmount - s.Options.AmountPerOrder } ∧
        (∀ options : BacktestOptions F,
          resolveOrder price o options =
            ({ o with Status := OrderStatus.MATCHED, ClosedAt := some price.Timestamp },
              { options with
                CurrentBaseAmount :=
                  options.CurrentBaseAmount + s.Options.AmountPerOrder / bar.OpenPrice })) ∧
        ∀ (later : RunState F) (i : Nat), later.HistoryOrders[i]? = some o →
          (runBar myStrategy later price).HistoryOrders[i]? =
            some { o with Status := OrderStatus.MATCHED, ClosedAt := some price.Timestamp }) ∧
    (∀ options : BacktestOptions F,
      myStrategy.OpenNewOrder price = none →
      (openingOrder.OrderType = OrderType.ASK →
        options.AmountPerOrder / bar.OpenPrice ≤ options.CurrentBaseAmount →
        (BackTest.Run ⟨myStrategy, [bar, price], options, []⟩).BackTestOptions =
          { options with
            CurrentBaseAmount :=
              options.CurrentBaseAmount - options.AmountPerOrder / bar.OpenPrice,
            CurrentQuoteAmount :=
              options.CurrentQuoteAmount
                + options.AmountPerOrder / bar.OpenPrice * bar.OpenPrice }) ∧
      (openingOrder.OrderType = OrderType.BID →
        options.AmountPerOrder ≤ options.CurrentQuoteAmount →
        (BackTest.Run ⟨myStrategy, [bar, price], options, []⟩).BackTestOptions =
          { options with
            CurrentQuoteAmount := options.CurrentQuoteAmount - options.AmountPerOrder,
            CurrentBaseAmount :=
              options.CurrentBaseAmount + options.AmountPerOrder / bar.OpenPrice })) ∧
    (∀ (T amount P : F) (t : Int) (options : BacktestOptions F),
      price.LowPrice ≤ T → T ≤ price.HighPrice →
      (resolveOrder price (NewOrder { openingOrder with TakeProfitPrice := T } amount P t)
          options).2 =
        (resolveOrder price (NewOrder openingOrder amount P t) options).2) := by
  have hbody : ∀ (oo : OpeningOrder F) (amount P : F) (t : Int) (options : BacktestOptions F),
      oo.CancelOrderPrice = openingOrder.CancelOrderPrice →
      price.LowPrice ≤ oo.TakeProfitPrice → oo.TakeProfitPrice ≤ price.HighPrice →
      resolveOrder price (NewOrder oo amount P t) options =
        ({ NewOrder oo amount P t with
            Status := OrderStatus.MATCHED, ClosedAt := some price.Timestamp },
          if oo.OrderType = OrderType.ASK then
            { options with CurrentQuoteAmount := options.CurrentQuoteAmount + amount * P }
          else
            { options with CurrentBaseAmount := options.CurrentBaseAmount + amount / P }) := by
    intro oo amount P t options hsame hlo hhi
    have hopen : (NewOrder oo amount P t).IsEnable = true := rfl
    have hc2 : ¬ (price.LowPrice ≤ (NewOrder oo amount P t).CancelOrderPrice ∧
        (NewOrder oo amount P t).CancelOrderPrice ≤ price.HighPrice) := by
      show ¬ (price.LowPrice ≤ oo.CancelOrderPrice ∧ oo.CancelOrderPrice ≤ price.HighPrice)
      rw [hsame]; exact hc
    rw [resolveOrder_of_match price (NewOrder oo amount P t) options hopen hc2 hlo hhi,
      markMatched_of_enable _ price.Timestamp hopen]
    rfl
  have hA : (resolveBar bar s).Options.AmountPerOrder = s.Options.AmountPerOrder :=
    resolveBar_amountPerOrder bar s
  refine ⟨?_, ?_, ?_, ?_⟩
  · intro hside hfunds
    have hstep := openStep_of_ask myStrategy bar (resolveBar bar s) openingOrder hintent hside
      (by rw [hA]; exact hfunds)
    rw [hA] at hstep
    have hcredit : ∀ options : BacktestOptions F,
        resolveOrder price
            (NewOrder openingOrder (s.Options.AmountPerOrder / bar.OpenPrice) bar.OpenPrice
              bar.Timestamp) options =
          ({ NewOrder openingOrder (s.Options.AmountPerOrder / bar.OpenPrice) bar.OpenPrice
                bar.Timestamp with
              Status := OrderStatus.MATCHED, ClosedAt := some price.Timestamp },
            { options with
              CurrentQuoteAmount :=
                options.CurrentQuoteAmount
                  + s.Options.AmountPerOrder / bar.OpenPrice * bar.OpenPrice }) := by
      intro options
      rw [hbody openingOrder _ _ _ options rfl ht.1 ht.2, if_pos hside]
    refine ⟨NewOrder openingOrder (s.Options.AmountPerOrder / bar.OpenPrice) bar.OpenPrice
      bar.Timestamp, congrArg RunState.HistoryOrders hstep, rfl, rfl,
      congrArg RunState.Options hstep, hcredit, ?_⟩
    intro later i hi
    rw [runBar_getElem? myStrategy later price i _ hi, hcredit]
  · intro hside hfunds
    have hstep := openStep_of_bid myStrategy bar (resolveBar bar s) openingOrder hintent hside
      (by rw [hA]; exact hfunds)
    rw [hA] at hstep
    have hcredit : ∀ options : BacktestOptions F,
        resolveOrder price
            (NewOrder openingOrder s.Options.AmountPerOrder bar.OpenPrice bar.Timestamp)
            options =
          ({ NewOrder openingOrder s.Options.AmountPerOrder bar.OpenPrice bar.Timestamp with
              Status := OrderStatus.MATCHED, ClosedAt := some price.Timestamp },
            { options with
              CurrentBaseAmount :=
                options.CurrentBaseAmount + s.Options.AmountPerOrder / bar.OpenPrice }) := by
      intro options
      rw [hbody openingOrder _ _ _ options rfl ht.1 ht.2, if_neg (by rw [hside]; decide)]
    refine ⟨NewOrder openingOrder s.Options.AmountPerOrder bar.OpenPrice bar.Timestamp,
      congrArg RunState.HistoryOrders hstep, rfl, rfl, congrArg RunState.Options hstep,
      hcredit, ?_⟩
    intro later i hi
    rw [runBar_getElem? myStrategy later price i _ hi, hcredit]
  · intro options hnone
    constructor
    · intro hside hfunds
      have hrun := run_two_bars_of_ask myStrategy bar price options openingOrder hintent hnone
        hside hfunds
      rw [hbody openingOrder _ _ _ _ rfl ht.1 ht.2, if_pos hside] at hrun
      exact congrArg RunState.Options hrun
    · intro hside hfunds
      have hrun := run_two_bars_of_bid myStrategy bar price options openingOrder hintent hnone
        hside hfunds
      rw [hbody openingOrder _ _ _ _ rfl ht.1 ht.2, if_neg (by rw [hside]; decide)] at hrun
      exact congrArg RunState.Options hrun
  · intro T amount P t options hlo hhi
    rw [hbody { openingOrder with TakeProfitPrice := T } amount P t options rfl hlo hhi,
      hbody openingOrder amount P t options rfl ht.1 ht.2]

end ValueClaims

/-- C19 amended, at a concrete input over exact rationals: an ASK order proposed on a bar
with open price 100, with allocation 100 and 1 base unit at hand, and matched on a bar with
range `[93, 95]`: the run ends with no base unit and the quote amount `100 + 100 / 100 * 100`,
which is 200. -/
theorem matched_value_neutral_witness :
    (Scenario.onFirstBar Scenario.askIntent).OpenNewOrder (Scenario.bar 100 100 100 0)
        = some Scenario.askIntent ∧
      ¬ ((Scenario.bar 93 93 95 Scenario.hour).LowPrice ≤ Scenario.askIntent.CancelOrderPrice ∧
        Scenario.askIntent.CancelOrderPrice ≤ (Scenario.bar 93 93 95 Scenario.hour).HighPrice) ∧
      ((Scenario.bar 93 93 95 Scenario.hour).LowPrice ≤ Scenario.askIntent.TakeProfitPrice ∧
        Scenario.askIntent.TakeProfitPrice ≤ (Scenario.bar 93 93 95 Scenario.hour).HighPrice) ∧
      (BackTest.Run ⟨Scenario.onFirstBar Scenario.askIntent,
          [Scenario.bar 100 100 100 0, Scenario.bar 93 93 95 Scenario.hour],
          { Scenario.options with CurrentBaseAmount := 1 }, []⟩).BackTestOptions =
        { Scenario.options with
          CurrentBaseAmount := 1 - 100 / 100,
          CurrentQuoteAmount := 100 + 100 / 100 * 100 } ∧
      (100 + 100 / 100 * 100 : ℚ) = 200 :=
  ⟨rfl, by norm_num [Scenario.bar, Scenario.askIntent],
    by norm_num [Scenario.bar, Scenario.askIntent],
    ((matched_value_neutral (Scenario.onFirstBar Scenario.askIntent)
      { HistoryOrders := [], Options := Scenario.options } (Scenario.bar 100 100 100 0)
      (Scenario.bar 93 93 95 Scenario.hour) Scenario.askIntent rfl
      (by norm_num [Scenario.bar, Scenario.askIntent])
      (by norm_num [Scenario.bar, Scenario.askIntent])).2.2.1
      { Scenario.options with CurrentBaseAmount := 1 } rfl).1 rfl
      (by norm_num [Scenario.options, Scenario.bar]),
    by norm_num⟩

end BackTesting
